import Mathlib

/-!
Verification development for the model-checking code generator.

Shallow embedding of the address space abstraction
(`libsolidity/modelcheck/scheduler/AddressSpace.cpp`), the currency transfer
generator (`libsolidity/modelcheck/model/Ether.cpp`), the type simplifier
(`libsolidity/modelcheck/utils/Types.cpp`), the function converter
(`libsolidity/modelcheck/model/Function.cpp`), the function block converter
(`libsolidity/modelcheck/model/Block_function.cpp`) and the forward
declaration pass (`libsolidity/modelcheck/FunctionForwardDeclVisitor.cpp`),
together with a small operational reading of the C statements these
generators emit.

Definitions come first, theorems afterwards.
-/

namespace ModelCheck

/-! ## Target language: the C syntax tree built by the generators -/

/-- C expressions, one constructor per `CExpr` class the generators build. -/
inductive CExpr where
  /-- `CIdentifier(name, is_pointer)`. -/
  | ident (name : String) (isPtr : Bool)
  /-- `CIntLiteral(v)`. -/
  | intLit (v : Nat)
  /-- `CStringLiteral(s)`. -/
  | strLit (s : String)
  /-- `CMemberAccess`, built by `access(member)`. -/
  | member (e : CExpr) (field : String)
  /-- `CBinaryOp(lhs, op, rhs)`. -/
  | binop (l : CExpr) (op : String) (r : CExpr)
  /-- `CAssign`, built by `assign(rhs)`. -/
  | assign (l : CExpr) (r : CExpr)
  /-- `CFuncCall(name, args)`, built by `CFuncCallBuilder`. -/
  | call (fn : String) (args : List CExpr)
  /-- `CReference(e)`. -/
  | ref (e : CExpr)
  deriving Repr

/-- C statements, one constructor per `CStmt` class the generators build. -/
inductive CStmt where
  /-- `CExprStmt`, built by `stmt()`. -/
  | expr (e : CExpr)
  /-- `CReturn(e)`; `none` is `CReturn(nullptr)`. -/
  | ret (e : Option CExpr)
  /-- `CIf(cond, then, nullptr)`. -/
  | ifThen (c : CExpr) (t : CStmt)
  /-- `CBlock(stmts)`. -/
  | block (ss : List CStmt)
  /-- `CVarDecl(type, name, is_pointer)` used as a statement. -/
  | decl (type : String) (name : String) (isPtr : Bool)
  /-- `CVarDecl(type, name, is_pointer, init)` used as a statement. -/
  | declInit (type : String) (name : String) (isPtr : Bool) (init : CExpr)
  deriving Repr

/-- `CVarDecl(type, name, is_pointer)` used as a parameter or function id. -/
structure CVarDecl where
  type : String
  name : String
  isPtr : Bool := false
  deriving Repr, DecidableEq

/-- `CVarDecl::id()`. -/
def CVarDecl.id (d : CVarDecl) : CExpr := .ident d.name d.isPtr

/-- `CVarDecl::access(member)`. -/
def CVarDecl.access (d : CVarDecl) (m : String) : CExpr := .member d.id m

/-- `CFuncDef(id, params, body)`; `body = none` is a forward declaration. -/
structure CFuncDef where
  id : CVarDecl
  params : List CVarDecl
  body : Option (List CStmt)
  deriving Repr

/-! ## Helpers of the generators whose sources are not part of this development -/

/-- Modelled from the spec: `Literals::ZERO` (`codegen/Literals.h` is missing),
the integer literal `0`. -/
def Literals.ZERO : CExpr := .intLit 0

/-- Modelled from the spec: `LibVerify::add_require(block, cond, msg)`
(`utils/LibVerify.h` is missing). It appends the call `sol_require(cond, msg)`
of the verification library, "a guarded fault if violated". -/
def LibVerify.add_require (block : List CStmt) (cond : CExpr) (msg : String) : List CStmt :=
  block ++ [.expr (.call "sol_require" [cond, .strLit msg])]

/-- Modelled from the spec: `LibVerify::add_assert(block, cond, msg)`
(`utils/LibVerify.h` is missing). It appends the call `sol_assert(cond, msg)`
of the verification library. -/
def LibVerify.add_assert (block : List CStmt) (cond : CExpr) (msg : String) : List CStmt :=
  block ++ [.expr (.call "sol_assert" [cond, .strLit msg])]

/-- Modelled from the spec: `LibVerify::log(block, msg)` (`utils/LibVerify.h`
is missing). It appends a logging call, which has no effect on the state. -/
def LibVerify.log (block : List CStmt) (msg : String) : List CStmt :=
  block ++ [.expr (.call "sol_log" [.strLit msg])]

/-- Modelled from the spec: `LibVerify::range(lo, hi, msg)` (`utils/LibVerify.h`
is missing), "a nondeterministic value constrained to `[lo, hi)`". -/
def LibVerify.range (lo hi : Nat) (msg : String) : CExpr :=
  .call "nd_range" [.intLit lo, .intLit hi, .strLit msg]

/-- Modelled from the spec: `NondetSourceRegistry::byte(msg)`
(`model/NondetSourceRegistry.h` is missing), a call into the external
nondeterministic-value interface returning one byte (`rt_nd_byte` of
`libverify`). -/
def NondetSourceRegistry.byte (msg : String) : CExpr :=
  .call "rt_nd_byte" [.strLit msg]

/-! ## Run-time reading of the emitted C -/

/-- Why a run of emitted code stops before its end. -/
inductive Fault where
  /-- `sol_require` with a false condition. -/
  | require (msg : String)
  /-- `sol_assert` with a false condition. -/
  | assertion (msg : String)
  /-- A nondeterministic choice outside its range: the run is cut off. -/
  | assume
  /-- A construct outside the fragment the generators here emit. -/
  | stuck
  deriving Repr, DecidableEq

/-- How a statement ends. -/
inductive Flow where
  | next
  | ret (v : Nat)
  | fault (f : Fault)
  deriving Repr, DecidableEq

/-- Variables by name. A wrapped scalar (`sol_uint256_t`, `sol_address_t`) is a
struct whose only member is `v`; it is stored as the value of `v`. -/
abbrev Store := List (String × Nat)

def Store.get (s : Store) (x : String) : Nat := (s.lookup x).getD 0

def Store.set (s : Store) (x : String) (v : Nat) : Store :=
  if s.any (fun p => p.1 == x) then s.map (fun p => if p.1 == x then (x, v) else p)
  else s ++ [(x, v)]

/-- State of a run: the variables and the number of nondeterministic values
consumed so far. -/
structure Machine where
  vars : Store
  ndpos : Nat
  deriving Repr, DecidableEq

/-- Number of values of the raw type behind the `v` member of the ether value
type (`uint256`). -/
def VALUE_SIZE : Nat := 2 ^ 256

/-- What a call of another emitted function does: from the argument values and
the position in the nondeterministic stream to the way the callee ends, the
final values of its parameters and the new position. -/
abbrev UserCall := String → Option (List Nat → Nat → Flow × List Nat × Nat)

/-- The variable an lvalue names: `x`, or `x.v` / `x->v`. -/
def lvalue : CExpr → Option String
  | .ident n _ => some n
  | .member (.ident n _) "v" => some n
  | _ => none

/-- The string literal at position `i` of an argument list. -/
def strArg (args : List CExpr) (i : Nat) : String :=
  match args.get? i with
  | some (.strLit s) => s
  | _ => ""

/-- Writes the final values of pointer parameters back to the variables that
were passed for them. -/
def writeBack : List CExpr → List Nat → Store → Store
  | .ident n true :: as, v :: vs, s => writeBack as vs (s.set n v)
  | _ :: as, _ :: vs, s => writeBack as vs s
  | _, _, s => s

/-- A call, once its arguments are evaluated to `vals`. -/
def evalCall (nd : Nat → Nat) (user : UserCall) (fn : String) (args : List CExpr)
    (vals : List Nat) (m : Machine) : Except Fault Nat × Machine :=
  if fn = "sol_require" then
    if vals.headD 0 = 0 then (.error (.require (strArg args 1)), m) else (.ok 0, m)
  else if fn = "sol_assert" then
    if vals.headD 0 = 0 then (.error (.assertion (strArg args 1)), m) else (.ok 0, m)
  else if fn = "sol_log" then (.ok 0, m)
  else if fn = "rt_nd_byte" then
    (.ok (nd m.ndpos % 256), { m with ndpos := m.ndpos + 1 })
  else if fn = "nd_range" then
    let v := nd m.ndpos
    let m1 := { m with ndpos := m.ndpos + 1 }
    if vals.getD 0 0 ≤ v ∧ v < vals.getD 1 0 then (.ok v, m1) else (.error .assume, m1)
  else
    match user fn with
    | none => (.error .stuck, m)
    | some run =>
      match run vals m.ndpos with
      | (flow, finals, pos) =>
        let m1 : Machine := { vars := writeBack args finals m.vars, ndpos := pos }
        match flow with
        | .ret v => (.ok v, m1)
        | .next => (.ok 0, m1)
        | .fault f => (.error f, m1)

/-- A binary operator applied to the values of its operands; `none` for an
operator the generators here do not emit as a pure operator. -/
def evalBinop (op : String) (a b : Nat) : Option Nat :=
  if op = ">=" then some (if a ≥ b then 1 else 0)
  else if op = "<" then some (if a < b then 1 else 0)
  else if op = "==" then some (if a = b then 1 else 0)
  else if op = "!=" then some (if a ≠ b then 1 else 0)
  else none

mutual
/-- Value of an expression and the state after its side effects. -/
def evalExpr (nd : Nat → Nat) (user : UserCall) : CExpr → Machine → Except Fault Nat × Machine
  | .ident n _, m => (.ok (m.vars.get n), m)
  | .intLit v, m => (.ok v, m)
  | .strLit _, m => (.ok 0, m)
  | .member e f, m =>
    match lvalue (.member e f) with
    | some n => (.ok (m.vars.get n), m)
    | none => (.error .stuck, m)
  | .binop l op r, m =>
    match evalExpr nd user l m with
    | (.error f, m1) => (.error f, m1)
    | (.ok a, m1) =>
      match evalExpr nd user r m1 with
      | (.error f, m2) => (.error f, m2)
      | (.ok b, m2) =>
        if op = "-=" then
          match lvalue l with
          | some n =>
            let v := (a + (VALUE_SIZE - b % VALUE_SIZE)) % VALUE_SIZE
            (.ok v, { m2 with vars := m2.vars.set n v })
          | none => (.error .stuck, m2)
        else
          match evalBinop op a b with
          | some v => (.ok v, m2)
          | none => (.error .stuck, m2)
  | .assign l r, m =>
    match evalExpr nd user r m with
    | (.error f, m1) => (.error f, m1)
    | (.ok b, m1) =>
      match lvalue l with
      | some n => (.ok b, { m1 with vars := m1.vars.set n b })
      | none => (.error .stuck, m1)
  | .call fn args, m =>
    match evalArgs nd user args m with
    | (.error f, m1) => (.error f, m1)
    | (.ok vals, m1) => evalCall nd user fn args vals m1
  | .ref _, m => (.error .stuck, m)
/-- Values of an argument list, left to right. -/
def evalArgs (nd : Nat → Nat) (user : UserCall) :
    List CExpr → Machine → Except Fault (List Nat) × Machine
  | [], m => (.ok [], m)
  | e :: es, m =>
    match evalExpr nd user e m with
    | (.error f, m1) => (.error f, m1)
    | (.ok v, m1) =>
      match evalArgs nd user es m1 with
      | (.error f, m2) => (.error f, m2)
      | (.ok vs, m2) => (.ok (v :: vs), m2)
end

mutual
/-- Runs one statement. -/
def execStmt (nd : Nat → Nat) (user : UserCall) : CStmt → Machine → Flow × Machine
  | .expr e, m =>
    match evalExpr nd user e m with
    | (.error f, m1) => (.fault f, m1)
    | (.ok _, m1) => (.next, m1)
  | .ret none, m => (.ret 0, m)
  | .ret (some e), m =>
    match evalExpr nd user e m with
    | (.error f, m1) => (.fault f, m1)
    | (.ok v, m1) => (.ret v, m1)
  | .ifThen c t, m =>
    match evalExpr nd user c m with
    | (.error f, m1) => (.fault f, m1)
    | (.ok v, m1) => if v = 0 then (.next, m1) else execStmt nd user t m1
  | .block ss, m => execStmts nd user ss m
  | .decl _ n _, m => (.next, { m with vars := m.vars.set n 0 })
  | .declInit _ n _ init, m =>
    match evalExpr nd user init m with
    | (.error f, m1) => (.fault f, m1)
    | (.ok v, m1) => (.next, { m1 with vars := m1.vars.set n v })
/-- Runs a statement list until it ends, returns or faults. -/
def execStmts (nd : Nat → Nat) (user : UserCall) : List CStmt → Machine → Flow × Machine
  | [], m => (.next, m)
  | s :: ss, m =>
    match execStmt nd user s m with
    | (.next, m1) => execStmts nd user ss m1
    | r => r
end

/-- Binds parameters to argument values. -/
def bindParams : List CVarDecl → List Nat → Store
  | p :: ps, v :: vs => (p.name, v) :: bindParams ps vs
  | _, _ => []

/-- Runs an emitted function on argument values: the way it ends and the state
it ends in. A forward declaration has no body to run. -/
def runFun (nd : Nat → Nat) (user : UserCall) (f : CFuncDef) (vals : List Nat) (pos : Nat) :
    Flow × Machine :=
  match f.body with
  | none => (.fault .stuck, ⟨bindParams f.params vals, pos⟩)
  | some body => execStmts nd user body ⟨bindParams f.params vals, pos⟩

/-- Makes an emitted function callable from other emitted code. -/
def asUserCall (nd : Nat → Nat) (user : UserCall) (f : CFuncDef) : UserCall :=
  fun fn =>
    if fn = f.id.name then
      some (fun vals pos =>
        let r := runFun nd user f vals pos
        (r.1, f.params.map (fun p => r.2.vars.get p.name), r.2.ndpos))
    else user fn

/-- No other emitted function is available. -/
def noCalls : UserCall := fun _ => none

/-! ## Currency transfer generator (`model/Ether.cpp`) -/

/-- Modelled from the spec: the names `Ether::PAY`, `Ether::SEND` and
`Ether::TRANSFER` (`utils/Ether.h` is missing): `Pay`, `Send`, `Transfer`. -/
def Ether.PAY : String := "Pay"

/-- Modelled from the spec: see `Ether.PAY`. -/
def Ether.SEND : String := "Send"

/-- Modelled from the spec: see `Ether.PAY`. -/
def Ether.TRANSFER : String := "Transfer"

/-- The one query of a bundle entry (`FlatContract`) the generator uses. -/
structure FlatContract where
  name : String
  is_payable : Bool
  deriving Repr, DecidableEq

/-- The fields of `EtherMethodGenerator`: the two C type names computed by the
constructor, and of the analysis stack the bundle of contract instances and
the usage flags of the environment. -/
structure EtherMethodGenerator where
  VALUE_T : String
  SENDER_T : String
  bundle : List FlatContract
  uses_pay : Bool
  uses_send : Bool
  uses_transfer : Bool
  deriving Repr

namespace EtherMethodGenerator

def BAL_VAR (g : EtherMethodGenerator) : CVarDecl := ⟨g.VALUE_T, "bal", true⟩
def DST_VAR (g : EtherMethodGenerator) : CVarDecl := ⟨g.SENDER_T, "dst", false⟩
def AMT_VAR (g : EtherMethodGenerator) : CVarDecl := ⟨g.VALUE_T, "amt", false⟩

/-- `EtherMethodGenerator::generate_pay`: the definition written to the stream. -/
def generate_pay (g : EtherMethodGenerator) (_forward_declare : Bool) : CFuncDef :=
  let body : Option (List CStmt) :=
    if !_forward_declare then
      let cond := CExpr.binop (g.BAL_VAR.access "v") ">=" (g.AMT_VAR.access "v")
      let update := CExpr.binop (g.BAL_VAR.access "v") "-=" (g.AMT_VAR.access "v")
      let error_msg := "Insufficient funds to call."
      let statements : List CStmt := []
      let statements := LibVerify.add_require statements cond error_msg
      let statements := statements ++ [.expr update]
      let statements := statements ++ [.ret (some g.AMT_VAR.id)]
      some statements
    else none
  let id : CVarDecl := ⟨g.VALUE_T, Ether.PAY, false⟩
  ⟨id, [g.BAL_VAR, g.AMT_VAR], body⟩

/-- The test `i > 0 && bundle[i - 1]->is_payable()` of the loop of
`generate_send`. -/
def payableAt (g : EtherMethodGenerator) (i : Nat) : Bool :=
  i > 0 && (match g.bundle[i - 1]? with
            | some c => c.is_payable
            | none => false)

/-- One round of the loop of `generate_send`: the statement pushed for
address `i`. -/
def send_case (g : EtherMethodGenerator) (fail_rv : CStmt) (i : Nat) : CStmt :=
  let addr_cond := CExpr.binop (g.DST_VAR.access "v") "==" (.intLit i)
  let handler_list : List CStmt :=
    if g.payableAt i then
      let err_msg := "Fallback not allowed in."
      LibVerify.add_assert [] Literals.ZERO err_msg
    else
      [fail_rv]
  let handler := CStmt.block handler_list
  .ifThen addr_cond handler

/-- `EtherMethodGenerator::generate_send`: the definition written to the
stream. -/
def generate_send (g : EtherMethodGenerator) (_forward_declare : Bool) : CFuncDef :=
  let body : Option (List CStmt) :=
    if !_forward_declare then
      let fail_rv := CStmt.ret (some (.intLit 0))
      let nd_result := NondetSourceRegistry.byte "Return value for send/transfer."
      let bal_cond := CExpr.binop (g.BAL_VAR.access "v") "<" (g.AMT_VAR.access "v")
      let bal_change := CExpr.binop (g.BAL_VAR.access "v") "-=" (g.AMT_VAR.access "v")
      let statements : List CStmt := [.ifThen bal_cond fail_rv]
      let statements := statements
        ++ (List.range (g.bundle.length + 1)).map (g.send_case fail_rv)
      let statements := statements ++ [.expr bal_change]
      let statements := statements ++ [.ret (some nd_result)]
      some statements
    else none
  let id : CVarDecl := ⟨"uint8_t", Ether.SEND, false⟩
  ⟨id, [g.BAL_VAR, g.DST_VAR, g.AMT_VAR], body⟩

/-- `EtherMethodGenerator::generate_transfer`: the definition written to the
stream. -/
def generate_transfer (g : EtherMethodGenerator) (_forward_declare : Bool) : CFuncDef :=
  let body : Option (List CStmt) :=
    if !_forward_declare then
      let err_msg := "Transfer failed."
      let send_call := CExpr.call Ether.SEND [g.BAL_VAR.id, g.DST_VAR.id, g.AMT_VAR.id]
      let statements : List CStmt := []
      let statements := LibVerify.add_require statements send_call err_msg
      some statements
    else none
  let id : CVarDecl := ⟨"void", Ether.TRANSFER, false⟩
  ⟨id, [g.BAL_VAR, g.DST_VAR, g.AMT_VAR], body⟩

/-- `EtherMethodGenerator::print`: the definitions written to the stream, in
order. -/
def print (g : EtherMethodGenerator) (_forward_declare : Bool) : List CFuncDef :=
  let out : List CFuncDef := []
  let out := if g.uses_pay then out ++ [g.generate_pay _forward_declare] else out
  let uses_transfer := g.uses_transfer
  let out := if uses_transfer || g.uses_send then out ++ [g.generate_send _forward_declare]
    else out
  let out := if uses_transfer then out ++ [g.generate_transfer _forward_declare] else out
  out

/-- The state in which the emitted `Send` and `Transfer` start. -/
def etherStart (b d a : Nat) : Machine := ⟨[("bal", b), ("dst", d), ("amt", a)], 0⟩

/-- Runs the emitted `Pay(bal, amt)` on a balance and an amount. -/
def runPay (g : EtherMethodGenerator) (nd : Nat → Nat) (bal amt : Nat) : Flow × Machine :=
  runFun nd noCalls (g.generate_pay false) [bal, amt] 0

/-- Runs the emitted `Send(bal, dst, amt)`. -/
def runSend (g : EtherMethodGenerator) (nd : Nat → Nat) (bal dst amt : Nat) : Flow × Machine :=
  runFun nd noCalls (g.generate_send false) [bal, dst, amt] 0

/-- Runs the emitted `Transfer(bal, dst, amt)`, with the emitted `Send` as its
callee. -/
def runTransfer (g : EtherMethodGenerator) (nd : Nat → Nat) (bal dst amt : Nat) :
    Flow × Machine :=
  runFun nd (asUserCall nd noCalls (g.generate_send false)) (g.generate_transfer false)
    [bal, dst, amt] 0

end EtherMethodGenerator

/-! ## Address space (`scheduler/AddressSpace.cpp`) -/

/-- Number of values of a `uint64_t`. -/
def UINT64_SIZE : Nat := 2 ^ 64

/-- The two queries of `MapIndexSummary` that `AddressSpace` consumes:
`literals()` (a `std::set`, listed in its ascending iteration order) and
`representative_count()`. -/
structure MapIndexSummary where
  literals : List Nat
  representative_count : Nat
  deriving Repr

/-- The fields of `AddressSpace`. -/
structure AddressSpace where
  MIN_ADDR : Nat
  MAX_ADDR : Nat
  M_ADDRDATA : MapIndexSummary
  m_next_addr : Nat
  deriving Repr

/-- The constructor `AddressSpace::AddressSpace(_addrdata)`. -/
def AddressSpace.new (_addrdata : MapIndexSummary) : AddressSpace :=
  let MIN_ADDR := if _addrdata.literals.contains 0 then 1 else 0
  { MIN_ADDR := MIN_ADDR
    MAX_ADDR := _addrdata.representative_count % UINT64_SIZE
    M_ADDRDATA := _addrdata
    m_next_addr := MIN_ADDR }

/-- The message of the `runtime_error` thrown by `reserve`. -/
def reserveError : String := "AddressSpace::reserve used without free address."

/-- `AddressSpace::reserve()`: the value returned or the error thrown, and the
object after the call. -/
def AddressSpace.reserve (s : AddressSpace) : Except String Nat × AddressSpace :=
  let retval := s.m_next_addr
  if retval ≥ s.MAX_ADDR then
    (.error reserveError, s)
  else
    (.ok retval, { s with m_next_addr := (s.m_next_addr + 1) % UINT64_SIZE })

/-- The results of `n` consecutive calls of `reserve()`, and the object after
them. -/
def AddressSpace.reserveMany : Nat → AddressSpace → List (Except String Nat) × AddressSpace
  | 0, s => ([], s)
  | n + 1, s =>
    let r := s.reserve
    let rest := reserveMany n r.2
    (r.1 :: rest.1, rest.2)

/-- Every field of the object is a `uint64_t` value. -/
def AddressSpace.InRange (s : AddressSpace) : Prop :=
  s.MIN_ADDR < UINT64_SIZE ∧ s.MAX_ADDR < UINT64_SIZE ∧ s.m_next_addr < UINT64_SIZE

instance (s : AddressSpace) : Decidable s.InRange := by
  unfold AddressSpace.InRange; infer_instance

/-! ### Constants of literal addresses (`AddressSpace::map_constants`) -/

/-- The loop of `AddressSpace::map_constants` over the literals still to visit,
with the list `used_so_far` and the block built up to here. `const_global_name`
stands for `Indices::const_global_name` (`utils/Indices.h` is missing). -/
def AddressSpace.map_constants_loop (s : AddressSpace) (const_global_name : Nat → String) :
    List Nat → List CExpr → List CStmt → List CStmt
  | [], _, _block => _block
  | lit :: rest, used_so_far, _block =>
    let NAME := const_global_name lit
    let decl := CExpr.ident NAME false
    if lit = 0 then
      map_constants_loop s const_global_name rest used_so_far
        (_block ++ [.expr (.assign decl Literals.ZERO)])
    else
      let _block := _block ++ [.expr (.assign decl (LibVerify.range s.MIN_ADDR s.MAX_ADDR NAME))]
      let _block := _block ++ used_so_far.map (fun otr => CStmt.expr (.binop decl "!=" otr))
      map_constants_loop s const_global_name rest (used_so_far ++ [decl]) _block

/-- `AddressSpace::map_constants(_block)`: the block after the call. -/
def AddressSpace.map_constants (s : AddressSpace) (const_global_name : Nat → String)
    (_block : List CStmt) : List CStmt :=
  let used_so_far : List CExpr := []
  let _block :=
    if s.M_ADDRDATA.literals.length > 1 then LibVerify.log _block "[Handling constants]"
    else _block
  s.map_constants_loop const_global_name s.M_ADDRDATA.literals used_so_far _block

/-- A statement of the shape `a != b;`. -/
def isInequality : CStmt → Bool
  | .expr (.binop _ op _) => op == "!="
  | _ => false

/-- The statement `name(a) != name(b);`. -/
def inequalityOf (const_global_name : Nat → String) (p : Nat × Nat) : CStmt :=
  .expr (.binop (.ident (const_global_name p.1) false) "!="
    (.ident (const_global_name p.2) false))

/-- Every element of a list paired with each element before it, as
(later, earlier), ordered by the later element and then by the earlier one. -/
def pairsWithEarlier (used : List Nat) : List Nat → List (Nat × Nat)
  | [] => []
  | x :: xs => used.map (fun o => (x, o)) ++ pairsWithEarlier (used ++ [x]) xs

/-- The nonzero literals, in iteration order. -/
def nonzeroLiterals (d : MapIndexSummary) : List Nat := d.literals.filter (fun l => l ≠ 0)

/-- A name for the global constant of a literal, used in examples. -/
def exampleConstName (lit : Nat) : String := "g_literal_address_" ++ toString lit

/-- A statement of the shape `a = b;`. -/
def isAssignment : CStmt → Bool
  | .expr (.assign _ _) => true
  | _ => false

/-- The assignment `map_constants` is expected to emit for one literal: the
constant 0 for the literal 0, a value of `LibVerify::range(MIN_ADDR, MAX_ADDR,
NAME)` for every other literal. -/
def constantAssignment (s : AddressSpace) (const_global_name : Nat → String) (lit : Nat) :
    CStmt :=
  if lit = 0 then .expr (.assign (.ident (const_global_name lit) false) (.intLit 0))
  else .expr (.assign (.ident (const_global_name lit) false)
    (.call "nd_range" [.intLit s.MIN_ADDR, .intLit s.MAX_ADDR,
      .strLit (const_global_name lit)]))

/-! ## Type simplifier (`utils/Types.cpp`) -/

/-- `Type::Category` of the Solidity type system. -/
inductive SolCategory where
  | Address | Integer | RationalNumber | StringLiteral | Bool | FixedPoint | Array
  | FixedBytes | Contract | Struct | Function | Enum | Tuple | Mapping | TypeType
  | Modifier | Magic | Module | InaccessibleDynamic
  deriving Repr, DecidableEq

/-- `IntegerType(numBits, modifier)`. -/
structure IntegerType where
  numBits : Nat
  isSigned : Bool
  deriving Repr, DecidableEq

/-- `IntegerType::maxValue()` of the Solidity type system (its source is not
part of this development): the largest value of the type. -/
def IntegerType.maxValue (t : IntegerType) : Nat :=
  if t.isSigned then 2 ^ (t.numBits - 1) - 1 else 2 ^ t.numBits - 1

/-- `FixedPointType`, as far as the simplifier reads it. -/
structure FixedPointType where
  numBits : Nat
  isSigned : Bool
  deriving Repr, DecidableEq

/-- The classes of `Type` the simplifier tells apart, with the members it
reads. `integerType` and `fixedPointType` of a rational are `none` when the
query returns an empty pointer (no such type holds the value). -/
inductive SolType where
  | address
  | bool
  | integer (t : IntegerType)
  | fixedPoint (t : FixedPointType)
  | rational (isFractional : Bool) (integerType : Option IntegerType)
      (fixedPointType : Option FixedPointType)
  | fixedBytes (numBytes : Nat)
  | array (isString : Bool)
  | enum (numberOfMembers : Nat)
  | typeType (actualType : SolType)
  | stringLiteral
  | contract
  | struct
  | function
  | tuple
  | mapping
  | modifier
  | magic
  | module
  | inaccessibleDynamic
  deriving Repr, DecidableEq

/-- `Type::category()`. -/
def SolType.category : SolType → SolCategory
  | .address => .Address
  | .bool => .Bool
  | .integer _ => .Integer
  | .fixedPoint _ => .FixedPoint
  | .rational _ _ _ => .RationalNumber
  | .fixedBytes _ => .FixedBytes
  | .array _ => .Array
  | .enum _ => .Enum
  | .typeType _ => .TypeType
  | .stringLiteral => .StringLiteral
  | .contract => .Contract
  | .struct => .Struct
  | .function => .Function
  | .tuple => .Tuple
  | .mapping => .Mapping
  | .modifier => .Modifier
  | .magic => .Magic
  | .module => .Module
  | .inaccessibleDynamic => .InaccessibleDynamic

/-- What stops a query of the simplifier. -/
inductive TypeFault where
  /-- A thrown `runtime_error`. -/
  | runtimeError (msg : String)
  /-- A null pointer is dereferenced. -/
  | nullDeref
  deriving Repr, DecidableEq

/-- `G_ENUM_TYPE`: `IntegerType(8, IntegerType::Modifier::Unsigned)`. -/
def G_ENUM_TYPE : IntegerType := ⟨8, false⟩

/-- The loop of `unwrap` that replaces a `TypeType` by its actual type. -/
def stripTypeType : SolType → SolType
  | .typeType t => stripTypeType t
  | t => t

/-- The step of `unwrap` for a rational type: the pointer it selects, empty
when the selected query returns no type. -/
def resolveRational : SolType → Option SolType
  | .rational isFractional integerType fixedPointType =>
    if isFractional then fixedPointType.map SolType.fixedPoint
    else integerType.map SolType.integer
  | t => some t

/-- `unwrap(_type)`: the type returned, or what stops the call. -/
def unwrap (_type : SolType) : Except TypeFault SolType :=
  let type := stripTypeType _type
  match resolveRational type with
  | none => .error .nullDeref
  | some type =>
    match type with
    | .enum numberOfMembers =>
      if numberOfMembers > G_ENUM_TYPE.maxValue then
        .error (.runtimeError "Enum has unsupported number of values.")
      else .ok (.integer G_ENUM_TYPE)
    | t => .ok t

/-- `simple_bit_count(_type)`. -/
def simple_bit_count (_type : SolType) : Except TypeFault Nat :=
  match unwrap _type with
  | .error e => .error e
  | .ok t =>
    match t with
    | .fixedBytes numBytes => .ok (numBytes * 8)
    | .array true => .ok 256
    | _ =>
      match t.category, t with
      | .Address, _ => .ok 160
      | .Bool, _ => .ok 8
      | .FixedPoint, .fixedPoint f => .ok f.numBits
      | .Integer, .integer i => .ok i.numBits
      | _, _ => .ok 64

/-- `simple_is_signed(_type)`. -/
def simple_is_signed (_type : SolType) : Except TypeFault Bool :=
  match unwrap _type with
  | .error e => .error e
  | .ok type =>
    match type.category, type with
    | .FixedPoint, .fixedPoint f => .ok f.isSigned
    | .Integer, .integer i => .ok i.isSigned
    | _, _ => .ok false

/-- `is_simple_type(_type)`. -/
def is_simple_type (_type : SolType) : Except TypeFault Bool :=
  match unwrap _type with
  | .error e => .error e
  | .ok type =>
    match type with
    | .fixedBytes _ => .ok true
    | .array isString => .ok isString
    | _ =>
      match type.category with
      | .Address | .Integer | .RationalNumber | .Bool | .FixedPoint => .ok true
      | _ => .ok false

/-- The kinds of type the simplifier treats as a single scalar, read on a type
without `TypeType` wrappers: address, boolean, integer, fixed-point, rational,
fixed-size byte sequence, string, and enumeration. -/
def scalarKind : SolType → Bool
  | .address | .bool | .integer _ | .fixedPoint _ | .rational _ _ _ | .fixedBytes _
  | .array true | .enum _ => true
  | _ => false

/-- The reference bit width of a type without `TypeType` wrappers: 8 times the
byte count for a fixed-size byte sequence, 256 for a string, the declared bit
count for an integer or fixed-point type, the bit count of the concrete type
of a rational, 8 for an enumeration, 160 for an address, 8 for a boolean, and
64 for every other category. -/
def referenceBitCount : SolType → Nat
  | .fixedBytes numBytes => 8 * numBytes
  | .array true => 256
  | .integer i => i.numBits
  | .fixedPoint f => f.numBits
  | .rational false (some i) _ => i.numBits
  | .rational true _ (some f) => f.numBits
  | .enum _ => 8
  | .address => 160
  | .bool => 8
  | _ => 64

/-! ## Function converter (`model/Function.cpp`) -/

/-- A Solidity expression. Only `ExpressionConverter` looks inside, and it is
not part of this development. -/
structure Expression where
  text : String
  deriving Repr, DecidableEq

/-- `Type::Category`, as far as the converter tests it. -/
inductive TypeCategory where
  | Contract
  | Other
  deriving Repr, DecidableEq

/-- `VariableDeclaration`: a parameter, return value or state variable. -/
structure VariableDeclaration where
  name : String
  type : String
  category : TypeCategory
  value : Option Expression
  deriving Repr, DecidableEq

/-- `ModifierInvocation`: `name` is the name of the referenced declaration,
`arguments` is `none` when the invocation has no argument list. -/
structure ModifierInvocation where
  name : String
  arguments : Option (List Expression)
  deriving Repr, DecidableEq

/-- `Declaration::Visibility`. -/
inductive Visibility where
  | Default
  | Private
  | Internal
  | Public
  | External
  deriving Repr, DecidableEq

/-- `StateMutability`. -/
inductive StateMutability where
  | Pure
  | View
  | NonPayable
  | Payable
  deriving Repr, DecidableEq

/-- A Solidity statement. Only the block converters look inside. -/
structure Statement where
  text : String
  deriving Repr, DecidableEq

/-- `FunctionDefinition`; `id` stands for the identity of the node. The state
mutability agrees with `isPayable` unless given, the body is the statement
list of its block. -/
structure FunctionDefinition where
  id : Nat
  name : String
  isConstructor : Bool
  isFallback : Bool
  visibility : Visibility
  isPayable : Bool
  parameters : List VariableDeclaration
  returnParameters : List VariableDeclaration
  modifiers : List ModifierInvocation
  stateMutability : StateMutability :=
    if isPayable then StateMutability.Payable else StateMutability.NonPayable
  body : List Statement := []
  deriving Repr, DecidableEq

mutual
/-- `ContractDefinition`; `id` stands for the identity of the node. -/
inductive ContractDefinition where
  | mk (id : Nat) (name : String) (isInterface : Bool) (isLibrary : Bool)
      (constructor : Option FunctionDefinition)
      (baseContracts : List InheritanceSpecifier)
      (stateVariables : List VariableDeclaration)
/-- `InheritanceSpecifier`: the referenced base contract and the arguments
written after it, `none` when there is no argument list. -/
inductive InheritanceSpecifier where
  | mk (referenced : ContractDefinition) (arguments : Option (List Expression))
end

namespace ContractDefinition

def id : ContractDefinition → Nat
  | .mk i _ _ _ _ _ _ => i

def name : ContractDefinition → String
  | .mk _ n _ _ _ _ _ => n

def isInterface : ContractDefinition → Bool
  | .mk _ _ b _ _ _ _ => b

def isLibrary : ContractDefinition → Bool
  | .mk _ _ _ b _ _ _ => b

def constructor : ContractDefinition → Option FunctionDefinition
  | .mk _ _ _ _ c _ _ => c

def baseContracts : ContractDefinition → List InheritanceSpecifier
  | .mk _ _ _ _ _ bs _ => bs

def stateVariables : ContractDefinition → List VariableDeclaration
  | .mk _ _ _ _ _ _ vs => vs

end ContractDefinition

namespace InheritanceSpecifier

/-- The contract the specifier names. -/
def referenced : InheritanceSpecifier → ContractDefinition
  | .mk r _ => r

/-- The argument list written after the name, if any. -/
def arguments : InheritanceSpecifier → Option (List Expression)
  | .mk _ a => a

end InheritanceSpecifier

/-- `VarContext` of the scope resolver. -/
inductive VarContext where
  | STRUCT
  | FUNCTION
  deriving Repr, DecidableEq

/-- One entry of `environment()->order()`. -/
structure CallStateField where
  type_name : String
  name : String
  deriving Repr, DecidableEq

/-- `FunctionSpecialization`: a function together with the contract using it. -/
structure FunctionSpecialization where
  func : FunctionDefinition
  use_by : ContractDefinition

/-- `Mapping`: a mapping type name; `id` stands for the identity of the node. -/
structure Mapping where
  id : Nat
  name : String
  deriving Repr, DecidableEq

/-- `Structure` (`analysis/Structure.h`), as `generate_structure` queries it;
`id` stands for the identity of the declaration `raw()`. -/
structure Structure where
  id : Nat
  name : String
  fields : List VariableDeclaration
  mappings : List Mapping
  deriving Repr, DecidableEq

/-- `Library` (`analysis/Library.h`), as `print` queries it. -/
structure Library where
  raw : ContractDefinition
  structures : List Structure
  functions : List FunctionDefinition

namespace FlatModel

/-- `FlatContract` as `FlatModel::view()` lists it, with the queries `print`
makes. -/
structure FlatContract where
  raw : ContractDefinition
  structures : List Structure
  mappings : List Mapping
  fallback : Option FunctionDefinition
  interface : List FunctionDefinition

end FlatModel

/-- `MapGenerator` (`model/Mapping.h`): the four declarations
`generate_mapping` writes, each for a given forward-declaration flag. -/
structure MapGenerator where
  declare_zero_initializer : Bool → CFuncDef
  declare_read : Bool → CFuncDef
  declare_write : Bool → CFuncDef
  declare_set : Bool → CFuncDef

/-- The queries the converter makes to collaborators whose sources are not
part of this development (analysis stack, type names, scope resolver, block
and expression converters, name builders). -/
structure AnalysisStack where
  /-- `types()->get_type(contract)`. -/
  get_type_contract : ContractDefinition → String
  /-- `types()->get_type(declaration)`. -/
  get_type_decl : VariableDeclaration → String
  /-- `types()->get_init_val(declaration)`. -/
  get_init_val : VariableDeclaration → CExpr
  /-- `environment()->order()`. -/
  environment_order : List CallStateField
  /-- The arguments `environment()->compute_next_state_for(builder, false,
  nullptr)` pushes. -/
  next_state_args : List CExpr
  /-- `allocations()->retval_is_allocated(declaration)`. -/
  retval_is_allocated : VariableDeclaration → Bool
  /-- `types()->get_type(allocations()->specialize(declaration))`. -/
  specialized_type : VariableDeclaration → String
  /-- `VariableScopeResolver::rewrite(name, instrumented, context)`. -/
  rewrite : String → Bool → VarContext → String
  /-- `decl_is_ref(declaration)`. -/
  decl_is_ref : VariableDeclaration → Bool
  /-- `InitFunction::INIT_VAR`. -/
  INIT_VAR : String
  /-- `InitFunction(types, initialized, for).call_name()`. -/
  init_call_name : ContractDefinition → ContractDefinition → String
  /-- `InitFunction::wrap(type, expression)`. -/
  wrap : String → CExpr → CExpr
  /-- `FunctionSpecialization::name(index)`. -/
  spec_name : FunctionSpecialization → Nat → String
  /-- `ModifierBlockConverter::Factory(spec).len()`. -/
  mods_len : FunctionSpecialization → Nat
  /-- `FunctionBlockConverter(func, stack)`, `set_for(spec)`, `convert()`. -/
  convert_function : FunctionSpecialization → List CStmt
  /-- `ModifierBlockConverter::Factory(spec).generate(index, stack).convert()`. -/
  convert_modifier : FunctionSpecialization → Nat → List CStmt
  /-- `ExpressionConverter(expression, stack, {}).convert()`. -/
  convert_expression : Expression → CExpr
  /-- The expression `CFuncCallBuilder::push(expression, stack, resolver,
  false, type)` appends; the flag tells whether the resolver is the one of an
  initializer block, the declaration carries the type. -/
  push_argument : Expression → Bool → VariableDeclaration → CExpr
  /-- `ContractUtilities::balance_member()`. -/
  balance_member : String
  /-- `TypeAnalyzer::init_val_by_simple_type(*ContractUtilities::balance_type())`. -/
  balance_init : CExpr
  /-- `libraries()->view()`. -/
  libraries : List Library
  /-- `model()->view()`. -/
  model : List FlatModel.FlatContract
  /-- `calls()->internals(contract)`. -/
  internals : FlatModel.FlatContract → List FunctionDefinition
  /-- `calls()->super_calls(contract, function)`. -/
  super_calls : FlatModel.FlatContract → FunctionDefinition → List FunctionDefinition
  /-- The contract that `FunctionSpecialization(function)`, built from the
  function alone, takes as its user. -/
  function_scope : FunctionDefinition → ContractDefinition
  /-- `types()->get_type(function)`. -/
  get_type_function : FunctionDefinition → String
  /-- `types()->get_type(*structure.raw())`. -/
  get_type_struct : Structure → String
  /-- The Solidity type `type()` of a declaration. -/
  decl_type : VariableDeclaration → SolType
  /-- `MapGenerator(mapping, add_sums, map_k, *types())`. -/
  map_generator : Mapping → Bool → Nat → MapGenerator
  /-- `InitFunction(*types(), *structure.raw()).default_id()`. -/
  struct_default_id : Structure → CVarDecl
  /-- `InitFunction(*types(), *structure.raw()).call_id()`. -/
  struct_call_id : Structure → CVarDecl
  /-- `InitFunction(*types(), *structure.raw()).defaulted()`. -/
  struct_defaulted : Structure → CExpr

/-- `View`. -/
inductive View where
  | FULL
  | INT
  | EXT
  deriving Repr, DecidableEq

/-- The constant fields of `FunctionConverter`. -/
structure FunctionConverter where
  M_ADD_SUMS : Bool
  M_MAP_K : Nat
  M_VIEW : View
  M_FWD_DCL : Bool
  m_stack : AnalysisStack

/-- The address of a declaration, as stored in the visited set. Distinct
objects have distinct addresses. -/
inductive Ptr where
  | function (id : Nat)
  | contract (id : Nat)
  | mapping (id : Nat)
  | struct (id : Nat)
  deriving Repr, DecidableEq

/-- A key of the visited set; `none` is `nullptr`. -/
abbrev VisitKey := Ptr × Option Ptr

/-- The mutable part of `FunctionConverter` during a pass: the visited set and
what has been written to `*m_ostream`. -/
structure ConverterState where
  m_visited : List VisitKey
  m_ostream : List CFuncDef
  deriving Repr

/-- What aborts a pass. -/
inductive GenFault where
  /-- A member is read through a null pointer. -/
  | nullDeref (what : String)
  /-- A vector is read past its end. -/
  | outOfRange (what : String)
  /-- A query of the type simplifier stops. -/
  | typeFault (e : TypeFault)
  /-- An assertion of the compiler front end fails. -/
  | assertion (msg : String)
  /-- A construct the generator does not support. -/
  | unsupported (msg : String)
  deriving Repr, DecidableEq

namespace FunctionConverter

/-- The loop of `generate_params` over the declarations, from index `i`. -/
def generate_decl_params (cv : FunctionConverter) (_context : VarContext)
    (_instrumeneted : Bool) : Nat → List VariableDeclaration → List CVarDecl
  | _, [] => []
  | i, DECL :: rest =>
    let type := cv.m_stack.get_type_decl DECL
    let name := DECL.name
    let name := if name.isEmpty then "var" ++ toString i else name
    let name := cv.m_stack.rewrite name _instrumeneted _context
    let IS_REF := cv.m_stack.decl_is_ref DECL
    ⟨type, name, IS_REF⟩ :: generate_decl_params cv _context _instrumeneted (i + 1) rest

/-- `FunctionConverter::generate_params`. The last two parameters default to
`VarContext::STRUCT` and `false`. -/
def generate_params (cv : FunctionConverter) (_decls : List VariableDeclaration)
    (_scope : Option ContractDefinition) (_dest : Option VariableDeclaration)
    (_context : VarContext) (_instrumeneted : Bool) : List CVarDecl :=
  let params : List CVarDecl :=
    match _scope with
    | some scope =>
      if !scope.isLibrary then
        let SELF_TYPE := cv.m_stack.get_type_contract scope
        (⟨SELF_TYPE, "self", true⟩ : CVarDecl)
          :: cv.m_stack.environment_order.map (fun fld => ⟨fld.type_name, fld.name, false⟩)
      else []
    | none => []
  let params := params ++ cv.generate_decl_params _context _instrumeneted 0 _decls
  let params :=
    match _dest with
    | some dest => params ++ [⟨cv.m_stack.specialized_type dest, cv.m_stack.INIT_VAR, true⟩]
    | none => params
  params

/-- The key under which `handle_function` records a specialization. -/
def function_key (_spec : FunctionSpecialization) : VisitKey :=
  (.function _spec.func.id, some (.contract _spec.use_by.id))

/-- The key under which `handle_contract_initializer` records a pair. -/
def initializer_key (_initialized _for : ContractDefinition) : VisitKey :=
  (.contract _initialized.id, some (.contract _for.id))

/-- The destination `handle_function` determines: the first return parameter
when its value is allocated. -/
def function_dest (cv : FunctionConverter) (FUNC : FunctionDefinition) :
    Option VariableDeclaration :=
  match FUNC.returnParameters with
  | rv0 :: _ => if cv.m_stack.retval_is_allocated rv0 then some rv0 else none
  | [] => none

/-- The declaration `handle_function` generates for the base call. -/
def base_def (cv : FunctionConverter) (_spec : FunctionSpecialization)
    (_rv_type : String) (_rv_is_ptr : Bool) : CFuncDef :=
  let FUNC := _spec.func
  let USER := _spec.use_by
  let dest := cv.function_dest FUNC
  let CONTEXT := VarContext.FUNCTION
  let params := cv.generate_params FUNC.parameters (some USER) dest CONTEXT false
  let body : Option (List CStmt) :=
    if !cv.M_FWD_DCL then some (cv.m_stack.convert_function _spec) else none
  let base_fname := cv.m_stack.spec_name _spec (cv.m_stack.mods_len _spec)
  ⟨⟨_rv_type, base_fname, _rv_is_ptr⟩, params, body⟩

/-- The declarations `handle_function` generates for the modifiers, by the loop
`for (size_t i = mods.len(); i > 0; --i)` with `IDX = i - 1`. -/
def modifier_defs (cv : FunctionConverter) (_spec : FunctionSpecialization)
    (_rv_type : String) (_rv_is_ptr : Bool) : List CFuncDef :=
  let FUNC := _spec.func
  let USER := _spec.use_by
  let dest := cv.function_dest FUNC
  let CONTEXT := VarContext.FUNCTION
  let mod_params := cv.generate_params FUNC.parameters (some USER) dest CONTEXT true
  (List.range (cv.m_stack.mods_len _spec)).reverse.map (fun IDX =>
    let body : Option (List CStmt) :=
      if !cv.M_FWD_DCL then some (cv.m_stack.convert_modifier _spec IDX) else none
    (⟨⟨_rv_type, cv.m_stack.spec_name _spec IDX, _rv_is_ptr⟩, mod_params, body⟩ : CFuncDef))

/-- `FunctionConverter::handle_function`: the name returned and the state
after the call. -/
def handle_function (cv : FunctionConverter) (_spec : FunctionSpecialization)
    (_rv_type : String) (_rv_is_ptr : Bool) (st : ConverterState) : String × ConverterState :=
  if function_key _spec ∈ st.m_visited then (cv.m_stack.spec_name _spec 0, st)
  else
    let st := { st with m_visited := function_key _spec :: st.m_visited }
    let defs : List CFuncDef := [cv.base_def _spec _rv_type _rv_is_ptr]
    let defs := defs ++ cv.modifier_defs _spec _rv_type _rv_is_ptr
    (cv.m_stack.spec_name _spec 0, { st with m_ostream := st.m_ostream ++ defs })

/-- The arguments pushed from a constructor modifier: for `i` from `i` below
the number of parent parameters, `*CARGS->at(i)` with the type of `PARGS[i]`. -/
def push_modifier_args (cv : FunctionConverter) (CARGS : List Expression) :
    Nat → List VariableDeclaration → Except GenFault (List CExpr)
  | _, [] => .ok []
  | i, P :: PARGS =>
    match CARGS.get? i with
    | none => .error (.outOfRange "CARGS->at(i)")
    | some V =>
      match push_modifier_args cv CARGS (i + 1) PARGS with
      | .error e => .error e
      | .ok rest => .ok (cv.m_stack.push_argument V true P :: rest)

/-- The arguments pushed from a base specifier: for each argument `i`, the
argument with the type of `parent.constructor()->parameters()[i]`. -/
def push_specifier_args (cv : FunctionConverter) (parent : ContractDefinition) :
    Nat → List Expression → Except GenFault (List CExpr)
  | _, [] => .ok []
  | i, arg :: args =>
    match parent.constructor with
    | none => .error (.nullDeref "parent.constructor()")
    | some pc =>
      match pc.parameters.get? i with
      | none => .error (.outOfRange "parameters()[i]")
      | some param =>
        match push_specifier_args cv parent (i + 1) args with
        | .error e => .error e
        | .ok rest => .ok (cv.m_stack.push_argument arg false param :: rest)

/-- The call of one parent initializer, as the loop over the base contracts of
`handle_contract_initializer` builds it once the name of the callee is known. -/
def parent_initializer_call (cv : FunctionConverter) (LOCAL_CTOR : Option FunctionDefinition)
    (self_ptr : CExpr) (parent : ContractDefinition) (arguments : Option (List Expression))
    (parent_call : String) : Except GenFault CExpr :=
  let builder : List CExpr := [self_ptr]
  let builder := builder ++ cv.m_stack.next_state_args
  let fromModifier : Except GenFault (List CExpr) :=
    match LOCAL_CTOR with
    | some ctor =>
      match ctor.modifiers.find? (fun CTOR_MOD => CTOR_MOD.name == parent.name) with
      | some CTOR_MOD =>
        match CTOR_MOD.arguments with
        | some CARGS =>
          match parent.constructor with
          | none => .error (.nullDeref "parent.constructor()")
          | some pc => cv.push_modifier_args CARGS 0 pc.parameters
        | none => .ok []
      | none => .ok []
    | none => .ok []
  match fromModifier with
  | .error e => .error e
  | .ok margs =>
    let builder := builder ++ margs
    let fromSpecifier : Except GenFault (List CExpr) :=
      match arguments with
      | some args => cv.push_specifier_args parent 0 args
      | none => .ok []
    match fromSpecifier with
    | .error e => .error e
    | .ok sargs => .ok (.call parent_call (builder ++ sargs))

/-- The assignment `handle_contract_initializer` emits for one state variable;
`none` for a contract-typed variable, which is skipped. -/
def state_variable_init (cv : FunctionConverter) (self_ptr : CExpr)
    (decl : VariableDeclaration) : Option CStmt :=
  if decl.category = TypeCategory.Contract then none
  else
    let NAME := cv.m_stack.rewrite decl.name false VarContext.STRUCT
    let v0 : CExpr :=
      match decl.value with
      | some value => cv.m_stack.wrap decl.type (cv.m_stack.convert_expression value)
      | none => cv.m_stack.get_init_val decl
    let member := CExpr.member self_ptr NAME
    some (.expr (.assign member v0))

/-- The body `handle_contract_initializer` builds, from the calls of the parent
initializers collected by the loop over the base contracts. -/
def initializer_body (cv : FunctionConverter) (_initialized _for : ContractDefinition)
    (self_ptr : CExpr) (ctor_name : String) (parent_initializers : List CExpr) : List CStmt :=
  let LOCAL_CTOR := _initialized.constructor
  let stmts : List CStmt := []
  let stmts :=
    if _initialized.id = _for.id then
      stmts ++ [.expr (.assign (.member self_ptr cv.m_stack.balance_member)
        cv.m_stack.balance_init)]
    else stmts
  let stmts := stmts ++ parent_initializers.map (fun initializer => CStmt.expr initializer)
  let stmts := stmts ++ _initialized.stateVariables.filterMap (cv.state_variable_init self_ptr)
  let stmts :=
    match LOCAL_CTOR with
    | some ctor =>
      let builder : List CExpr := [self_ptr]
      let builder := builder ++ cv.m_stack.next_state_args
      let builder := builder ++ ctor.parameters.map (fun decl =>
        CExpr.ident (cv.m_stack.rewrite decl.name false VarContext.STRUCT) false)
      stmts ++ [.expr (.call ctor_name builder)]
    | none => stmts
  stmts

/-- The block of `handle_contract_initializer` that lowers the local
constructor, if there is one: the declarations of its parameters, the name
`handle_function` returns for it, and the state afterwards. -/
def constructor_step (cv : FunctionConverter) (LOCAL_CTOR : Option FunctionDefinition)
    (_for : ContractDefinition) (st : ConverterState) :
    List VariableDeclaration × String × ConverterState :=
  match LOCAL_CTOR with
  | some c =>
    let r := cv.handle_function ⟨c, _for⟩ "void" false st
    (c.parameters, r.1, r.2)
  | none => ([], "", st)

/-- The definition `handle_contract_initializer` writes at its end. -/
def initializer_def (cv : FunctionConverter) (_initialized _for : ContractDefinition)
    (params : List CVarDecl) (self_ptr : CExpr) (ctor_name : String)
    (parent_initializers : List CExpr) : CFuncDef :=
  let NAME := cv.m_stack.init_call_name _initialized _for
  let body : Option (List CStmt) :=
    if !cv.M_FWD_DCL then
      some (cv.initializer_body _initialized _for self_ptr ctor_name parent_initializers)
    else none
  ⟨⟨"void", NAME, false⟩, params, body⟩

mutual
/-- `FunctionConverter::handle_contract_initializer`: the name returned and the
state after the call, or the fault that aborts the pass. -/
def handle_contract_initializer (cv : FunctionConverter) (_initialized : ContractDefinition)
    (_for : ContractDefinition) (st : ConverterState) :
    Except GenFault (String × ConverterState) :=
  match _initialized with
  | .mk id name isInterface isLibrary LOCAL_CTOR baseContracts stateVariables =>
    let self := ContractDefinition.mk id name isInterface isLibrary LOCAL_CTOR baseContracts
      stateVariables
    let NAME := cv.m_stack.init_call_name self _for
    if cv.M_VIEW = View.INT then .ok (NAME, st)
    else if initializer_key self _for ∈ st.m_visited then .ok (NAME, st)
    else
      let st := { st with m_visited := initializer_key self _for :: st.m_visited }
      let ctor := cv.constructor_step LOCAL_CTOR _for st
      let params := cv.generate_params ctor.1 (some _for) none VarContext.STRUCT false
      match params.head? with
      | none => .error (.outOfRange "params[0]")
      | some p0 =>
        let self_ptr := p0.id
        match parent_initializers cv LOCAL_CTOR self_ptr _for baseContracts ctor.2.2 with
        | .error e => .error e
        | .ok (calls, st) =>
          let init := cv.initializer_def self _for params self_ptr ctor.2.1 calls
          .ok (NAME, { st with m_ostream := st.m_ostream ++ [init] })
/-- The loop of `handle_contract_initializer` over the base contracts: the
calls collected in `parent_initializers` and the state after the loop. -/
def parent_initializers (cv : FunctionConverter) (LOCAL_CTOR : Option FunctionDefinition)
    (self_ptr : CExpr) (_for : ContractDefinition) :
    List InheritanceSpecifier → ConverterState →
      Except GenFault (List CExpr × ConverterState)
  | [], st => .ok ([], st)
  | .mk parent arguments :: rest, st =>
    if parent.isInterface then parent_initializers cv LOCAL_CTOR self_ptr _for rest st
    else
      match handle_contract_initializer cv parent _for st with
      | .error e => .error e
      | .ok (parent_call, st) =>
        match cv.parent_initializer_call LOCAL_CTOR self_ptr parent arguments parent_call with
        | .error e => .error e
        | .ok call =>
          match parent_initializers cv LOCAL_CTOR self_ptr _for rest st with
          | .error e => .error e
          | .ok (calls, st) => .ok (call :: calls, st)
end

/-- Whether the argument lists read for the call of the initializer of `parent`
find what they are matched against: an argument list of a modifier of the
local constructor that names `parent` needs a constructor of `parent` and at
least one argument per parameter of it; a non-empty argument list of the base
specifier needs a constructor of `parent` and at most one argument per
parameter of it. -/
def parent_call_fits (LOCAL_CTOR : Option FunctionDefinition) (parent : ContractDefinition)
    (arguments : Option (List Expression)) : Bool :=
  (match LOCAL_CTOR with
   | some ctor =>
     match ctor.modifiers.find? (fun CTOR_MOD => CTOR_MOD.name == parent.name) with
     | some CTOR_MOD =>
       match CTOR_MOD.arguments with
       | some CARGS =>
         match parent.constructor with
         | some pc => decide (pc.parameters.length ≤ CARGS.length)
         | none => false
       | none => true
     | none => true
   | none => true)
  && (match arguments with
      | some args =>
        args.isEmpty
          || (match parent.constructor with
              | some pc => decide (args.length ≤ pc.parameters.length)
              | none => false)
      | none => true)

mutual
/-- Whether the argument lists fit throughout the inheritance chain of a
contract: for the contract and, in turn, for every base that is not an
interface. -/
def chain_fits : ContractDefinition → Bool
  | .mk _ _ _ _ LOCAL_CTOR baseContracts _ => bases_fit LOCAL_CTOR baseContracts
/-- The part of `chain_fits` over the base list of a contract. -/
def bases_fit (LOCAL_CTOR : Option FunctionDefinition) : List InheritanceSpecifier → Bool
  | [] => true
  | .mk parent arguments :: rest =>
    (parent.isInterface
        || (chain_fits parent && parent_call_fits LOCAL_CTOR parent arguments))
      && bases_fit LOCAL_CTOR rest
end

/-! ### The print pass (`FunctionConverter::print`) -/

/-- The key under which `generate_mapping` records a mapping. -/
def mapping_key (_mapping : Mapping) : VisitKey := (.mapping _mapping.id, none)

/-- The key under which `generate_structure` records a structure. -/
def structure_key (_struct : Structure) : VisitKey := (.struct _struct.id, none)

/-- `FunctionConverter::generate_mapping`. -/
def generate_mapping (cv : FunctionConverter) (_mapping : Mapping) (st : ConverterState) :
    ConverterState :=
  if cv.M_VIEW = View.EXT then st
  else if mapping_key _mapping ∈ st.m_visited then st
  else
    let st := { st with m_visited := mapping_key _mapping :: st.m_visited }
    let gen := cv.m_stack.map_generator _mapping cv.M_ADD_SUMS cv.M_MAP_K
    { st with m_ostream := st.m_ostream
        ++ [gen.declare_zero_initializer cv.M_FWD_DCL, gen.declare_read cv.M_FWD_DCL,
            gen.declare_write cv.M_FWD_DCL, gen.declare_set cv.M_FWD_DCL] }

/-- The four declarations `generate_mapping` writes for a mapping. -/
def mapping_defs (cv : FunctionConverter) (_mapping : Mapping) : List CFuncDef :=
  let gen := cv.m_stack.map_generator _mapping cv.M_ADD_SUMS cv.M_MAP_K
  [gen.declare_zero_initializer cv.M_FWD_DCL, gen.declare_read cv.M_FWD_DCL,
   gen.declare_write cv.M_FWD_DCL, gen.declare_set cv.M_FWD_DCL]

/-- The loop of `generate_structure` that collects the fields of simple type;
`has_simple_type(field)` is `is_simple_type(*field.type())`, which may throw. -/
def basic_decls (cv : FunctionConverter) :
    List VariableDeclaration → Except GenFault (List VariableDeclaration)
  | [] => .ok []
  | field :: rest =>
    match is_simple_type (cv.m_stack.decl_type field) with
    | .error e => .error (.typeFault e)
    | .ok simple =>
      match basic_decls cv rest with
      | .error e => .error e
      | .ok decls => .ok (if simple then field :: decls else decls)

/-- The definition `zero` of `generate_structure`. -/
def structure_zero (cv : FunctionConverter) (_struct : Structure) : CFuncDef :=
  let TMP := CExpr.ident "tmp" false
  let zero_body : Option (List CStmt) :=
    if !cv.M_FWD_DCL then
      let STRUCT_T := cv.m_stack.get_type_struct _struct
      let stmts : List CStmt := [.decl STRUCT_T "tmp" false]
      let stmts := stmts ++ _struct.fields.map (fun field =>
        let NAME := cv.m_stack.rewrite field.name false VarContext.STRUCT
        CStmt.expr (.assign (.member TMP NAME) (cv.m_stack.get_init_val field)))
      let stmts := stmts ++ [.ret (some TMP)]
      some stmts
    else none
  ⟨cv.m_stack.struct_default_id _struct, [], zero_body⟩

/-- The definition `init` of `generate_structure`, from the fields of simple
type. The statement list it is built in is the one moved into the body of
`zero`, which is empty again after the move. -/
def structure_init (cv : FunctionConverter) (_struct : Structure)
    (basic_decls : List VariableDeclaration) : CFuncDef :=
  let TMP := CExpr.ident "tmp" false
  let init_params := cv.generate_params basic_decls none none VarContext.STRUCT false
  let init_body : Option (List CStmt) :=
    if !cv.M_FWD_DCL then
      let STRUCT_T := cv.m_stack.get_type_struct _struct
      let zinit := cv.m_stack.struct_defaulted _struct
      let stmts : List CStmt := [.declInit STRUCT_T "tmp" false zinit]
      let stmts := stmts ++ basic_decls.map (fun field =>
        let NAME := cv.m_stack.rewrite field.name false VarContext.STRUCT
        CStmt.expr (.assign (.member TMP NAME) (.ident NAME false)))
      let stmts := stmts ++ [.ret (some TMP)]
      some stmts
    else none
  ⟨cv.m_stack.struct_call_id _struct, init_params, init_body⟩

/-- `FunctionConverter::generate_structure`. -/
def generate_structure (cv : FunctionConverter) (_struct : Structure) (st : ConverterState) :
    Except GenFault ConverterState :=
  if cv.M_VIEW = View.EXT then .ok st
  else if structure_key _struct ∈ st.m_visited then .ok st
  else
    let st := { st with m_visited := structure_key _struct :: st.m_visited }
    let st := _struct.mappings.foldl (fun st mapping => cv.generate_mapping mapping st) st
    match cv.basic_decls _struct.fields with
    | .error e => .error e
    | .ok basic_decls =>
      let zero := cv.structure_zero _struct
      let init := cv.structure_init _struct basic_decls
      .ok { st with m_ostream := st.m_ostream ++ [zero, init] }

/-- `FunctionConverter::generate_function`. -/
def generate_function (cv : FunctionConverter) (_spec : FunctionSpecialization)
    (st : ConverterState) : ConverterState :=
  let FUNC := _spec.func
  if FUNC.isConstructor then st
  else if FUNC.isFallback then st
  else
    let IS_PUB := decide (FUNC.visibility = Visibility.Public)
    let IS_EXT := decide (FUNC.visibility = Visibility.External)
    if !(IS_PUB || IS_EXT) && decide (cv.M_VIEW = View.EXT) then st
    else if (IS_PUB || IS_EXT) && decide (cv.M_VIEW = View.INT) then st
    else
      match FUNC.returnParameters with
      | rv0 :: _ =>
        if rv0.category = TypeCategory.Contract then
          if cv.m_stack.retval_is_allocated rv0 then
            (cv.handle_function _spec "void" false st).2
          else
            (cv.handle_function _spec (cv.m_stack.get_type_function FUNC) true st).2
        else
          (cv.handle_function _spec (cv.m_stack.get_type_function FUNC) false st).2
      | [] => (cv.handle_function _spec (cv.m_stack.get_type_function FUNC) false st).2

/-- `FunctionConverter::generate_method`. -/
def generate_method (cv : FunctionConverter) (_contract : FlatModel.FlatContract)
    (_func : FunctionDefinition) (st : ConverterState) : ConverterState :=
  (cv.m_stack.super_calls _contract _func).foldl
    (fun st func => cv.generate_function ⟨func, _contract.raw⟩ st) st

/-- A loop of `print` whose body may abort the pass. -/
def forEach {α : Type} (body : α → ConverterState → Except GenFault ConverterState) :
    List α → ConverterState → Except GenFault ConverterState
  | [], st => .ok st
  | x :: xs, st =>
    match body x st with
    | .error e => .error e
    | .ok st1 => forEach body xs st1

/-- The body of the loop of `print` over the libraries. -/
def print_library (cv : FunctionConverter) (library : Library) (st : ConverterState) :
    Except GenFault ConverterState :=
  match forEach cv.generate_structure library.structures st with
  | .error e => .error e
  | .ok st =>
    .ok (library.functions.foldl
      (fun st func => cv.generate_function ⟨func, library.raw⟩ st) st)

/-- The call of `print` that handles the fallback method of a contract. -/
def print_fallback (cv : FunctionConverter) (contract : FlatModel.FlatContract)
    (st : ConverterState) : ConverterState :=
  match contract.fallback with
  | some fallback =>
    (cv.handle_function ⟨fallback, cv.m_stack.function_scope fallback⟩ "void" false st).2
  | none => st

/-- The two loops of `print` over the public and the internal methods of a
contract. -/
def print_methods (cv : FunctionConverter) (contract : FlatModel.FlatContract)
    (st : ConverterState) : ConverterState :=
  let st := contract.interface.foldl (fun st func => cv.generate_method contract func st) st
  (cv.m_stack.internals contract).foldl (fun st func => cv.generate_method contract func st) st

/-- The loop of `print` over the mappings of a contract. -/
def print_mappings (cv : FunctionConverter) (contract : FlatModel.FlatContract)
    (st : ConverterState) : ConverterState :=
  contract.mappings.foldl (fun st mapping => cv.generate_mapping mapping st) st

/-- The body of the loop of `print` over the contracts. -/
def print_contract (cv : FunctionConverter) (contract : FlatModel.FlatContract)
    (st : ConverterState) : Except GenFault ConverterState :=
  match forEach cv.generate_structure contract.structures st with
  | .error e => .error e
  | .ok st =>
    let st := cv.print_mappings contract st
    match cv.handle_contract_initializer contract.raw contract.raw st with
    | .error e => .error e
    | .ok (_, st) =>
      let st := cv.print_fallback contract st
      .ok (cv.print_methods contract st)

/-- `FunctionConverter::print`, from the visited set and the stream contents
in `st`: the state when the pass ends, or the fault that aborts it. -/
def print (cv : FunctionConverter) (st : ConverterState) : Except GenFault ConverterState :=
  match forEach cv.print_library cv.m_stack.libraries st with
  | .error e => .error e
  | .ok st => forEach cv.print_contract cv.m_stack.model st

/-- A call `print(_stream)` on a converter whose visited set is `m_visited`,
with a stream that is empty before the call: what the call writes and the
visited set it leaves in the converter. -/
def print_to_stream (cv : FunctionConverter) (m_visited : List VisitKey) :
    Except GenFault (List CFuncDef × List VisitKey) :=
  match cv.print ⟨m_visited, []⟩ with
  | .error e => .error e
  | .ok st => .ok (st.m_ostream, st.m_visited)

end FunctionConverter

/-- The names of the functions a body calls in statements of their own. -/
def calleesOf (body : List CStmt) : List String :=
  body.filterMap (fun s =>
    match s with
    | .expr (.call fn _) => some fn
    | _ => none)

/-- Number of call chains that lead from the function named `src` to the
function named `dst` through the definitions `out`, following chains of at
most `fuel` functions. -/
def callChains (out : List CFuncDef) : Nat → String → String → Nat
  | 0, _, _ => 0
  | fuel + 1, src, dst =>
    if src = dst then 1
    else
      match out.find? (fun d => d.id.name == src) with
      | none => 0
      | some d => ((calleesOf (d.body.getD [])).map (fun c => callChains out fuel c dst)).sum

/-- An analysis stack for examples: initializers are named `Init_<Contract>` or
`Init_<Contract>_for_<Context>`, functions `Ctor_<Contract>` or
`Method_<Contract>_<name>`, with the modifier index appended above 0. -/
def exampleStack : AnalysisStack where
  get_type_contract c := "struct " ++ c.name
  get_type_decl d := d.type
  get_init_val _ := .intLit 0
  environment_order := [⟨"sol_address_t", "sender"⟩, ⟨"sol_uint256_t", "value"⟩]
  next_state_args := [.ident "sender" false, .ident "value" false]
  retval_is_allocated _ := false
  specialized_type d := d.type
  rewrite n instrumented ctx :=
    (if instrumented then "func_model_" else
      match ctx with
      | .STRUCT => "user_"
      | .FUNCTION => "func_user_") ++ n
  decl_is_ref _ := false
  INIT_VAR := "dest"
  init_call_name c f :=
    if c.id = f.id then "Init_" ++ c.name else "Init_" ++ c.name ++ "_for_" ++ f.name
  wrap _ e := e
  spec_name s i :=
    (if s.func.isConstructor then "Ctor_" ++ s.use_by.name
     else "Method_" ++ s.use_by.name ++ "_" ++ s.func.name)
      ++ (if i = 0 then "" else "_mod" ++ toString i)
  mods_len s := if s.func.isConstructor then 0 else s.func.modifiers.length
  convert_function _ := []
  convert_modifier _ _ := []
  convert_expression e := .ident e.text false
  push_argument e _ _ := .ident e.text false
  balance_member := "model_balance"
  balance_init := .intLit 0
  libraries := []
  model := []
  internals _ := []
  super_calls _ f := [f]
  function_scope _ := .mk 0 "A" false false none [] []
  get_type_function f :=
    match f.returnParameters with
    | rv :: _ => rv.type
    | [] => "void"
  get_type_struct s := "struct " ++ s.name
  decl_type _ := .integer ⟨256, false⟩
  map_generator m _ _ :=
    { declare_zero_initializer := fun fwd =>
        ⟨⟨"struct " ++ m.name, "ZeroInit_" ++ m.name, false⟩, [],
          if fwd then none else some []⟩
      declare_read := fun fwd =>
        ⟨⟨"sol_uint256_t", "Read_" ++ m.name, false⟩, [], if fwd then none else some []⟩
      declare_write := fun fwd =>
        ⟨⟨"void", "Write_" ++ m.name, false⟩, [], if fwd then none else some []⟩
      declare_set := fun fwd =>
        ⟨⟨"void", "Set_" ++ m.name, false⟩, [], if fwd then none else some []⟩ }
  struct_default_id s := ⟨"struct " ++ s.name, "ZeroInit_" ++ s.name, false⟩
  struct_call_id s := ⟨"struct " ++ s.name, "Init_" ++ s.name, false⟩
  struct_defaulted s := .call ("ZeroInit_" ++ s.name) []

/-- A contract without bases and without constructor: the top of a diamond. -/
def diamondTop (i : Nat) (n : String) (vars : List VariableDeclaration) : ContractDefinition :=
  .mk i n false false none [] vars

/-- A contract without constructor that inherits `top` only. -/
def diamondSide (i : Nat) (n : String) (vars : List VariableDeclaration)
    (top : ContractDefinition) : ContractDefinition :=
  .mk i n false false none [.mk top none] vars

/-- A contract without constructor that inherits `b` and `c`, in this order. -/
def diamondBottom (i : Nat) (n : String) (vars : List VariableDeclaration)
    (b c : ContractDefinition) : ContractDefinition :=
  .mk i n false false none [.mk b none, .mk c none] vars

/-- Example contract `A`, with one state variable. -/
def exampleTop : ContractDefinition :=
  diamondTop 0 "A" [⟨"x", "sol_uint256_t", .Other, none⟩]

/-- Example contract `B is A`. -/
def exampleLeft : ContractDefinition := diamondSide 1 "B" [] exampleTop

/-- Example contract `C is A`. -/
def exampleRight : ContractDefinition := diamondSide 2 "C" [] exampleTop

/-- Example contract `D is B, C`. -/
def exampleDiamond : ContractDefinition := diamondBottom 3 "D" [] exampleLeft exampleRight

namespace FunctionConverter

/-- The call of a parent initializer carrying no constructor arguments. -/
def plain_call (cv : FunctionConverter) (name : String) : CExpr :=
  .call name (.ident "self" true :: cv.m_stack.next_state_args)

/-- The definition of the initializer of a contract without constructor. -/
def plain_def (cv : FunctionConverter) (c f : ContractDefinition) (calls : List CExpr) :
    CFuncDef :=
  cv.initializer_def c f (cv.generate_params [] (some f) none VarContext.STRUCT false)
    (.ident "self" true) "" calls

end FunctionConverter

/-- A converter for examples, over `exampleStack`. -/
def exampleConverter (view : View) : FunctionConverter := ⟨false, 0, view, false, exampleStack⟩

/-- The state after a call of the converter, the empty state after a fault. -/
def stateAfter (r : Except GenFault (String × ConverterState)) : ConverterState :=
  match r with
  | .ok (_, st) => st
  | .error _ => ⟨[], []⟩

/-- The definitions written by a call of the converter, none after a fault. -/
def writtenBy (r : Except GenFault (String × ConverterState)) : List CFuncDef :=
  match r with
  | .ok (_, st) => st.m_ostream
  | .error _ => []

/-- The name of the function an expression calls, if it is a call. -/
def calledName : CExpr → Option String
  | .call fn _ => some fn
  | _ => none

/-- A function with two modifiers, for examples. -/
def exampleMethod : FunctionDefinition :=
  { id := 10, name := "f", isConstructor := false, isFallback := false,
    visibility := .Public, isPayable := false, parameters := [], returnParameters := [],
    modifiers := [⟨"onlyOwner", none⟩, ⟨"whenOpen", none⟩] }

/-- The constructor of the example contract `W`. -/
def exampleCtor : FunctionDefinition :=
  { id := 20, name := "", isConstructor := true, isFallback := false,
    visibility := .Public, isPayable := false, parameters := [], returnParameters := [],
    modifiers := [] }

/-- The fallback function of the example contract `W`. -/
def exampleFallback : FunctionDefinition :=
  { id := 11, name := "", isConstructor := false, isFallback := true,
    visibility := .External, isPayable := true, parameters := [], returnParameters := [],
    modifiers := [] }

/-- An internal function `g` of the example contract `W`. -/
def exampleHelper : FunctionDefinition :=
  { id := 12, name := "g", isConstructor := false, isFallback := false,
    visibility := .Internal, isPayable := false, parameters := [], returnParameters := [],
    modifiers := [] }

/-- An internal function `h` of the example library `L`. -/
def exampleLibraryFunction : FunctionDefinition :=
  { id := 14, name := "h", isConstructor := false, isFallback := false,
    visibility := .Internal, isPayable := false, parameters := [], returnParameters := [],
    modifiers := [] }

/-- The example contract `W`: a constructor and one state variable. -/
def exampleWallet : ContractDefinition :=
  .mk 5 "W" false false (some exampleCtor) [] [⟨"owner", "sol_address_t", .Other, none⟩]

/-- The example contract `W` in the flat model: a structure `S` with a mapping
field, a mapping state variable, a fallback function and the public method
`f`. -/
def exampleFlatWallet : FlatModel.FlatContract :=
  { raw := exampleWallet
    structures := [⟨1, "W_Struct_S", [⟨"x", "sol_uint256_t", .Other, none⟩], [⟨2, "Map_1"⟩]⟩]
    mappings := [⟨3, "Map_2"⟩]
    fallback := some exampleFallback
    interface := [exampleMethod] }

/-- The example library `L` with the function `h`. -/
def exampleLibrary : Library :=
  { raw := .mk 6 "L" false true none [] []
    structures := []
    functions := [exampleLibraryFunction] }

/-- The analysis stack of the example model: the library `L` and the contract
`W`, whose internal method is `g`. -/
def examplePrintStack : AnalysisStack :=
  { exampleStack with
    libraries := [exampleLibrary]
    model := [exampleFlatWallet]
    internals := fun _ => [exampleHelper]
    function_scope := fun _ => exampleWallet }

/-- A converter over the example model. -/
def examplePrinter (view : View) : FunctionConverter :=
  ⟨false, 0, view, false, examplePrintStack⟩

/-- The names of the definitions written by a pass, none after a fault. -/
def printedNames (r : Except GenFault (List CFuncDef × List VisitKey)) : List String :=
  match r with
  | .ok (out, _) => out.map (fun d => d.id.name)
  | .error _ => []

/-- The constructor `constructor(uint256 a)` of the example contract `P`. -/
def exampleParentCtor : FunctionDefinition :=
  { id := 22, name := "", isConstructor := true, isFallback := false,
    visibility := .Public, isPayable := false,
    parameters := [⟨"a", "sol_uint256_t", .Other, none⟩], returnParameters := [],
    modifiers := [] }

/-- The example contract `contract P { uint256 x; constructor(uint256 a)
public {} }`. -/
def exampleParent : ContractDefinition :=
  .mk 7 "P" false false (some exampleParentCtor) [] [⟨"x", "sol_uint256_t", .Other, none⟩]

/-- The constructor `constructor(uint256 b)` of the example contract `Q`. -/
def exampleChildCtor : FunctionDefinition :=
  { id := 23, name := "", isConstructor := true, isFallback := false,
    visibility := .Public, isPayable := false,
    parameters := [⟨"b", "sol_uint256_t", .Other, none⟩], returnParameters := [],
    modifiers := [] }

/-- The example contract `contract Q is P(1) { uint256 y = 2; P peer;
constructor(uint256 b) public {} }`. -/
def exampleChild : ContractDefinition :=
  .mk 8 "Q" false false (some exampleChildCtor) [.mk exampleParent (some [⟨"1"⟩])]
    [⟨"y", "sol_uint256_t", .Other, some ⟨"2"⟩⟩, ⟨"peer", "struct P", .Contract, none⟩]

/-- The analysis stack of the example chain: a constructor is named after the
contract that declares it, `Ctor_<Contract>`, followed by `_for_<Context>` when
it is lowered for another contract. -/
def exampleChainStack : AnalysisStack :=
  { exampleStack with
    function_scope := fun fn => if fn.id = 22 then exampleParent else exampleChild
    spec_name := fun s i =>
      (if s.func.isConstructor then
        "Ctor_" ++ (if s.func.id = 22 then "P" else "Q")
          ++ (if (if s.func.id = 22 then 7 else 8) = s.use_by.id then ""
              else "_for_" ++ s.use_by.name)
       else "Method_" ++ s.use_by.name ++ "_" ++ s.func.name)
        ++ (if i = 0 then "" else "_mod" ++ toString i) }

/-- A converter over the example chain, under the full view and with bodies. -/
def exampleChainConverter : FunctionConverter := ⟨false, 0, .FULL, false, exampleChainStack⟩

/-- The statements of the body of the last definition written, none when
nothing was written or the last definition has no body. -/
def lastBody (out : List CFuncDef) : List CStmt :=
  match out.getLast? with
  | some d => d.body.getD []
  | none => []

/-! ## Function block converter (`model/Block_function.cpp`) -/

/-- `BlockType` of a block converter. -/
inductive BlockType where
  | Action
  | Operation
  | AddressRef
  | Initializer
  deriving Repr, DecidableEq

/-- The members of `FunctionBlockConverter` read by `visit(Return)`: the block
type reported by `block_type()`, the return value `m_rv`, and of the parts
whose sources are not in this development `GeneralBlockConverter::expand` and
`InitFunction::wrap`. -/
structure FunctionBlockConverter where
  block_type : BlockType
  m_rv : Option VariableDeclaration
  /-- `expand(expression)`. -/
  expand : Expression → CExpr
  /-- `InitFunction::wrap(type, expression)`. -/
  wrap : String → CExpr → CExpr
  /-- The specialization `set_for` stores, null before the call. -/
  m_spec : Option FunctionSpecialization := none
  /-- `m_stack->types()->get_type(declaration)`. -/
  get_type : VariableDeclaration → String := fun d => d.type

/-- `FunctionBlockConverter::visit(Return const&)`: the sub-statement set by
`new_substmt`, or the null pointer the visit reads. `expression` is
`_node.expression()`, `none` for a bare `return;`. -/
def FunctionBlockConverter.visit_return (cv : FunctionBlockConverter)
    (expression : Option Expression) : Except GenFault CStmt :=
  match cv.block_type with
  | .Action => .ok (.ret none)
  | .Operation | .AddressRef =>
    match expression with
    | none => .error (.nullDeref "_node.expression()")
    | some e =>
      let rv := cv.expand e
      match cv.m_rv with
      | none => .error (.nullDeref "m_rv")
      | some m_rv =>
        let rv := cv.wrap m_rv.type rv
        let rv := if cv.block_type = BlockType.AddressRef then CExpr.ref rv else rv
        .ok (.ret (some rv))
  | .Initializer =>
    match expression with
    | none => .error (.nullDeref "_node.expression()")
    | some e => .ok (.expr (cv.expand e))

/-- The operations of `VariableScopeResolver` the hooks of the converter call.
The class is not part of this development; `R` is the state of a resolver. -/
structure ScopeResolverOps (R : Type) where
  /-- `_decls.assign_spec(spec)`. -/
  assign_spec : R → Option FunctionSpecialization → R
  /-- `_decls.record_declaration(declaration)`. -/
  record_declaration : R → VariableDeclaration → R
  /-- `_decls.resolve_declaration(declaration)`. -/
  resolve_declaration : R → VariableDeclaration → String

/-- Modelled from the spec: the block kind the base class
`GeneralBlockConverter` fixes from the return parameters (`model/Block.h` and
the general converter are missing), which "governs how a `return` statement
lowers (bare return vs. value-returning return vs. pointer-returning return
vs. expression-statement)": Action without return value, Initializer for an
allocation-managed contract value, which is passed "by destination pointer
rather than returned by value", AddressRef for any other contract value,
Operation otherwise. Multiple return values are an unsupported construct,
fatal to the pass. -/
def determine_block_type (retval_is_allocated : VariableDeclaration → Bool)
    (_rvs : List VariableDeclaration) : Except GenFault BlockType :=
  match _rvs with
  | [] => .ok .Action
  | [rv] =>
    if rv.category = TypeCategory.Contract then
      if retval_is_allocated rv then .ok .Initializer else .ok .AddressRef
    else .ok .Operation
  | _ :: _ :: _ => .error (.unsupported "Multiple return values not yet supported.")

/-- Modelled from the spec: `GeneralBlockConverter::has_retval()` (the base
class is missing): whether the block returns a value, that is, its kind is not
Action. -/
def FunctionBlockConverter.has_retval (cv : FunctionBlockConverter) : Bool :=
  cv.block_type != BlockType.Action

/-- `FunctionBlockConverter::FunctionBlockConverter`: the base class is built
from the parameters, return parameters and body of the function, then `m_rv`
is set to `_func.returnParameters()[0]` when there is a return value. -/
def FunctionBlockConverter.make (_func : FunctionDefinition)
    (retval_is_allocated : VariableDeclaration → Bool)
    (expand : Expression → CExpr) (wrap : String → CExpr → CExpr)
    (get_type : VariableDeclaration → String) : Except GenFault FunctionBlockConverter :=
  match determine_block_type retval_is_allocated _func.returnParameters with
  | .error e => .error e
  | .ok block_type =>
    let base : FunctionBlockConverter :=
      { block_type := block_type, m_rv := none, expand := expand, wrap := wrap,
        get_type := get_type }
    if base.has_retval then
      match _func.returnParameters with
      | rv :: _ => .ok { base with m_rv := some rv }
      | [] => .error (.outOfRange "returnParameters()[0]")
    else .ok base

/-- Modelled from the spec: the rule of the type checker of the compiler front
end for a return statement without expression (the input is "an already
type-checked" model; the checker is not part of this development): a bare
`return;` is an error, "Return arguments required.", in a function that
declares return values. A return statement with an expression is left to the
other rules of the checker, which this definition does not restrict. -/
def returnTypeChecks (_func : FunctionDefinition) (expression : Option Expression) : Bool :=
  expression.isSome || _func.returnParameters.isEmpty

/-- `FunctionBlockConverter::set_for`. -/
def FunctionBlockConverter.set_for (cv : FunctionBlockConverter)
    (_for : FunctionSpecialization) : FunctionBlockConverter :=
  { cv with m_spec := some _for }

/-- `FunctionBlockConverter::enter`: the statement list and the resolver after
the hook. -/
def FunctionBlockConverter.enter {R : Type} (cv : FunctionBlockConverter)
    (ops : ScopeResolverOps R) (_stmts : List CStmt) (_decls : R) : List CStmt × R :=
  let _decls := ops.assign_spec _decls cv.m_spec
  match cv.m_rv with
  | some m_rv =>
    if m_rv.name ≠ "" then
      let _decls := ops.record_declaration _decls m_rv
      (_stmts ++ [.decl (cv.get_type m_rv) (ops.resolve_declaration _decls m_rv) false], _decls)
    else (_stmts, _decls)
  | none => (_stmts, _decls)

/-- `FunctionBlockConverter::exit`: the statement list after the hook. -/
def FunctionBlockConverter.exit {R : Type} (cv : FunctionBlockConverter)
    (ops : ScopeResolverOps R) (_stmts : List CStmt) (_decls : R) : List CStmt :=
  match cv.m_rv with
  | some m_rv =>
    if m_rv.name ≠ "" then
      let rv : CVarDecl := ⟨cv.get_type m_rv, ops.resolve_declaration _decls m_rv, false⟩
      _stmts ++ [.ret (some rv.id)]
    else _stmts
  | none => _stmts

/-- A resolver for examples: it keeps the specialization and the declarations
recorded, and resolves a declaration to `func_user_<name>`. -/
def exampleResolverOps :
    ScopeResolverOps (Option FunctionSpecialization × List VariableDeclaration) where
  assign_spec r spec := (spec, r.2)
  record_declaration r d := (r.1, d :: r.2)
  resolve_declaration _ d := "func_user_" ++ d.name

/-- A function `f() returns (uint256 total)`, for examples. -/
def exampleNamedReturn : FunctionDefinition :=
  { id := 13, name := "f", isConstructor := false, isFallback := false,
    visibility := .Public, isPayable := false, parameters := [],
    returnParameters := [⟨"total", "sol_uint256_t", .Other, none⟩], modifiers := [] }

/-- The constructor of `contract B is A { constructor() A() public {} }`. -/
def exampleBaseCallCtor : FunctionDefinition :=
  { id := 21, name := "", isConstructor := true, isFallback := false,
    visibility := .Public, isPayable := false, parameters := [], returnParameters := [],
    modifiers := [⟨"A", some []⟩] }

/-- The contract `B` of `contract A {} contract B is A { constructor() A()
public {} }`. -/
def exampleBaseCall : ContractDefinition :=
  .mk 4 "B" false false (some exampleBaseCallCtor) [.mk (diamondTop 0 "A" []) none] []

/-- The contract `B` of `contract A {} contract B is A() {}`. -/
def exampleEmptySpecifier : ContractDefinition :=
  .mk 4 "B" false false none [.mk (diamondTop 0 "A" []) (some [])] []

/-! ## Scoped swap (`utils/General.h`) -/

/-- Modelled from the spec: `ScopedSwap<T>` (`utils/General.h` is missing; its
test `scope_swap` is part of the sources), the "classic scoped-pointer-swap
idiom". The object keeps the value the variable had before the swap. -/
structure ScopedSwap (T : Type) where
  m_old : T
  deriving Repr, DecidableEq

namespace ScopedSwap

/-- Modelled from the spec: the constructor `ScopedSwap<T>(target, value)`:
the swap object and the new content of the variable. -/
def make {T : Type} (target : T) (value : T) : ScopedSwap T × T :=
  (⟨target⟩, value)

/-- Modelled from the spec: `old()`. -/
def old {T : Type} (s : ScopedSwap T) : T := s.m_old

/-- Modelled from the spec: the destructor, run when the scope of the swap
ends: the content of the variable afterwards. -/
def release {T : Type} (s : ScopedSwap T) (_target : T) : T := s.m_old

/-- Opens one nested scope per value, each with a swap on the same variable:
the swaps alive, innermost first, and the content of the variable. -/
def enterAll {T : Type} : List T → List (ScopedSwap T) × T → List (ScopedSwap T) × T
  | [], r => r
  | v :: vs, (alive, target) =>
    enterAll vs ((make target v).1 :: alive, (make target v).2)

/-- Ends the `n` innermost scopes, innermost first. -/
def leave {T : Type} : Nat → List (ScopedSwap T) × T → List (ScopedSwap T) × T
  | 0, r => r
  | _ + 1, ([], target) => ([], target)
  | n + 1, (s :: alive, target) => leave n (alive, s.release target)

end ScopedSwap

/-! ## Declaration names (`utils/Types.cpp`) -/

/-- The loop of `escape_decl_name_string` over the characters of the name. -/
def escape_decl_name_chars : List Char → List Char
  | [] => []
  | c :: rest => (c :: if c = '_' then ['_'] else []) ++ escape_decl_name_chars rest

/-- `escape_decl_name_string`. -/
def escape_decl_name_string (_name : String) : String :=
  String.mk (escape_decl_name_chars _name.data)

/-- Replaces each pair of underscores by one underscore, from the left. -/
def collapse_underscores : List Char → List Char
  | '_' :: '_' :: rest => '_' :: collapse_underscores rest
  | c :: rest => c :: collapse_underscores rest
  | [] => []

/-! ## Forward declaration pass (`FunctionForwardDeclVisitor.cpp`) -/

/-- `FunctionType`, as far as the pass reads it: the types of the return
parameters. -/
structure FunctionType where
  returnParameterTypes : List String
  deriving Repr, DecidableEq

/-- Modelled from the spec: `FunctionDefinition::functionType(_internal)` of
the compiler front end (`libsolidity/ast/AST.cpp` is missing), the type of the
function as seen from inside (`_internal`) or from outside the contract. There
is no type from outside for a private or internal function and none from inside
for an external one: the pointer returned is null. `visibility()` never is
`Default` after analysis, which the front end asserts. -/
def FunctionDefinition.functionType (f : FunctionDefinition) (_internal : Bool) :
    Except GenFault (Option FunctionType) :=
  let type : FunctionType := ⟨f.returnParameters.map (fun rv => rv.type)⟩
  if _internal then
    match f.visibility with
    | .Default => .error (.assertion "visibility() should not return Default")
    | .Private | .Internal | .Public => .ok (some type)
    | .External => .ok none
  else
    match f.visibility with
    | .Default => .error (.assertion "visibility() should not return Default")
    | .Private | .Internal => .ok none
    | .Public | .External => .ok (some type)

/-- `Translation`: the C type and the name the translator gives a node. -/
structure Translation where
  type : String
  name : String
  deriving Repr, DecidableEq

/-- `TypeName` nodes, as the visitor traverses them. -/
inductive TypeName where
  | elementary (name : String)
  | userDefined (name : String)
  | mapping (keyType : TypeName) (valueType : TypeName)
  | array (baseType : TypeName)
  deriving Repr, DecidableEq

/-- `VariableDeclaration` as a node of the traversal: a state variable or a
structure member, with its type name. -/
structure DeclarationNode where
  name : String
  typeName : TypeName
  deriving Repr, DecidableEq

/-- `StructDefinition`. -/
structure StructDefinition where
  name : String
  members : List DeclarationNode
  deriving Repr, DecidableEq

/-- The sub-nodes of a contract, as the visitor traverses them. For the nodes
under `other` (enumerations, events, using-for directives) the visitor writes
nothing. -/
inductive ContractSubNode where
  | function (f : FunctionDefinition)
  | struct (s : StructDefinition)
  | declaration (v : DeclarationNode)
  | modifier (name : String)
  | other
  deriving Repr, DecidableEq

/-- `ContractDefinition` as a node of the traversal: its sub-nodes in source
order. -/
structure ContractNode where
  name : String
  subNodes : List ContractSubNode
  deriving Repr, DecidableEq

/-- Whether a sub-node is a constructor declared by the user. -/
def ContractSubNode.isConstructor : ContractSubNode → Bool
  | .function f => f.isConstructor
  | _ => false

/-- Whether a sub-node is a structure. -/
def ContractSubNode.isStruct : ContractSubNode → Bool
  | .struct _ => true
  | _ => false

/-- `ContractDefinition::constructor()`: the declared function that is a
constructor, if any. -/
def ContractNode.constructor (c : ContractNode) : Option FunctionDefinition :=
  c.subNodes.findSome? (fun n =>
    match n with
    | .function f => if f.isConstructor then some f else none
    | _ => none)

/-- The queries of the translator `m_translator`, whose source is not part of
this development. A translation may depend on the scopes entered so far. -/
structure TypeTranslator where
  translate_contract : ContractNode → Translation
  translate_struct : List Translation → StructDefinition → Translation
  translate_variable : List Translation → DeclarationNode → Translation
  translate_type : List Translation → TypeName → Translation

/-- One line written to the stream; a function line keeps the pieces it is
streamed from. -/
inductive ForwardLine where
  | function (return_type : String) (is_ctor : Bool) (scope_name : String) (name : String)
  | modifier (name : String)
  | text (line : String)
  deriving Repr, DecidableEq

/-- The characters of a line, the final `endl` included. -/
def ForwardLine.render : ForwardLine → String
  | .function return_type is_ctor scope_name name =>
    return_type ++ " " ++ (if is_ctor then "Ctor" else "Method") ++ "_" ++ scope_name
      ++ (if !is_ctor then "_" ++ name else "") ++ "\n"
  | .modifier name => "M " ++ name ++ "\n"
  | .text line => line ++ "\n"

/-- The state of the visitor during `print`: the scopes entered and not yet
left, innermost first, and the lines written. -/
structure ForwardDeclState where
  scopes : List Translation
  m_ostream : List ForwardLine
  deriving Repr, DecidableEq

namespace FunctionForwardDeclVisitor

/-- Modelled from the spec: `m_translator.scope()`, the translation of the
innermost scope entered (`TypeTranslator` is missing). -/
def scope (st : ForwardDeclState) : Translation :=
  st.scopes.headD ⟨"", ""⟩

/-- Modelled from the spec: `m_translator.enter_scope(node)`, with the
translation of the node. -/
def enter_scope (st : ForwardDeclState) (t : Translation) : ForwardDeclState :=
  { st with scopes := t :: st.scopes }

/-- Modelled from the spec: `m_translator.exit_scope()`. -/
def exit_scope (st : ForwardDeclState) : ForwardDeclState :=
  { st with scopes := st.scopes.tail }

/-- The constructor definition the visitor builds for a contract
(`StateMutability::NonPayable`) or a structure (`StateMutability::Pure`). -/
def default_ctor_def (mutability : StateMutability) : FunctionDefinition :=
  { id := 0, name := "", isConstructor := true, isFallback := false,
    visibility := Visibility.Public, isPayable := false, parameters := [],
    returnParameters := [], modifiers := [], stateMutability := mutability, body := [] }

/-- `FunctionForwardDeclVisitor::visit(FunctionDefinition const&)`; it returns
false, so nothing below the function is visited. For a function that is not a
constructor the return types are read through `_node.functionType(false)`,
which is null when the function has no type from outside its contract. -/
def visit_function (st : ForwardDeclState) (_node : FunctionDefinition) :
    Except GenFault ForwardDeclState :=
  let return_type : Except GenFault String :=
    if _node.isConstructor then .ok (scope st).type
    else
      match _node.functionType false with
      | .error e => .error e
      | .ok none => .error (.nullDeref "_node.functionType(false)")
      | .ok (some ftype) =>
        if ftype.returnParameterTypes.length = 0 then .ok "void"
        else .ok ""
  match return_type with
  | .error e => .error e
  | .ok return_type =>
    .ok { st with m_ostream := st.m_ostream
      ++ [.function return_type _node.isConstructor (scope st).name _node.name] }

/-- The three lines `visit(Mapping const&)` writes for a mapping with the
given key type, under the scopes entered so far. -/
def mapping_prototypes (tr : TypeTranslator) (scopes : List Translation)
    (keyType valueType : TypeName) : List ForwardLine :=
  let map_translation := tr.translate_type scopes (.mapping keyType valueType)
  let key_type := (tr.translate_type scopes keyType).type
  let val_type := "v"
  [.text (val_type ++ " " ++ "Read" ++ "_" ++ map_translation.name
      ++ "(" ++ map_translation.type ++ " *a, " ++ key_type ++ " idx" ++ ");"),
   .text ("void " ++ "Write" ++ "_" ++ map_translation.name
      ++ "(" ++ map_translation.type ++ " *a, " ++ key_type ++ " idx, "
      ++ val_type ++ " d" ++ ");"),
   .text (val_type ++ " *" ++ "Ref" ++ "_" ++ map_translation.name
      ++ "(" ++ map_translation.type ++ " *a, " ++ key_type ++ " idx" ++ ");")]

/-- The visit of a type name: `visit(Mapping const&)` writes the three
prototypes and returns true, so key and value types are visited next; other
type names write nothing. -/
def accept_type_name (tr : TypeTranslator) : TypeName → ForwardDeclState → ForwardDeclState
  | .mapping keyType valueType, st =>
    let st := { st with m_ostream := st.m_ostream
      ++ mapping_prototypes tr st.scopes keyType valueType }
    accept_type_name tr valueType (accept_type_name tr keyType st)
  | .array baseType, st => accept_type_name tr baseType st
  | .elementary _, st => st
  | .userDefined _, st => st

/-- The visit of a variable declaration: `visit` enters its scope, the type
name is visited, `endVisit` leaves the scope. -/
def accept_variable (tr : TypeTranslator) (st : ForwardDeclState) (_node : DeclarationNode) :
    ForwardDeclState :=
  let st := enter_scope st (tr.translate_variable st.scopes _node)
  exit_scope (accept_type_name tr _node.typeName st)

/-- The visit of a structure: `visit` enters its scope and visits the
constructor it builds, the members are visited, `endVisit` leaves the scope. -/
def accept_struct (tr : TypeTranslator) (st : ForwardDeclState) (_node : StructDefinition) :
    Except GenFault ForwardDeclState :=
  let st := enter_scope st (tr.translate_struct st.scopes _node)
  match visit_function st (default_ctor_def StateMutability.Pure) with
  | .error e => .error e
  | .ok st => .ok (exit_scope (_node.members.foldl (accept_variable tr) st))

/-- The visit of one sub-node of a contract. -/
def accept_sub_node (tr : TypeTranslator) (st : ForwardDeclState) :
    ContractSubNode → Except GenFault ForwardDeclState
  | .function f => visit_function st f
  | .struct s => accept_struct tr st s
  | .declaration v => .ok (accept_variable tr st v)
  | .modifier name => .ok { st with m_ostream := st.m_ostream ++ [.modifier name] }
  | .other => .ok st

/-- The visits of the sub-nodes of a contract, in source order, up to the
first one that stops the pass. -/
def accept_sub_nodes (tr : TypeTranslator) :
    List ContractSubNode → ForwardDeclState → Except GenFault ForwardDeclState
  | [], st => .ok st
  | n :: ns, st =>
    match accept_sub_node tr st n with
    | .error e => .error e
    | .ok st1 => accept_sub_nodes tr ns st1

/-- The visit of a contract: `visit` enters its scope and, when the contract
declares no constructor, visits the constructor it builds; the sub-nodes are
visited; `endVisit` leaves the scope. -/
def accept_contract (tr : TypeTranslator) (st : ForwardDeclState) (_node : ContractNode) :
    Except GenFault ForwardDeclState :=
  let st := enter_scope st (tr.translate_contract _node)
  let visited : Except GenFault ForwardDeclState :=
    if _node.constructor = none then visit_function st (default_ctor_def StateMutability.NonPayable)
    else .ok st
  match visited with
  | .error e => .error e
  | .ok st =>
    match accept_sub_nodes tr _node.subNodes st with
    | .error e => .error e
    | .ok st => .ok (exit_scope st)

/-- The visits of the contracts of a source unit, in source order. -/
def accept_contracts (tr : TypeTranslator) :
    List ContractNode → ForwardDeclState → Except GenFault ForwardDeclState
  | [], st => .ok st
  | c :: cs, st =>
    match accept_contract tr st c with
    | .error e => .error e
    | .ok st1 => accept_contracts tr cs st1

/-- `FunctionForwardDeclVisitor::print` on a source unit: the lines written. -/
def print (tr : TypeTranslator) (contracts : List ContractNode) :
    Except GenFault (List ForwardLine) :=
  match accept_contracts tr contracts ⟨[], []⟩ with
  | .error e => .error e
  | .ok st => .ok st.m_ostream

end FunctionForwardDeclVisitor

/-- A visit that leaves the scopes as they were and appends the lines `new`. -/
def Appends (st st1 : ForwardDeclState) (new : List ForwardLine) : Prop :=
  st1.scopes = st.scopes ∧ st1.m_ostream = st.m_ostream ++ new

/-- Whether a line is the line of a constructor. -/
def ForwardLine.isCtor : ForwardLine → Bool
  | .function _ is_ctor _ _ => is_ctor
  | _ => false

/-- The number of constructor lines among the lines written. -/
def ctorLineCount (lines : List ForwardLine) : Nat :=
  (lines.filter ForwardLine.isCtor).length

/-- Whether a function has a type from outside its contract or is a
constructor: the functions at which the visit does not stop. -/
def FunctionDefinition.hasForwardLine (f : FunctionDefinition) : Bool :=
  f.isConstructor || decide (f.visibility = Visibility.Public)
    || decide (f.visibility = Visibility.External)

/-- Whether a sub-node is a function at which the visit stops. -/
def ContractSubNode.stopsPass : ContractSubNode → Bool
  | .function f => !f.hasForwardLine
  | _ => false

/-- The lines written by a run of the pass, none after a fault. -/
def linesOf (r : Except GenFault ForwardDeclState) : List ForwardLine :=
  match r with
  | .ok st => st.m_ostream
  | .error _ => []

/-- A translator for examples: a contract or structure is translated to
`struct <name>` under its own name. -/
def exampleTranslator : TypeTranslator where
  translate_contract c := ⟨"struct " ++ c.name, c.name⟩
  translate_struct scopes s :=
    ⟨"struct " ++ (scopes.headD ⟨"", ""⟩).name ++ "_Struct" ++ s.name,
     (scopes.headD ⟨"", ""⟩).name ++ "_Struct" ++ s.name⟩
  translate_variable _ v := ⟨"", v.name⟩
  translate_type _ t :=
    match t with
    | .elementary n => ⟨n, n⟩
    | .userDefined n => ⟨"struct " ++ n, n⟩
    | .mapping _ _ => ⟨"struct Map", "Map"⟩
    | .array _ => ⟨"array", "array"⟩

/-- An example contract without constructor: a structure, a mapping and a
function. -/
def exampleForwardContract : ContractNode :=
  { name := "A",
    subNodes :=
      [.struct ⟨"S", [⟨"m", .elementary "uint256"⟩]⟩,
       .declaration ⟨"bal", .mapping (.elementary "address") (.elementary "uint256")⟩,
       .function exampleMethod] }

/-- The contract `contract A { function g() internal {} constructor() public
{} }`. -/
def exampleInternalFirst : ContractNode :=
  { name := "A",
    subNodes := [.function exampleHelper, .function exampleCtor] }

/-! ### Calls through the visited set -/

/-- A call of one of the two entry points that are keyed through the visited
set by a (declaration, context) pair. -/
inductive ConverterCall where
  /-- `handle_function(_spec, _rv_type, _rv_is_ptr)`. -/
  | function (_spec : FunctionSpecialization) (_rv_type : String) (_rv_is_ptr : Bool)
  /-- `handle_contract_initializer(_initialized, _for)`. -/
  | initializer (_initialized _for : ContractDefinition)

namespace ConverterCall

/-- The name the call returns. -/
def name (cv : FunctionConverter) : ConverterCall → String
  | .function _spec _ _ => cv.m_stack.spec_name _spec 0
  | .initializer _initialized _for => cv.m_stack.init_call_name _initialized _for

end ConverterCall

namespace FunctionConverter

/-- Runs one call. -/
def run (cv : FunctionConverter) (c : ConverterCall) (st : ConverterState) :
    Except GenFault (String × ConverterState) :=
  match c with
  | .function _spec _rv_type _rv_is_ptr => .ok (cv.handle_function _spec _rv_type _rv_is_ptr st)
  | .initializer _initialized _for => cv.handle_contract_initializer _initialized _for st

end FunctionConverter

/-- The state `st1` comes from `st` by recording keys of context `ctx` and by
appending to the output. -/
def Grows (ctx : Nat) (st st1 : ConverterState) : Prop :=
  (∀ k ∈ st.m_visited, k ∈ st1.m_visited)
  ∧ (∃ new, st1.m_ostream = st.m_ostream ++ new)
  ∧ (∀ k ∈ st1.m_visited, k ∈ st.m_visited ∨ k.2 = some (.contract ctx))

/-- The state `st1` comes from `st` by writing the definitions `new`. -/
def Writes (st st1 : ConverterState) (new : List CFuncDef) : Prop :=
  st1.m_ostream = st.m_ostream ++ new

/-- The state with which a step starts once the key `k` is recorded. -/
def ConverterState.record (st : ConverterState) (k : VisitKey) : ConverterState :=
  { st with m_visited := k :: st.m_visited }

/-- The first pass of the example converter under the full view: what it
writes and the visited set it leaves. -/
def exampleFirstPass : List CFuncDef × List VisitKey :=
  match (examplePrinter .FULL).print_to_stream [] with
  | .ok r => r
  | .error _ => ([], [])

/-! ## Theorems: address allocation -/

theorem AddressSpace.new_inRange (d : MapIndexSummary) : (AddressSpace.new d).InRange := by
  unfold AddressSpace.new AddressSpace.InRange UINT64_SIZE
  refine ⟨?_, Nat.mod_lt _ (by norm_num), ?_⟩ <;> dsimp only <;> split <;> norm_num

theorem AddressSpace.reserve_ok (s : AddressSpace) (hmax : s.MAX_ADDR < UINT64_SIZE)
    (h : s.m_next_addr < s.MAX_ADDR) :
    s.reserve = (.ok s.m_next_addr, { s with m_next_addr := s.m_next_addr + 1 }) := by
  unfold AddressSpace.reserve
  have h1 : ¬ s.m_next_addr ≥ s.MAX_ADDR := by omega
  have h2 : (s.m_next_addr + 1) % UINT64_SIZE = s.m_next_addr + 1 :=
    Nat.mod_eq_of_lt (by omega)
  simp only [h1, if_false, h2]

theorem AddressSpace.reserve_fail (s : AddressSpace) (h : s.MAX_ADDR ≤ s.m_next_addr) :
    s.reserve = (.error reserveError, s) := by
  unfold AddressSpace.reserve
  simp only [ge_iff_le, h, if_true]

theorem AddressSpace.reserveMany_fail (n : Nat) (s : AddressSpace)
    (h : s.MAX_ADDR ≤ s.m_next_addr) :
    s.reserveMany n = (List.replicate n (.error reserveError), s) := by
  induction n with
  | zero => rfl
  | succ n ih =>
    simp only [AddressSpace.reserveMany, AddressSpace.reserve_fail s h, ih, List.replicate_succ]

theorem AddressSpace.reserveMany_ok (n : Nat) (s : AddressSpace)
    (hmax : s.MAX_ADDR < UINT64_SIZE) (h : s.m_next_addr + n ≤ s.MAX_ADDR) :
    s.reserveMany n =
      ((List.range' s.m_next_addr n).map .ok, { s with m_next_addr := s.m_next_addr + n }) := by
  induction n generalizing s with
  | zero => rfl
  | succ n ih =>
    have hlt : s.m_next_addr < s.MAX_ADDR := by omega
    have hstep := AddressSpace.reserve_ok s hmax hlt
    have := ih { s with m_next_addr := s.m_next_addr + 1 } hmax (by simp only; omega)
    simp only [AddressSpace.reserveMany, hstep, this, List.range'_succ, List.map_cons]
    simp only [Nat.add_assoc, Nat.add_comm 1 n]

theorem AddressSpace.reserveMany_snoc (n : Nat) (t : AddressSpace) :
    (t.reserveMany (n + 1)).1 = (t.reserveMany n).1 ++ [(t.reserveMany n).2.reserve.1] := by
  induction n generalizing t with
  | zero => rfl
  | succ n ih =>
    have := ih t.reserve.2
    simp only [AddressSpace.reserveMany] at this ⊢
    rw [this]; rfl

theorem AddressSpace.reserveMany_fresh (s : AddressSpace) (hmax : s.MAX_ADDR < UINT64_SIZE)
    (hcur : s.m_next_addr = s.MIN_ADDR) (h : s.MIN_ADDR ≤ s.MAX_ADDR) :
    (s.reserveMany (s.MAX_ADDR - s.MIN_ADDR)).1
        = (List.range' s.MIN_ADDR (s.MAX_ADDR - s.MIN_ADDR)).map .ok
      ∧ (s.reserveMany (s.MAX_ADDR - s.MIN_ADDR + 1)).1
        = (List.range' s.MIN_ADDR (s.MAX_ADDR - s.MIN_ADDR)).map .ok
            ++ [.error reserveError] := by
  have hN := AddressSpace.reserveMany_ok (s.MAX_ADDR - s.MIN_ADDR) s hmax (by omega)
  refine ⟨by rw [hN, hcur], ?_⟩
  rw [AddressSpace.reserveMany_snoc, hN, hcur]
  have hfull : s.MAX_ADDR ≤ s.MIN_ADDR + (s.MAX_ADDR - s.MIN_ADDR) := by omega
  have := AddressSpace.reserve_fail
    { s with m_next_addr := s.MIN_ADDR + (s.MAX_ADDR - s.MIN_ADDR) } hfull
  simp only [this]

/-- C1: on a freshly constructed address space with `MIN_ADDR ≤ MAX_ADDR`, the
first `N = MAX_ADDR - MIN_ADDR` calls of `reserve()` return
`MIN_ADDR, MIN_ADDR+1, …, MAX_ADDR-1` in this (strictly increasing) order, and
the call after them throws the exhaustion error. -/
theorem C1_reserve_sequence (d : MapIndexSummary)
    (h : (AddressSpace.new d).MIN_ADDR ≤ (AddressSpace.new d).MAX_ADDR) :
    ((AddressSpace.new d).reserveMany
        ((AddressSpace.new d).MAX_ADDR - (AddressSpace.new d).MIN_ADDR)).1
      = (List.range' (AddressSpace.new d).MIN_ADDR
          ((AddressSpace.new d).MAX_ADDR - (AddressSpace.new d).MIN_ADDR)).map .ok
    ∧ (List.range' (AddressSpace.new d).MIN_ADDR
          ((AddressSpace.new d).MAX_ADDR - (AddressSpace.new d).MIN_ADDR)).Pairwise (· < ·)
    ∧ (∀ a, a ∈ List.range' (AddressSpace.new d).MIN_ADDR
          ((AddressSpace.new d).MAX_ADDR - (AddressSpace.new d).MIN_ADDR)
        ↔ (AddressSpace.new d).MIN_ADDR ≤ a ∧ a < (AddressSpace.new d).MAX_ADDR)
    ∧ ((AddressSpace.new d).reserveMany
        ((AddressSpace.new d).MAX_ADDR - (AddressSpace.new d).MIN_ADDR + 1)).1
      = (List.range' (AddressSpace.new d).MIN_ADDR
          ((AddressSpace.new d).MAX_ADDR - (AddressSpace.new d).MIN_ADDR)).map .ok
        ++ [.error reserveError] := by
  have hr := AddressSpace.new_inRange d
  have hcur : (AddressSpace.new d).m_next_addr = (AddressSpace.new d).MIN_ADDR := rfl
  generalize AddressSpace.new d = s at h hr hcur ⊢
  have hf := AddressSpace.reserveMany_fresh s hr.2.1 hcur h
  refine ⟨hf.1, List.pairwise_lt_range' s.MIN_ADDR _, ?_, hf.2⟩
  intro a
  rw [List.mem_range'_1]
  constructor
  · rintro ⟨h1, h2⟩; exact ⟨h1, by omega⟩
  · rintro ⟨h1, h2⟩; exact ⟨h1, by omega⟩

/-- Witness of C1: literals `{0, 5, 12}` and four representative addresses give
`MIN_ADDR = 1`, `MAX_ADDR = 4`. -/
theorem C1_reserve_sequence_witness :
    (AddressSpace.new ⟨[0, 5, 12], 4⟩).MIN_ADDR ≤ (AddressSpace.new ⟨[0, 5, 12], 4⟩).MAX_ADDR
    ∧ ((AddressSpace.new ⟨[0, 5, 12], 4⟩).reserveMany 4).1
        = [.ok 1, .ok 2, .ok 3, .error reserveError] :=
  ⟨by decide, (C1_reserve_sequence ⟨[0, 5, 12], 4⟩ (by decide)).2.2.2⟩

/-- C2: in every state, `reserve()` throws exactly when the cursor has reached
`MAX_ADDR`; otherwise it returns the cursor and advances it by exactly one,
leaving the bounds alone. A throwing call changes nothing, so `MAX_ADDR` never
grows and every later call throws as well. -/
theorem C2_reserve_step (s : AddressSpace) (hr : s.InRange) :
    ((∃ e, s.reserve.1 = .error e) ↔ s.m_next_addr ≥ s.MAX_ADDR)
    ∧ (s.m_next_addr < s.MAX_ADDR →
        s.reserve.1 = .ok s.m_next_addr
        ∧ s.reserve.2.m_next_addr = s.m_next_addr + 1
        ∧ s.reserve.2.MIN_ADDR = s.MIN_ADDR
        ∧ s.reserve.2.MAX_ADDR = s.MAX_ADDR)
    ∧ (s.m_next_addr ≥ s.MAX_ADDR →
        s.reserve = (.error reserveError, s)
        ∧ ∀ n, s.reserveMany n = (List.replicate n (.error reserveError), s))
    ∧ s.reserve.2.MAX_ADDR = s.MAX_ADDR := by
  refine ⟨?_, ?_, ?_, ?_⟩
  · constructor
    · rintro ⟨e, he⟩
      by_contra hlt
      rw [AddressSpace.reserve_ok s hr.2.1 (by omega)] at he
      cases he
    · intro h
      exact ⟨reserveError, by rw [AddressSpace.reserve_fail s h]⟩
  · intro h
    rw [AddressSpace.reserve_ok s hr.2.1 h]
    exact ⟨rfl, rfl, rfl, rfl⟩
  · intro h
    exact ⟨AddressSpace.reserve_fail s h, fun n => AddressSpace.reserveMany_fail n s h⟩
  · unfold AddressSpace.reserve
    dsimp only
    split <;> rfl

/-- Witness of C2: a space with bounds `[1, 4)` whose cursor stands at 2. -/
theorem C2_reserve_step_witness :
    (AddressSpace.mk 1 4 ⟨[0, 5, 12], 4⟩ 2).InRange
    ∧ (AddressSpace.mk 1 4 ⟨[0, 5, 12], 4⟩ 2).reserve.1 = .ok 2
    ∧ (AddressSpace.mk 1 4 ⟨[0, 5, 12], 4⟩ 2).reserve.2.m_next_addr = 3 :=
  ⟨by decide,
   ((C2_reserve_step (AddressSpace.mk 1 4 ⟨[0, 5, 12], 4⟩ 2) (by decide)).2.1 (by decide)).1,
   ((C2_reserve_step (AddressSpace.mk 1 4 ⟨[0, 5, 12], 4⟩ 2) (by decide)).2.1 (by decide)).2.1⟩

/-! ## Theorems: currency transfer primitives -/

namespace EtherMethodGenerator

theorem sub_wrap (b a : Nat) (hb : b < VALUE_SIZE) (h : a ≤ b) :
    (b + (VALUE_SIZE - a % VALUE_SIZE)) % VALUE_SIZE = b - a := by
  have ha : a % VALUE_SIZE = a := Nat.mod_eq_of_lt (by omega)
  rw [ha]
  have : b + (VALUE_SIZE - a) = (b - a) + VALUE_SIZE := by omega
  rw [this, Nat.add_mod_right]
  exact Nat.mod_eq_of_lt (by omega)

/-- C3: the emitted `Pay(bal, amt)`, run on a balance `b` and an amount `a`:
with `b ≥ a` it sets the balance to `b - a` and returns `a` (`pay(10, 10)`
returns 10 and leaves 0); with `b < a` it stops at the require fault
"Insufficient funds to call." with the balance still `b` (`pay(5, 10)`). -/
theorem C3_pay_semantics (g : EtherMethodGenerator) (nd : Nat → Nat) (b a : Nat) (hb : b < VALUE_SIZE) :
    (a ≤ b → g.runPay nd b a = (.ret a, ⟨[("bal", b - a), ("amt", a)], 0⟩))
    ∧ (b < a → g.runPay nd b a
        = (.fault (.require "Insufficient funds to call."), ⟨[("bal", b), ("amt", a)], 0⟩)) := by
  constructor
  · intro h
    have hw := sub_wrap b a hb h
    simp [runPay, runFun, generate_pay, LibVerify.add_require, execStmts, execStmt, evalExpr,
      evalArgs, evalCall, evalBinop, lvalue, CVarDecl.access, CVarDecl.id, BAL_VAR, AMT_VAR,
      bindParams, Store.get, Store.set, strArg, h, hw, List.lookup]
  · intro h
    have h' : ¬ a ≤ b := by omega
    simp [runPay, runFun, generate_pay, LibVerify.add_require, execStmts, execStmt, evalExpr,
      evalArgs, evalCall, evalBinop, lvalue, CVarDecl.access, CVarDecl.id, BAL_VAR, AMT_VAR,
      bindParams, Store.get, Store.set, strArg, h', List.lookup]

/-- Witness of C3: `pay(10, 10)` returns 10 and leaves balance 0. -/
theorem C3_pay_semantics_witness :
    10 < VALUE_SIZE
    ∧ runPay ⟨"sol_uint256_t", "sol_address_t", [], true, false, false⟩ (fun _ => 0) 10 10
        = (.ret 10, ⟨[("bal", 0), ("amt", 10)], 0⟩)
    ∧ runPay ⟨"sol_uint256_t", "sol_address_t", [], true, false, false⟩ (fun _ => 0) 5 10
        = (.fault (.require "Insufficient funds to call."), ⟨[("bal", 5), ("amt", 10)], 0⟩) :=
  ⟨by decide,
   (C3_pay_semantics ⟨"sol_uint256_t", "sol_address_t", [], true, false, false⟩ (fun _ => 0)
      10 10 (by decide)).1 (by decide),
   (C3_pay_semantics ⟨"sol_uint256_t", "sol_address_t", [], true, false, false⟩ (fun _ => 0)
      5 10 (by decide)).2 (by decide)⟩

theorem send_case_skip (g : EtherMethodGenerator) (nd : Nat → Nat) (fail : CStmt)
    (b d a i : Nat) (h : d ≠ i) :
    execStmt nd noCalls (g.send_case fail i) (etherStart b d a) = (.next, etherStart b d a) := by
  simp [send_case, execStmt, evalExpr, evalBinop, lvalue, CVarDecl.access, CVarDecl.id, DST_VAR,
    Store.get, etherStart, h, List.lookup]

theorem send_cases_skip (g : EtherMethodGenerator) (nd : Nat → Nat) (fail : CStmt)
    (b d a : Nat) (idxs : List Nat) (rest : List CStmt) (h : ∀ i ∈ idxs, d ≠ i) :
    execStmts nd noCalls (idxs.map (g.send_case fail) ++ rest) (etherStart b d a)
      = execStmts nd noCalls rest (etherStart b d a) := by
  induction idxs with
  | nil => rfl
  | cons i is ih =>
    have h1 := send_case_skip g nd fail b d a i (h i (List.mem_cons_self _ _))
    simp only [List.map_cons, List.cons_append, execStmts, h1]
    exact ih (fun j hj => h j (List.mem_cons_of_mem _ hj))

theorem send_case_hit (g : EtherMethodGenerator) (nd : Nat → Nat)
    (b d a : Nat) (rest : List CStmt) :
    execStmts nd noCalls (g.send_case (.ret (some (.intLit 0))) d :: rest) (etherStart b d a)
      = if payableAt g d then (.fault (.assertion "Fallback not allowed in."), etherStart b d a)
        else (.ret 0, etherStart b d a) := by
  by_cases hp : payableAt g d
  · simp [send_case, execStmts, execStmt, evalExpr, evalArgs, evalCall, evalBinop, lvalue,
      CVarDecl.access, CVarDecl.id, DST_VAR, Store.get, etherStart, List.lookup,
      LibVerify.add_assert, Literals.ZERO, strArg, hp]
  · simp [send_case, execStmts, execStmt, evalExpr, evalBinop, lvalue,
      CVarDecl.access, CVarDecl.id, DST_VAR, Store.get, etherStart, List.lookup, hp]

theorem range_split (n d : Nat) (h : d ≤ n) :
    List.range (n + 1) = List.range d ++ d :: List.range' (d + 1) (n - d) := by
  have : n + 1 = (n - d + 1) + d := by omega
  rw [List.range_eq_range', List.range_eq_range', this, ← List.range'_append_1, Nat.zero_add,
    List.range'_succ]

/-- What the emitted `Send` does, case by case. -/
theorem runSend_cases (g : EtherMethodGenerator) (nd : Nat → Nat) (b d a : Nat) :
    g.runSend nd b d a =
      if b < a then (.ret 0, etherStart b d a)
      else if d ≤ g.bundle.length then
        (if payableAt g d then (.fault (.assertion "Fallback not allowed in."), etherStart b d a)
         else (.ret 0, etherStart b d a))
      else (.ret (nd 0 % 256),
            ⟨[("bal", (b + (VALUE_SIZE - a % VALUE_SIZE)) % VALUE_SIZE), ("dst", d), ("amt", a)], 1⟩) := by
  have hstart : bindParams [g.BAL_VAR, g.DST_VAR, g.AMT_VAR] [b, d, a] = (etherStart b d a).vars := rfl
  unfold runSend runFun generate_send
  simp only [Bool.not_false, if_true, hstart, List.cons_append, List.nil_append, List.append_assoc]
  by_cases hba : b < a
  · simp [execStmts, execStmt, evalExpr, evalBinop, lvalue, CVarDecl.access, CVarDecl.id,
      BAL_VAR, AMT_VAR, Store.get, etherStart, List.lookup, hba]
  · have hfirst : execStmt nd noCalls
        (.ifThen (.binop (g.BAL_VAR.access "v") "<" (g.AMT_VAR.access "v")) (.ret (some (.intLit 0))))
        (etherStart b d a) = (.next, etherStart b d a) := by
      simp [execStmt, evalExpr, evalBinop, lvalue, CVarDecl.access, CVarDecl.id,
        BAL_VAR, AMT_VAR, Store.get, etherStart, List.lookup, hba]
    have hm : (⟨(etherStart b d a).vars, 0⟩ : Machine) = etherStart b d a := rfl
    rw [hm, execStmts, hfirst]
    simp only [hba, if_false]
    by_cases hd : d ≤ g.bundle.length
    · simp only [hd, if_true]
      rw [range_split _ d hd, List.map_append, List.append_assoc,
        send_cases_skip g nd _ b d a (List.range d) _ (fun i hi => by
          have := List.mem_range.mp hi; omega)]
      rw [List.map_cons, List.cons_append, send_case_hit]
    · simp only [hd, if_false]
      rw [send_cases_skip g nd _ b d a _ _ (fun i hi => by
          have := List.mem_range.mp hi; omega)]
      simp [execStmts, execStmt, evalExpr, evalArgs, evalCall, evalBinop, lvalue, CVarDecl.access,
        CVarDecl.id, BAL_VAR, AMT_VAR, Store.get, Store.set, etherStart, List.lookup,
        NondetSourceRegistry.byte]

theorem payableAt_false_of (g : EtherMethodGenerator) (d : Nat) (c : FlatContract)
    (hc : g.bundle[d - 1]? = some c) (hn : c.is_payable = false) :
    g.payableAt d = false := by
  simp [payableAt, hc, hn]

theorem payableAt_true_of (g : EtherMethodGenerator) (d : Nat) (c : FlatContract)
    (hd : 1 ≤ d) (hc : g.bundle[d - 1]? = some c) (hp : c.is_payable = true) :
    g.payableAt d = true := by
  have : 0 < d := hd
  simp [payableAt, hc, hp, this]

/-- C4: with `N` instances in the bundle, the emitted `Send(bal, dst, amt)`
returns 0 and leaves the balance unchanged whenever `bal < amt`, or `dst = 0`,
or `1 ≤ dst ≤ N` and instance `dst - 1` of the bundle is not payable. In a
model of two instances, neither payable, `send(10, dst, 5)` returns 0 with
balance 10 for every `dst` in `0..2`. -/
theorem C4_send_refused (g : EtherMethodGenerator) (nd : Nat → Nat) (b d a : Nat) :
    (b < a → g.runSend nd b d a = (.ret 0, etherStart b d a))
    ∧ (d = 0 → g.runSend nd b d a = (.ret 0, etherStart b d a))
    ∧ (∀ c, 1 ≤ d → d ≤ g.bundle.length → g.bundle[d - 1]? = some c →
        c.is_payable = false → g.runSend nd b d a = (.ret 0, etherStart b d a))
    ∧ (etherStart b d a).vars.get "bal" = b
    ∧ (∀ c1 c2, g.bundle = [c1, c2] → c1.is_payable = false → c2.is_payable = false →
        d ≤ 2 → g.runSend nd 10 d 5 = (.ret 0, etherStart 10 d 5)) := by
  have hzero : g.payableAt 0 = false := by simp [payableAt]
  refine ⟨?_, ?_, ?_, rfl, ?_⟩
  · intro h
    rw [runSend_cases]; simp [h]
  · intro h
    subst h
    rw [runSend_cases]
    by_cases hba : b < a <;> simp [hba, hzero]
  · intro c _ h2 hc hn
    rw [runSend_cases]
    by_cases hba : b < a <;> simp [hba, h2, payableAt_false_of g d c hc hn]
  · intro c1 c2 hb h1 h2 hd
    rw [runSend_cases]
    have hp : g.payableAt d = false := by
      rcases Nat.lt_or_ge d 1 with h | h
      · have : d = 0 := by omega
        subst this; exact hzero
      · rcases Nat.lt_or_ge d 2 with h' | h'
        · have : d = 1 := by omega
          subst this
          exact payableAt_false_of g 1 c1 (by simp [hb]) h1
        · have : d = 2 := by omega
          subst this
          exact payableAt_false_of g 2 c2 (by simp [hb]) h2
    have hlen : d ≤ g.bundle.length := by simp [hb]; exact hd
    simp [hlen, hp]

/-- The two-instance model of the spec, neither instance payable:
`send(10, 1, 5)` returns 0 and leaves balance 10. -/
theorem send_refused_example :
    runSend ⟨"sol_uint256_t", "sol_address_t", [⟨"A", false⟩, ⟨"B", false⟩], false, true, false⟩
      (fun _ => 1) 10 1 5 = (.ret 0, ⟨[("bal", 10), ("dst", 1), ("amt", 5)], 0⟩) := by
  decide

/-- C5, as stated, fails: with instance 1 payable, `send(bal=10, dst=1, amt=5)`
neither returns nor decrements the balance; it stops at the assertion that
sends to a payable instance are not supported. -/
theorem C5_send_payable_counterexample :
    payableAt ⟨"sol_uint256_t", "sol_address_t", [⟨"A", true⟩], false, true, false⟩ 1 = true
    ∧ runSend ⟨"sol_uint256_t", "sol_address_t", [⟨"A", true⟩], false, true, false⟩
        (fun _ => 1) 10 1 5
      = (.fault (.assertion "Fallback not allowed in."),
          ⟨[("bal", 10), ("dst", 1), ("amt", 5)], 0⟩) := by
  decide

/-- C5, amended: when instance `i` (`1 ≤ i ≤ N`) is payable and `bal ≥ amt`,
the emitted `Send(bal, i, amt)` stops at the assertion "Fallback not allowed
in." with the balance unchanged. The decrement by `amt` together with a
nondeterministic return value happens for a destination above `N`: the value
returned is the byte drawn from the nondeterministic source, so every byte,
0 and 1 included, is reachable. -/
theorem C5_send_payable_amended (g : EtherMethodGenerator) (b d a : Nat)
    (hb : b < VALUE_SIZE) (hab : a ≤ b) :
    (∀ c nd, 1 ≤ d → d ≤ g.bundle.length → g.bundle[d - 1]? = some c →
        c.is_payable = true →
        g.runSend nd b d a = (.fault (.assertion "Fallback not allowed in."), etherStart b d a))
    ∧ (g.bundle.length < d → ∀ nd,
        g.runSend nd b d a
          = (.ret (nd 0 % 256), ⟨[("bal", b - a), ("dst", d), ("amt", a)], 1⟩))
    ∧ (g.bundle.length < d → ∀ r, r < 256 → ∃ nd,
        g.runSend nd b d a = (.ret r, ⟨[("bal", b - a), ("dst", d), ("amt", a)], 1⟩)) := by
  have hba : ¬ b < a := by omega
  have hfar : g.bundle.length < d → ∀ nd,
      g.runSend nd b d a
        = (.ret (nd 0 % 256), ⟨[("bal", b - a), ("dst", d), ("amt", a)], 1⟩) := by
    intro hd nd
    have hd' : ¬ d ≤ g.bundle.length := by omega
    rw [runSend_cases, sub_wrap b a hb hab]
    simp [hba, hd']
  refine ⟨?_, hfar, ?_⟩
  · intro c nd h1 h2 hc hp
    rw [runSend_cases]
    simp [hba, h2, payableAt_true_of g d c h1 hc hp]
  · intro hd r hr
    refine ⟨fun _ => r, ?_⟩
    rw [hfar hd, Nat.mod_eq_of_lt hr]

/-- Witness of the amended C5: one payable instance, `send(10, 1, 5)` stops at
the assertion and `send(10, 2, 5)` leaves balance 5. -/
theorem C5_send_payable_amended_witness :
    10 < VALUE_SIZE ∧ 5 ≤ 10
    ∧ runSend ⟨"sol_uint256_t", "sol_address_t", [⟨"A", true⟩], false, true, false⟩
        (fun _ => 1) 10 2 5 = (.ret 1, ⟨[("bal", 5), ("dst", 2), ("amt", 5)], 1⟩) :=
  ⟨by decide, by decide,
   (C5_send_payable_amended ⟨"sol_uint256_t", "sol_address_t", [⟨"A", true⟩], false, true, false⟩
      10 2 5 (by decide) (by decide)).2.1 (by decide) (fun _ => 1)⟩

/-- The state in which `Transfer` ends, given the state in which its `Send`
call ended. -/
theorem runTransfer_eq (g : EtherMethodGenerator) (nd : Nat → Nat) (b d a : Nat) :
    g.runTransfer nd b d a =
      (match (g.runSend nd b d a).1 with
        | .ret v => if v = 0 then .fault (.require "Transfer failed.") else .next
        | .next => .fault (.require "Transfer failed.")
        | .fault f => .fault f,
       ⟨[("bal", (g.runSend nd b d a).2.vars.get "bal"), ("dst", d), ("amt", a)],
        (g.runSend nd b d a).2.ndpos⟩) := by
  unfold runTransfer runSend
  generalize hr : runFun nd noCalls (g.generate_send false) [b, d, a] 0 = r
  have hname : (g.generate_send false).id.name = "Send" := rfl
  have hparams : (g.generate_send false).params = [g.BAL_VAR, g.DST_VAR, g.AMT_VAR] := rfl
  have h1 : runFun nd (asUserCall nd noCalls (g.generate_send false)) (g.generate_transfer false)
      [b, d, a] 0
      = execStmts nd (asUserCall nd noCalls (g.generate_send false))
          [.expr (.call "sol_require" [.call "Send" [g.BAL_VAR.id, g.DST_VAR.id, g.AMT_VAR.id],
            .strLit "Transfer failed."])] ⟨[("bal", b), ("dst", d), ("amt", a)], 0⟩ := rfl
  rw [h1]
  obtain ⟨flow, m⟩ := r
  cases flow with
  | next =>
    simp [execStmts, execStmt, evalExpr,
      evalArgs, evalCall, asUserCall, hname, hparams, Ether.SEND, CVarDecl.id, BAL_VAR, DST_VAR,
      AMT_VAR, bindParams, Store.get, Store.set, writeBack, strArg, List.lookup, hr]
  | ret v =>
    by_cases hv : v = 0
    · simp [execStmts, execStmt, evalExpr,
        evalArgs, evalCall, asUserCall, hname, hparams, Ether.SEND, CVarDecl.id, BAL_VAR, DST_VAR,
        AMT_VAR, bindParams, Store.get, Store.set, writeBack, strArg, List.lookup, hr, hv]
    · simp [execStmts, execStmt, evalExpr,
        evalArgs, evalCall, asUserCall, hname, hparams, Ether.SEND, CVarDecl.id, BAL_VAR, DST_VAR,
        AMT_VAR, bindParams, Store.get, Store.set, writeBack, strArg, List.lookup, hr, hv]
  | fault f =>
    simp [execStmts, execStmt, evalExpr,
      evalArgs, evalCall, asUserCall, hname, hparams, Ether.SEND, CVarDecl.id, BAL_VAR, DST_VAR,
      AMT_VAR, bindParams, Store.get, Store.set, writeBack, strArg, List.lookup, hr]

theorem runSend_flow (g : EtherMethodGenerator) (nd : Nat → Nat) (b d a : Nat) :
    (∃ v, (g.runSend nd b d a).1 = .ret v)
    ∨ (g.runSend nd b d a).1 = .fault (.assertion "Fallback not allowed in.") := by
  rw [runSend_cases]
  split
  · exact Or.inl ⟨0, rfl⟩
  · split
    · split
      · exact Or.inr rfl
      · exact Or.inl ⟨0, rfl⟩
    · exact Or.inl ⟨_, rfl⟩

/-- C6, as stated, fails: with instance 1 payable, the `Send` call made by
`Transfer(bal=10, dst=1, amt=5)` does not return 0 (it stops at its
assertion), and yet `Transfer` does not complete. -/
theorem C6_transfer_counterexample :
    (runSend ⟨"sol_uint256_t", "sol_address_t", [⟨"A", true⟩], false, false, true⟩
        (fun _ => 1) 10 1 5).1 = .fault (.assertion "Fallback not allowed in.")
    ∧ (runTransfer ⟨"sol_uint256_t", "sol_address_t", [⟨"A", true⟩], false, false, true⟩
        (fun _ => 1) 10 1 5).1 = .fault (.assertion "Fallback not allowed in.") := by
  decide

/-- C6, amended: the emitted `Transfer(bal, dst, amt)` is the single statement
`sol_require(Send(bal, dst, amt), "Transfer failed.")` over the parameters of
`Send`. For every input it faults with "Transfer failed." exactly when that
`Send` call returns 0; when `Send` returns a nonzero value it completes; when
`Send` itself stops at a fault, `Transfer` stops at that same fault. In every
case the balance is the one `Send` left. -/
theorem C6_transfer_amended (g : EtherMethodGenerator) (nd : Nat → Nat) (b d a : Nat) :
    (g.generate_transfer false).body
        = some [.expr (.call "sol_require"
            [.call "Send" [.ident "bal" true, .ident "dst" false, .ident "amt" false],
             .strLit "Transfer failed."])]
    ∧ (g.generate_transfer false).params = (g.generate_send false).params
    ∧ (g.generate_send false).id.name = "Send"
    ∧ ((g.runTransfer nd b d a).1 = .fault (.require "Transfer failed.")
        ↔ (g.runSend nd b d a).1 = .ret 0)
    ∧ (∀ v, v ≠ 0 → (g.runSend nd b d a).1 = .ret v → (g.runTransfer nd b d a).1 = .next)
    ∧ (∀ f, (g.runSend nd b d a).1 = .fault f → (g.runTransfer nd b d a).1 = .fault f)
    ∧ (g.runTransfer nd b d a).2.vars.get "bal" = (g.runSend nd b d a).2.vars.get "bal" := by
  refine ⟨rfl, rfl, rfl, ?_, ?_, ?_, ?_⟩
  · rw [runTransfer_eq]
    rcases runSend_flow g nd b d a with ⟨v, hv⟩ | hf
    · rw [hv]
      by_cases h0 : v = 0
      · simp [h0]
      · simp [h0]
    · rw [hf]; simp
  · intro v hv hs
    rw [runTransfer_eq, hs]
    simp [hv]
  · intro f hs
    rw [runTransfer_eq, hs]
  · rw [runTransfer_eq]
    simp [Store.get, List.lookup]

end EtherMethodGenerator

/-! ## Theorems: constants of literal addresses -/

theorem filter_inequality_map (decl : CExpr) (used : List CExpr) :
    (used.map (fun otr => CStmt.expr (.binop decl "!=" otr))).filter isInequality
      = used.map (fun otr => CStmt.expr (.binop decl "!=" otr)) := by
  apply List.filter_eq_self.mpr
  intro x hx
  obtain ⟨o, _, rfl⟩ := List.mem_map.mp hx
  simp [isInequality]

theorem map_constants_loop_inequalities (s : AddressSpace) (name : Nat → String)
    (lits used : List Nat) (block : List CStmt) :
    (s.map_constants_loop name lits (used.map (fun l => CExpr.ident (name l) false)) block).filter
        isInequality
      = block.filter isInequality
        ++ (pairsWithEarlier used (lits.filter (fun l => l ≠ 0))).map (inequalityOf name) := by
  induction lits generalizing used block with
  | nil => simp [AddressSpace.map_constants_loop, pairsWithEarlier]
  | cons lit rest ih =>
    by_cases h0 : lit = 0
    · subst h0
      simp only [AddressSpace.map_constants_loop, if_true]
      rw [ih]
      simp [isInequality]
    · have hused : used.map (fun l => CExpr.ident (name l) false) ++ [CExpr.ident (name lit) false]
          = (used ++ [lit]).map (fun l => CExpr.ident (name l) false) := by simp
      simp only [AddressSpace.map_constants_loop, h0, if_false]
      rw [hused, ih, List.filter_append, List.filter_append, filter_inequality_map]
      have hf : List.filter (fun l => decide (l ≠ 0)) (lit :: rest)
          = lit :: List.filter (fun l => decide (l ≠ 0)) rest := by
        simp [List.filter_cons, h0]
      rw [hf]
      simp [pairsWithEarlier, isInequality, inequalityOf, List.map_map, Function.comp_def]

theorem pairsWithEarlier_length (used l : List Nat) :
    (pairsWithEarlier used l).length = used.length * l.length + l.length.choose 2 := by
  induction l generalizing used with
  | nil => simp [pairsWithEarlier]
  | cons x xs ih =>
    have : (xs.length + 1).choose 2 = xs.length + xs.length.choose 2 := by
      rw [Nat.choose_succ_succ, Nat.choose_one_right]
    simp only [pairsWithEarlier, List.length_append, List.length_map, ih, List.length_cons,
      List.length_singleton, List.length_nil, this]
    ring

theorem pairsWithEarlier_fst (used l : List Nat) (p : Nat × Nat)
    (h : p ∈ pairsWithEarlier used l) : p.1 ∈ l := by
  induction l generalizing used with
  | nil => simp [pairsWithEarlier] at h
  | cons x xs ih =>
    simp only [pairsWithEarlier, List.mem_append, List.mem_map] at h
    rcases h with ⟨o, _, rfl⟩ | h
    · exact List.mem_cons_self _ _
    · exact List.mem_cons_of_mem _ (ih _ h)

theorem pairsWithEarlier_mem (used l : List Nat) (hs : (used ++ l).Sorted (· < ·)) (a b : Nat) :
    (b, a) ∈ pairsWithEarlier used l ↔ b ∈ l ∧ a ∈ used ++ l ∧ a < b := by
  induction l generalizing used with
  | nil => simp [pairsWithEarlier]
  | cons x xs ih =>
    have hs' : ((used ++ [x]) ++ xs).Sorted (· < ·) := by simpa using hs
    have hpw := List.pairwise_append.mp hs
    have hx : ∀ y ∈ xs, x < y := fun y hy => List.rel_of_pairwise_cons hpw.2.1 hy
    have hu : ∀ u ∈ used, u < x := fun u hu => hpw.2.2 u hu x (List.mem_cons_self _ _)
    simp only [pairsWithEarlier, List.mem_append, List.mem_map, Prod.mk.injEq, ih _ hs',
      List.mem_cons, List.mem_singleton, List.not_mem_nil, or_false]
    constructor
    · rintro (⟨o, ho, rfl, rfl⟩ | ⟨hb, ha, hlt⟩)
      · exact ⟨Or.inl rfl, Or.inl ho, hu _ ho⟩
      · refine ⟨Or.inr hb, ?_, hlt⟩
        rcases ha with (ha | ha) | ha
        · exact Or.inl ha
        · exact Or.inr (Or.inl ha)
        · exact Or.inr (Or.inr ha)
    · rintro ⟨hb | hb, ha, hlt⟩
      · subst hb
        rcases ha with ha | ha | ha
        · exact Or.inl ⟨a, ha, rfl, rfl⟩
        · omega
        · have := hx a ha; omega
      · refine Or.inr ⟨hb, ?_, hlt⟩
        rcases ha with ha | ha | ha
        · exact Or.inl (Or.inl ha)
        · exact Or.inl (Or.inr ha)
        · exact Or.inr ha

theorem pairsWithEarlier_nodup (used l : List Nat) (hs : (used ++ l).Sorted (· < ·)) :
    (pairsWithEarlier used l).Nodup := by
  induction l generalizing used with
  | nil => simp [pairsWithEarlier]
  | cons x xs ih =>
    have hs' : ((used ++ [x]) ++ xs).Sorted (· < ·) := by simpa using hs
    have hpw := List.pairwise_append.mp hs
    have hx : ∀ y ∈ xs, x < y := fun y hy => List.rel_of_pairwise_cons hpw.2.1 hy
    have hun : used.Nodup := (hpw.1.imp (fun h => Nat.ne_of_lt h))
    simp only [pairsWithEarlier]
    refine List.Nodup.append ?_ (ih _ hs') ?_
    · exact hun.map (fun a b h => by simpa using h)
    · intro p hp1 hp2
      obtain ⟨o, _, rfl⟩ := List.mem_map.mp hp1
      have := hx _ (pairsWithEarlier_fst _ _ _ hp2)
      simp at this

theorem map_constants_inequalities (s : AddressSpace) (name : Nat → String) :
    (s.map_constants name []).filter isInequality
      = (pairsWithEarlier [] (nonzeroLiterals s.M_ADDRDATA)).map (inequalityOf name) := by
  have h := map_constants_loop_inequalities s name s.M_ADDRDATA.literals []
  unfold AddressSpace.map_constants nonzeroLiterals
  simp only [List.map_nil] at h
  split
  · rw [h]; simp [LibVerify.log, isInequality]
  · rw [h]; simp

/-- C9: with `n` nonzero literals, `map_constants` emits exactly `n(n-1)/2`
inequality statements: one for each pair `a < b` of nonzero literals, relating
the constant of `b` to the constant of `a`, without repetition, and none built
from literal 0. For the literals `{0, 5, 12}` it is the single inequality
between the constants of 12 and 5. The literals are those of a `std::set`,
listed in ascending order. -/
theorem C9_pairwise_inequalities (s : AddressSpace) (name : Nat → String)
    (hs : s.M_ADDRDATA.literals.Sorted (· < ·)) :
    (s.map_constants name []).filter isInequality
        = (pairsWithEarlier [] (nonzeroLiterals s.M_ADDRDATA)).map (inequalityOf name)
    ∧ ((s.map_constants name []).filter isInequality).length
        = (nonzeroLiterals s.M_ADDRDATA).length
            * ((nonzeroLiterals s.M_ADDRDATA).length - 1) / 2
    ∧ (pairsWithEarlier [] (nonzeroLiterals s.M_ADDRDATA)).Nodup
    ∧ (∀ a b, (b, a) ∈ pairsWithEarlier [] (nonzeroLiterals s.M_ADDRDATA)
        ↔ a ∈ s.M_ADDRDATA.literals ∧ b ∈ s.M_ADDRDATA.literals ∧ a ≠ 0 ∧ a < b)
    ∧ ((∀ l ∈ s.M_ADDRDATA.literals, l ≠ 0 → name l ≠ name 0) →
        ∀ x y, CStmt.expr (.binop x "!=" y) ∈ (s.map_constants name []).filter isInequality →
          x ≠ .ident (name 0) false ∧ y ≠ .ident (name 0) false)
    ∧ (s.M_ADDRDATA.literals = [0, 5, 12] →
        (s.map_constants name []).filter isInequality = [inequalityOf name (12, 5)]) := by
  have hnz : (nonzeroLiterals s.M_ADDRDATA).Sorted (· < ·) := by
    unfold nonzeroLiterals
    exact List.Pairwise.filter _ hs
  have hnz' : ([] ++ nonzeroLiterals s.M_ADDRDATA).Sorted (· < ·) := by simpa using hnz
  have hmem : ∀ a b, (b, a) ∈ pairsWithEarlier [] (nonzeroLiterals s.M_ADDRDATA)
      ↔ a ∈ s.M_ADDRDATA.literals ∧ b ∈ s.M_ADDRDATA.literals ∧ a ≠ 0 ∧ a < b := by
    intro a b
    rw [pairsWithEarlier_mem [] _ hnz']
    simp only [nonzeroLiterals, List.nil_append, List.mem_filter, decide_eq_true_eq]
    constructor
    · rintro ⟨⟨hb, _⟩, ⟨ha, ha0⟩, hlt⟩
      exact ⟨ha, hb, ha0, hlt⟩
    · rintro ⟨ha, hb, ha0, hlt⟩
      exact ⟨⟨hb, by omega⟩, ⟨ha, ha0⟩, hlt⟩
  refine ⟨map_constants_inequalities s name, ?_, pairsWithEarlier_nodup [] _ hnz', hmem, ?_, ?_⟩
  · rw [map_constants_inequalities, List.length_map, pairsWithEarlier_length,
      Nat.choose_two_right]
    simp
  · intro hname x y hxy
    rw [map_constants_inequalities] at hxy
    obtain ⟨⟨b, a⟩, hp, heq⟩ := List.mem_map.mp hxy
    have := (hmem a b).mp hp
    simp only [inequalityOf, CStmt.expr.injEq, CExpr.binop.injEq, true_and] at heq
    obtain ⟨hx, hy⟩ := heq
    subst hx; subst hy
    have hb0 : b ≠ 0 := by omega
    constructor
    · intro h
      simp only [CExpr.ident.injEq, and_true] at h
      exact hname b this.2.1 hb0 h
    · intro h
      simp only [CExpr.ident.injEq, and_true] at h
      exact hname a this.1 this.2.2.1 h
  · intro hl
    rw [map_constants_inequalities]
    simp [nonzeroLiterals, hl, pairsWithEarlier]

/-- Witness of C9: the literals `{0, 5, 12}` give the single inequality between
the constants of 12 and 5. -/
theorem C9_pairwise_inequalities_witness :
    (AddressSpace.new ⟨[0, 5, 12], 4⟩).M_ADDRDATA.literals.Sorted (· < ·)
    ∧ ((AddressSpace.new ⟨[0, 5, 12], 4⟩).map_constants exampleConstName []).filter isInequality
        = [inequalityOf exampleConstName (12, 5)] :=
  ⟨by decide,
   (C9_pairwise_inequalities (AddressSpace.new ⟨[0, 5, 12], 4⟩) exampleConstName
      (by decide)).2.2.2.2.2 rfl⟩

/-- C10, the code at literals `{5, 12}` with bounds `[0, 3)`: the block of
`map_constants` holds the inequality between the two constants as a bare
expression statement, and the run in which the nondeterministic source returns
1 twice goes through it to the end of the block with both constants equal
to 1. -/
theorem C10_inequality_not_enforced :
    ((AddressSpace.new ⟨[5, 12], 3⟩).map_constants exampleConstName []).filter isInequality
        = [.expr (.binop (.ident "g_literal_address_12" false) "!="
            (.ident "g_literal_address_5" false))]
    ∧ execStmts (fun _ => 1) noCalls
        ((AddressSpace.new ⟨[5, 12], 3⟩).map_constants exampleConstName []) ⟨[], 0⟩
      = (.next, ⟨[("g_literal_address_5", 1), ("g_literal_address_12", 1)], 2⟩) :=
  ⟨rfl, by decide⟩

/-! ## Theorems: initializer chains -/

namespace FunctionConverter

theorem handle_contract_initializer_eq (cv : FunctionConverter) (c f : ContractDefinition)
    (st : ConverterState) :
    cv.handle_contract_initializer c f st =
      if cv.M_VIEW = View.INT then .ok (cv.m_stack.init_call_name c f, st)
      else if initializer_key c f ∈ st.m_visited then .ok (cv.m_stack.init_call_name c f, st)
      else
        match (cv.generate_params
            (cv.constructor_step c.constructor f
              { st with m_visited := initializer_key c f :: st.m_visited }).1
            (some f) none VarContext.STRUCT false).head? with
        | none => .error (.outOfRange "params[0]")
        | some p0 =>
          match parent_initializers cv c.constructor p0.id f c.baseContracts
              (cv.constructor_step c.constructor f
                { st with m_visited := initializer_key c f :: st.m_visited }).2.2 with
          | .error e => .error e
          | .ok (calls, st1) =>
            .ok (cv.m_stack.init_call_name c f,
              { st1 with m_ostream := st1.m_ostream ++
                [cv.initializer_def c f
                  (cv.generate_params
                    (cv.constructor_step c.constructor f
                      { st with m_visited := initializer_key c f :: st.m_visited }).1
                    (some f) none VarContext.STRUCT false)
                  p0.id
                  (cv.constructor_step c.constructor f
                    { st with m_visited := initializer_key c f :: st.m_visited }).2.1
                  calls] }) := by
  cases c
  rfl


theorem handle_contract_initializer_plain (cv : FunctionConverter) (c f : ContractDefinition)
    (st : ConverterState) (hview : cv.M_VIEW ≠ View.INT) (hlib : f.isLibrary = false)
    (hc : c.constructor = none) (hk : initializer_key c f ∉ st.m_visited) :
    cv.handle_contract_initializer c f st =
      match parent_initializers cv none (.ident "self" true) f c.baseContracts
          ⟨initializer_key c f :: st.m_visited, st.m_ostream⟩ with
      | .error e => .error e
      | .ok (calls, st1) =>
        .ok (cv.m_stack.init_call_name c f,
          ⟨st1.m_visited, st1.m_ostream ++ [cv.plain_def c f calls]⟩) := by
  rw [handle_contract_initializer_eq]
  simp only [hview, hk, if_false, hc, constructor_step]
  have hp : (cv.generate_params [] (some f) none VarContext.STRUCT false).head?
      = some ⟨cv.m_stack.get_type_contract f, "self", true⟩ := by
    simp [generate_params, hlib, generate_decl_params]
  rw [hp]
  rfl

theorem parent_initializers_single (cv : FunctionConverter) (p f : ContractDefinition)
    (st : ConverterState) (hp : p.isInterface = false) :
    parent_initializers cv none (.ident "self" true) f [.mk p none] st =
      match cv.handle_contract_initializer p f st with
      | .error e => .error e
      | .ok (n, st1) => .ok ([cv.plain_call n], st1) := by
  simp only [parent_initializers, hp, Bool.false_eq_true, if_false]
  cases cv.handle_contract_initializer p f st with
  | error e => rfl
  | ok r =>
    obtain ⟨n, st1⟩ := r
    simp [parent_initializer_call, plain_call]

theorem handle_contract_initializer_seen (cv : FunctionConverter) (c f : ContractDefinition)
    (st : ConverterState) (hk : initializer_key c f ∈ st.m_visited) :
    cv.handle_contract_initializer c f st = .ok (cv.m_stack.init_call_name c f, st) := by
  rw [handle_contract_initializer_eq]
  by_cases hv : cv.M_VIEW = View.INT
  · simp [hv]
  · simp [hv, hk]

theorem diamond_run (cv : FunctionConverter) (A B C D : ContractDefinition)
    (hview : cv.M_VIEW ≠ View.INT)
    (hA : A.baseContracts = []) (hB : B.baseContracts = [.mk A none])
    (hC : C.baseContracts = [.mk A none]) (hD : D.baseContracts = [.mk B none, .mk C none])
    (hctor : A.constructor = none ∧ B.constructor = none ∧ C.constructor = none
      ∧ D.constructor = none)
    (hitf : A.isInterface = false ∧ B.isInterface = false ∧ C.isInterface = false)
    (hlib : D.isLibrary = false) (hids : [A.id, B.id, C.id, D.id].Nodup) :
    cv.handle_contract_initializer D D ⟨[], []⟩ =
      .ok (cv.m_stack.init_call_name D D,
        ⟨[initializer_key C D, initializer_key A D, initializer_key B D, initializer_key D D],
         [cv.plain_def A D [],
          cv.plain_def B D [cv.plain_call (cv.m_stack.init_call_name A D)],
          cv.plain_def C D [cv.plain_call (cv.m_stack.init_call_name A D)],
          cv.plain_def D D [cv.plain_call (cv.m_stack.init_call_name B D),
            cv.plain_call (cv.m_stack.init_call_name C D)]]⟩) := by
  simp only [List.nodup_cons, List.mem_cons, List.mem_singleton, not_or, List.not_mem_nil,
    not_false_eq_true, List.nodup_nil, and_true] at hids
  obtain ⟨⟨hab, hac, had⟩, ⟨hbc, hbd⟩, hcd⟩ := hids
  obtain ⟨hcA, hcB, hcC, hcD⟩ := hctor
  obtain ⟨hiA, hiB, hiC⟩ := hitf
  have kA : ∀ st, initializer_key A D ∉ st.m_visited →
      cv.handle_contract_initializer A D st
        = .ok (cv.m_stack.init_call_name A D,
            ⟨initializer_key A D :: st.m_visited, st.m_ostream ++ [cv.plain_def A D []]⟩) := by
    intro st hk
    rw [handle_contract_initializer_plain cv A D st hview hlib hcA hk, hA]
    rfl
  rw [handle_contract_initializer_plain cv D D _ hview hlib hcD (by simp), hD]
  simp only [parent_initializers, hiB, hiC, Bool.false_eq_true, if_false]
  rw [handle_contract_initializer_plain cv B D _ hview hlib hcB
    (by simp [initializer_key, hbd]), hB, parent_initializers_single cv A D _ hiA,
    kA _ (by simp [initializer_key, hab, had])]
  simp only [parent_initializer_call]
  rw [handle_contract_initializer_plain cv C D _ hview hlib hcC
    (by simp [initializer_key, Ne.symm hbc, hcd, Ne.symm hac]), hC,
    parent_initializers_single cv A D _ hiA,
    handle_contract_initializer_seen cv A D _ (by simp)]
  simp [plain_call]

theorem calleesOf_append (xs ys : List CStmt) :
    calleesOf (xs ++ ys) = calleesOf xs ++ calleesOf ys := by
  simp [calleesOf, List.filterMap_append]

theorem calleesOf_state_variables (cv : FunctionConverter) (self_ptr : CExpr)
    (vars : List VariableDeclaration) :
    calleesOf (vars.filterMap (cv.state_variable_init self_ptr)) = [] := by
  induction vars with
  | nil => rfl
  | cons v vs ih =>
    unfold calleesOf at ih ⊢
    rw [List.filterMap_cons]
    cases h : cv.state_variable_init self_ptr v with
    | none => simpa using ih
    | some stmt =>
      have hs : ∃ l r, stmt = .expr (.assign l r) := by
        unfold state_variable_init at h
        split at h
        · cases h
        · simp only [Option.some.injEq] at h
          exact ⟨_, _, h.symm⟩
      obtain ⟨l, r, rfl⟩ := hs
      simpa using ih

theorem calleesOf_plain_calls (cv : FunctionConverter) (names : List String) :
    calleesOf ((names.map cv.plain_call).map (fun initializer => CStmt.expr initializer))
      = names := by
  induction names with
  | nil => rfl
  | cons n ns ih =>
    unfold calleesOf at ih ⊢
    simp only [List.map_cons, List.filterMap_cons, plain_call]
    rw [ih]

theorem calleesOf_plain_def (cv : FunctionConverter) (c f : ContractDefinition)
    (names : List String) (hfwd : cv.M_FWD_DCL = false) (hc : c.constructor = none) :
    calleesOf ((cv.plain_def c f (names.map cv.plain_call)).body.getD []) = names := by
  simp only [plain_def, initializer_def, hfwd, Bool.not_false, if_true, Option.getD_some,
    initializer_body, hc, List.nil_append]
  rw [calleesOf_append, calleesOf_append, calleesOf_state_variables, calleesOf_plain_calls]
  split <;> simp [calleesOf]

/-- C7, as stated, fails: for `D is B, C`, `B is A`, `C is A`, the initializers
emitted for `(D, D)` are those of `A`, `B`, `C` and `D`, and two call chains
lead from the initializer of `D` to the initializer of `A`. -/
theorem C7_diamond_counterexample :
    (writtenBy ((exampleConverter .FULL).handle_contract_initializer exampleDiamond
        exampleDiamond ⟨[], []⟩)).map (fun d => d.id.name)
      = ["Init_A_for_D", "Init_B_for_D", "Init_C_for_D", "Init_D"]
    ∧ callChains (writtenBy ((exampleConverter .FULL).handle_contract_initializer
        exampleDiamond exampleDiamond ⟨[], []⟩)) 5 "Init_D" "Init_A_for_D" = 2 := by
  decide

/-- C7, amended: for contracts without constructors, `D` inheriting `B` and
`C`, both inheriting `A`, the call for `(D, D)` writes four initializers, in
the order `A`, `B`, `C`, `D`. The initializer of `A` for context `D` is defined
exactly once, but the initializers of `B` and of `C` each call it, so two call
chains lead from the initializer of `D` to it, not one, however long the
chains followed (three functions are enough to see both). -/
theorem C7_diamond_amended (cv : FunctionConverter) (A B C D : ContractDefinition)
    (hview : cv.M_VIEW ≠ View.INT) (hfwd : cv.M_FWD_DCL = false)
    (hA : A.baseContracts = []) (hB : B.baseContracts = [.mk A none])
    (hC : C.baseContracts = [.mk A none]) (hD : D.baseContracts = [.mk B none, .mk C none])
    (hctor : A.constructor = none ∧ B.constructor = none ∧ C.constructor = none
      ∧ D.constructor = none)
    (hitf : A.isInterface = false ∧ B.isInterface = false ∧ C.isInterface = false)
    (hlib : D.isLibrary = false) (hids : [A.id, B.id, C.id, D.id].Nodup)
    (hnames : [cv.m_stack.init_call_name A D, cv.m_stack.init_call_name B D,
      cv.m_stack.init_call_name C D, cv.m_stack.init_call_name D D].Nodup) :
    ∃ st dA dB dC dD,
      cv.handle_contract_initializer D D ⟨[], []⟩ = .ok (cv.m_stack.init_call_name D D, st)
      ∧ st.m_ostream = [dA, dB, dC, dD]
      ∧ [dA, dB, dC, dD].map (fun d => d.id.name)
          = [cv.m_stack.init_call_name A D, cv.m_stack.init_call_name B D,
             cv.m_stack.init_call_name C D, cv.m_stack.init_call_name D D]
      ∧ calleesOf (dA.body.getD []) = []
      ∧ calleesOf (dB.body.getD []) = [cv.m_stack.init_call_name A D]
      ∧ calleesOf (dC.body.getD []) = [cv.m_stack.init_call_name A D]
      ∧ calleesOf (dD.body.getD [])
          = [cv.m_stack.init_call_name B D, cv.m_stack.init_call_name C D]
      ∧ (st.m_ostream.filter (fun d => d.id.name = cv.m_stack.init_call_name A D)).length = 1
      ∧ ∀ k, callChains st.m_ostream (k + 3) (cv.m_stack.init_call_name D D)
          (cv.m_stack.init_call_name A D) = 2 := by
  have hrun := diamond_run cv A B C D hview hA hB hC hD hctor hitf hlib hids
  have cA := calleesOf_plain_def cv A D [] hfwd hctor.1
  have cB := calleesOf_plain_def cv B D [cv.m_stack.init_call_name A D] hfwd hctor.2.1
  have cC := calleesOf_plain_def cv C D [cv.m_stack.init_call_name A D] hfwd hctor.2.2.1
  have cD := calleesOf_plain_def cv D D
    [cv.m_stack.init_call_name B D, cv.m_stack.init_call_name C D] hfwd hctor.2.2.2
  simp only [List.map_cons, List.map_nil] at cA cB cC cD
  simp only [List.nodup_cons, List.mem_cons, List.mem_singleton, not_or, List.not_mem_nil,
    not_false_eq_true, List.nodup_nil, and_true] at hnames
  obtain ⟨⟨nab, nac, nad⟩, ⟨nbc, nbd⟩, ncd⟩ := hnames
  have hn : ∀ c calls, (cv.plain_def c D calls).id.name = cv.m_stack.init_call_name c D :=
    fun _ _ => rfl
  refine ⟨_, _, _, _, _, hrun, rfl, rfl, cA, cB, cC, cD, ?_, ?_⟩
  · simp [List.filter, hn, Ne.symm nab, Ne.symm nac, Ne.symm nad]
  · have e1 : (cv.m_stack.init_call_name A D == cv.m_stack.init_call_name D D) = false := by
      simpa using nad
    have e2 : (cv.m_stack.init_call_name B D == cv.m_stack.init_call_name D D) = false := by
      simpa using nbd
    have e3 : (cv.m_stack.init_call_name C D == cv.m_stack.init_call_name D D) = false := by
      simpa using ncd
    have e4 : (cv.m_stack.init_call_name A D == cv.m_stack.init_call_name B D) = false := by
      simpa using nab
    have e5 : (cv.m_stack.init_call_name A D == cv.m_stack.init_call_name C D) = false := by
      simpa using nac
    have e6 : (cv.m_stack.init_call_name B D == cv.m_stack.init_call_name C D) = false := by
      simpa using nbc
    intro k
    simp [callChains, List.find?, hn, cB, cC, cD, e1, e2, e3, e4, e5, e6, Ne.symm nab,
      Ne.symm nac, Ne.symm nad]

/-- Witness of the amended C7: the diamond `D is B, C`, `B is A`, `C is A` under
the example converter. -/
theorem C7_diamond_amended_witness :
    (exampleConverter .FULL).M_VIEW ≠ View.INT
    ∧ [exampleTop.id, exampleLeft.id, exampleRight.id, exampleDiamond.id].Nodup
    ∧ ∃ st dA dB dC dD,
      (exampleConverter .FULL).handle_contract_initializer exampleDiamond exampleDiamond ⟨[], []⟩
          = .ok ("Init_D", st)
      ∧ st.m_ostream = [dA, dB, dC, dD]
      ∧ [dA, dB, dC, dD].map (fun d => d.id.name)
          = ["Init_A_for_D", "Init_B_for_D", "Init_C_for_D", "Init_D"]
      ∧ calleesOf (dA.body.getD []) = []
      ∧ calleesOf (dB.body.getD []) = ["Init_A_for_D"]
      ∧ calleesOf (dC.body.getD []) = ["Init_A_for_D"]
      ∧ calleesOf (dD.body.getD []) = ["Init_B_for_D", "Init_C_for_D"]
      ∧ (st.m_ostream.filter (fun d => d.id.name = "Init_A_for_D")).length = 1
      ∧ ∀ k, callChains st.m_ostream (k + 3) "Init_D" "Init_A_for_D" = 2 :=
  ⟨by decide, by decide,
   C7_diamond_amended (exampleConverter .FULL) exampleTop exampleLeft exampleRight
     exampleDiamond (by decide) rfl rfl rfl rfl rfl ⟨rfl, rfl, rfl, rfl⟩ ⟨rfl, rfl, rfl⟩ rfl
     (by decide) (by decide)⟩

end FunctionConverter

/-! ## Theorems: emission through the visited set -/

namespace FunctionConverter

theorem Grows_refl (ctx : Nat) (st : ConverterState) : Grows ctx st st :=
  ⟨fun _ h => h, ⟨[], by simp⟩, fun _ h => Or.inl h⟩

theorem Grows_trans {ctx : Nat} {a b c : ConverterState} (h1 : Grows ctx a b)
    (h2 : Grows ctx b c) : Grows ctx a c := by
  obtain ⟨v1, ⟨n1, o1⟩, w1⟩ := h1
  obtain ⟨v2, ⟨n2, o2⟩, w2⟩ := h2
  refine ⟨fun k hk => v2 k (v1 k hk), ⟨n1 ++ n2, by rw [o2, o1, List.append_assoc]⟩, ?_⟩
  intro k hk
  rcases w2 k hk with h | h
  · exact w1 k h
  · exact Or.inr h

theorem handle_function_seen (cv : FunctionConverter) (_spec : FunctionSpecialization)
    (t : String) (p : Bool) (st : ConverterState) (h : function_key _spec ∈ st.m_visited) :
    cv.handle_function _spec t p st = (cv.m_stack.spec_name _spec 0, st) := by
  simp [handle_function, h]

theorem handle_function_fresh (cv : FunctionConverter) (_spec : FunctionSpecialization)
    (t : String) (p : Bool) (st : ConverterState) (h : function_key _spec ∉ st.m_visited) :
    cv.handle_function _spec t p st
      = (cv.m_stack.spec_name _spec 0,
          ⟨function_key _spec :: st.m_visited,
           st.m_ostream ++ cv.base_def _spec t p :: cv.modifier_defs _spec t p⟩) := by
  simp only [handle_function, h, if_false, List.singleton_append]

theorem handle_function_grows (cv : FunctionConverter) (_spec : FunctionSpecialization)
    (t : String) (p : Bool) (st : ConverterState) :
    Grows _spec.use_by.id st (cv.handle_function _spec t p st).2 := by
  by_cases h : function_key _spec ∈ st.m_visited
  · rw [handle_function_seen cv _spec t p st h]
    exact Grows_refl _ _
  · rw [handle_function_fresh cv _spec t p st h]
    refine ⟨fun k hk => List.mem_cons_of_mem _ hk, ⟨_, rfl⟩, ?_⟩
    intro k hk
    rcases List.mem_cons.mp hk with hk | hk
    · right; rw [hk]; rfl
    · exact Or.inl hk

theorem constructor_step_grows (cv : FunctionConverter) (L : Option FunctionDefinition)
    (f : ContractDefinition) (st : ConverterState) :
    Grows f.id st (cv.constructor_step L f st).2.2 := by
  cases L with
  | none => exact Grows_refl _ _
  | some c => exact handle_function_grows cv ⟨c, f⟩ "void" false st

mutual
theorem handle_contract_initializer_grows (cv : FunctionConverter) :
    ∀ (c f : ContractDefinition) (st : ConverterState) (n : String) (st1 : ConverterState),
      cv.handle_contract_initializer c f st = .ok (n, st1) → Grows f.id st st1
  | .mk id name isInterface isLibrary LOCAL_CTOR baseContracts stateVariables, f, st, n, st1,
    h => by
    rw [handle_contract_initializer_eq] at h
    by_cases hv : cv.M_VIEW = View.INT
    · simp only [hv, if_true, Except.ok.injEq, Prod.mk.injEq] at h
      rw [← h.2]; exact Grows_refl _ _
    · simp only [hv, if_false] at h
      split at h
      · simp only [Except.ok.injEq, Prod.mk.injEq] at h
        rw [← h.2]; exact Grows_refl _ _
      · split at h
        · cases h
        · rename_i p0 _
          split at h
          · cases h
          · rename_i calls st2 hpar
            simp only [Except.ok.injEq, Prod.mk.injEq] at h
            have hg := parent_initializers_grows cv _ _ baseContracts f _ calls st2 hpar
            have hc := constructor_step_grows cv LOCAL_CTOR f
              ⟨initializer_key (ContractDefinition.mk id name isInterface isLibrary LOCAL_CTOR
                baseContracts stateVariables) f :: st.m_visited, st.m_ostream⟩
            have h0 : Grows f.id st
                ⟨initializer_key (ContractDefinition.mk id name isInterface isLibrary LOCAL_CTOR
                  baseContracts stateVariables) f :: st.m_visited, st.m_ostream⟩ :=
              ⟨fun k hk => List.mem_cons_of_mem _ hk, ⟨[], by simp⟩, fun k hk => by
                rcases List.mem_cons.mp hk with hk | hk
                · right; rw [hk]; rfl
                · exact Or.inl hk⟩
            have hlast : Grows f.id st2 st1 := by
              rw [← h.2]
              exact ⟨fun _ hk => hk, ⟨_, rfl⟩, fun _ hk => Or.inl hk⟩
            exact Grows_trans (Grows_trans (Grows_trans h0 hc) hg) hlast
theorem parent_initializers_grows (cv : FunctionConverter) (L : Option FunctionDefinition)
    (self_ptr : CExpr) :
    ∀ (bs : List InheritanceSpecifier) (f : ContractDefinition) (st : ConverterState)
      (calls : List CExpr) (st1 : ConverterState),
      parent_initializers cv L self_ptr f bs st = .ok (calls, st1) → Grows f.id st st1
  | [], f, st, calls, st1, h => by
    simp only [parent_initializers, Except.ok.injEq, Prod.mk.injEq] at h
    rw [← h.2]; exact Grows_refl _ _
  | .mk parent arguments :: rest, f, st, calls, st1, h => by
    simp only [parent_initializers] at h
    split at h
    · exact parent_initializers_grows cv L self_ptr rest f st calls st1 h
    · split at h
      · cases h
      · rename_i parent_call st2 hp
        split at h
        · cases h
        · split at h
          · cases h
          · rename_i calls2 st3 hr
            simp only [Except.ok.injEq, Prod.mk.injEq] at h
            have h1 := handle_contract_initializer_grows cv parent f st parent_call st2 hp
            have h2 := parent_initializers_grows cv L self_ptr rest f st2 calls2 st3 hr
            rw [← h.2]
            exact Grows_trans h1 h2
end

theorem handle_contract_initializer_name (cv : FunctionConverter) (c f : ContractDefinition)
    (st : ConverterState) (n : String) (st1 : ConverterState)
    (h : cv.handle_contract_initializer c f st = .ok (n, st1)) :
    n = cv.m_stack.init_call_name c f := by
  rw [handle_contract_initializer_eq] at h
  split at h
  · simp only [Except.ok.injEq, Prod.mk.injEq] at h; exact h.1.symm
  · split at h
    · simp only [Except.ok.injEq, Prod.mk.injEq] at h; exact h.1.symm
    · split at h
      · cases h
      · split at h
        · cases h
        · simp only [Except.ok.injEq, Prod.mk.injEq] at h; exact h.1.symm

end FunctionConverter

/-! ## Theorems: assignments of literal constants and the fresh address space -/

theorem filter_assignment_inequalities (decl : CExpr) (used : List CExpr) :
    (used.map (fun otr => CStmt.expr (.binop decl "!=" otr))).filter isAssignment = [] := by
  apply List.filter_eq_nil_iff.mpr
  intro x hx
  obtain ⟨o, _, rfl⟩ := List.mem_map.mp hx
  simp [isAssignment]

theorem map_constants_loop_assignments (s : AddressSpace) (name : Nat → String)
    (lits : List Nat) (used : List CExpr) (block : List CStmt) :
    (s.map_constants_loop name lits used block).filter isAssignment
      = block.filter isAssignment ++ lits.map (constantAssignment s name) := by
  induction lits generalizing used block with
  | nil => simp [AddressSpace.map_constants_loop]
  | cons lit rest ih =>
    by_cases h0 : lit = 0
    · subst h0
      simp only [AddressSpace.map_constants_loop, if_true]
      rw [ih]
      simp [isAssignment, constantAssignment, Literals.ZERO]
    · simp only [AddressSpace.map_constants_loop, h0, if_false]
      rw [ih, List.filter_append, List.filter_append, filter_assignment_inequalities]
      simp [isAssignment, constantAssignment, LibVerify.range, h0]

theorem range_value (nd : Nat → Nat) (user : UserCall) (lo hi : Nat) (msg : String)
    (m : Machine) :
    (evalExpr nd user (LibVerify.range lo hi msg) m).1
      = (if lo ≤ nd m.ndpos ∧ nd m.ndpos < hi then .ok (nd m.ndpos) else .error .assume) := by
  simp only [LibVerify.range, evalExpr, evalArgs, evalCall]
  simp
  split <;> rfl

/-- C11: the assignments in the block of `map_constants` are, in the iteration
order of the literals, exactly one per literal, each to the global constant of
its literal: the constant 0 for the literal 0, whatever the bounds are, and
for every other literal a value of `LibVerify::range(MIN_ADDR, MAX_ADDR, NAME)`,
which evaluates to a nondeterministic value `v` with `MIN_ADDR ≤ v < MAX_ADDR`
and cuts the run off for any other choice. -/
theorem C11_constant_assignments (s : AddressSpace) (name : Nat → String) :
    (s.map_constants name []).filter isAssignment
        = s.M_ADDRDATA.literals.map (constantAssignment s name)
    ∧ ((s.map_constants name []).filter isAssignment).length = s.M_ADDRDATA.literals.length
    ∧ constantAssignment s name 0 = .expr (.assign (.ident (name 0) false) Literals.ZERO)
    ∧ (∀ nd user m, evalExpr nd user Literals.ZERO m = (.ok 0, m))
    ∧ (∀ lit, lit ≠ 0 → constantAssignment s name lit
        = .expr (.assign (.ident (name lit) false)
            (LibVerify.range s.MIN_ADDR s.MAX_ADDR (name lit))))
    ∧ (∀ nd user msg m v,
        (evalExpr nd user (LibVerify.range s.MIN_ADDR s.MAX_ADDR msg) m).1 = .ok v →
          s.MIN_ADDR ≤ v ∧ v < s.MAX_ADDR)
    ∧ (∀ nd user msg m, s.MIN_ADDR ≤ nd m.ndpos → nd m.ndpos < s.MAX_ADDR →
        (evalExpr nd user (LibVerify.range s.MIN_ADDR s.MAX_ADDR msg) m).1
          = .ok (nd m.ndpos)) := by
  have hfil : (s.map_constants name []).filter isAssignment
      = s.M_ADDRDATA.literals.map (constantAssignment s name) := by
    unfold AddressSpace.map_constants
    split
    · rw [map_constants_loop_assignments]; simp [LibVerify.log, isAssignment]
    · rw [map_constants_loop_assignments]; simp
  refine ⟨hfil, by rw [hfil, List.length_map], ?_, ?_, ?_, ?_, ?_⟩
  · simp [constantAssignment, Literals.ZERO]
  · intro nd user m; rfl
  · intro lit h; simp [constantAssignment, h, LibVerify.range]
  · intro nd user msg m v h
    rw [range_value] at h
    split at h
    · simp only [Except.ok.injEq] at h
      subst h; assumption
    · cases h
  · intro nd user msg m h1 h2
    rw [range_value]
    simp [h1, h2]

/-- C12: a freshly constructed address space has `MIN_ADDR = 1` if the literal
0 occurs among the literals and `MIN_ADDR = 0` otherwise, `MAX_ADDR` equal to
the representative count (a `uint64_t` value), and its cursor at `MIN_ADDR`. -/
theorem C12_fresh_space (d : MapIndexSummary) (h : d.representative_count < UINT64_SIZE) :
    (0 ∈ d.literals → (AddressSpace.new d).MIN_ADDR = 1)
    ∧ (0 ∉ d.literals → (AddressSpace.new d).MIN_ADDR = 0)
    ∧ (AddressSpace.new d).MAX_ADDR = d.representative_count
    ∧ (AddressSpace.new d).m_next_addr = (AddressSpace.new d).MIN_ADDR
    ∧ (AddressSpace.new d).M_ADDRDATA = d := by
  refine ⟨?_, ?_, Nat.mod_eq_of_lt h, rfl, rfl⟩
  · intro h0
    simp [AddressSpace.new, h0]
  · intro h0
    simp [AddressSpace.new, h0]

/-- Witness of C12: the literals `{0, 5, 12}` with four representatives. -/
theorem C12_fresh_space_witness :
    (4 : Nat) < UINT64_SIZE
    ∧ (AddressSpace.new ⟨[0, 5, 12], 4⟩).MIN_ADDR = 1
    ∧ (AddressSpace.new ⟨[0, 5, 12], 4⟩).MAX_ADDR = 4 :=
  ⟨by decide, (C12_fresh_space ⟨[0, 5, 12], 4⟩ (by decide)).1 (by decide),
   (C12_fresh_space ⟨[0, 5, 12], 4⟩ (by decide)).2.2.1⟩

/-! ## Theorems: type simplifier -/

theorem stripTypeType_ne (t a : SolType) : stripTypeType t ≠ .typeType a := by
  induction t with
  | typeType b ih => simpa [stripTypeType] using ih
  | _ => simp [stripTypeType]

theorem unwrap_enum (n : Nat) :
    unwrap (.enum n)
      = if n > 255 then .error (.runtimeError "Enum has unsupported number of values.")
        else .ok (.integer ⟨8, false⟩) := by
  simp [unwrap, stripTypeType, resolveRational, G_ENUM_TYPE, IntegerType.maxValue]

/-- C13, the code at its boundary: `unwrap` maps an accepted enumeration to the
8-bit unsigned integer type and throws exactly when the enumeration has more
than 255 members, so an enumeration of exactly 256 members, whose values
0..255 an 8-bit unsigned value can index, is rejected. -/
theorem C13_enum_256_rejected :
    G_ENUM_TYPE.maxValue = 255
    ∧ unwrap (.enum 256) = .error (.runtimeError "Enum has unsupported number of values.")
    ∧ unwrap (.enum 255) = .ok (.integer ⟨8, false⟩)
    ∧ (∀ n, unwrap (.enum n)
        = if n > 255 then .error (.runtimeError "Enum has unsupported number of values.")
          else .ok (.integer ⟨8, false⟩)) :=
  ⟨by decide, rfl, rfl, unwrap_enum⟩

/-- C14, as stated, fails: an enumeration of three members is a simple type. -/
theorem C14_enum_counterexample :
    unwrap (.enum 3) = .ok (.integer ⟨8, false⟩) ∧ is_simple_type (.enum 3) = .ok true :=
  ⟨rfl, rfl⟩

/-- C14, amended: for every type on which `unwrap` succeeds, `is_simple_type`
returns true exactly when the type, with its `TypeType` wrappers removed, is an
address, boolean, integer, fixed-point, rational, fixed-size byte sequence,
string or enumeration type, and false for every other type (contracts,
structs, mappings, arrays other than strings, functions, tuples, string
literals and the remaining categories). -/
theorem C14_simple_types_amended (t u : SolType) (h : unwrap t = .ok u) :
    is_simple_type t = .ok (scalarKind (stripTypeType t))
    ∧ (scalarKind (stripTypeType t) = true ↔
        stripTypeType t = .address ∨ stripTypeType t = .bool
        ∨ (∃ i, stripTypeType t = .integer i) ∨ (∃ f, stripTypeType t = .fixedPoint f)
        ∨ (∃ b i f, stripTypeType t = .rational b i f)
        ∨ (∃ n, stripTypeType t = .fixedBytes n) ∨ stripTypeType t = .array true
        ∨ (∃ n, stripTypeType t = .enum n))
    ∧ is_simple_type .contract = .ok false ∧ is_simple_type .struct = .ok false
    ∧ is_simple_type .mapping = .ok false ∧ is_simple_type (.array false) = .ok false
    ∧ is_simple_type .function = .ok false ∧ is_simple_type .tuple = .ok false := by
  refine ⟨?_, ?_, rfl, rfl, rfl, rfl, rfl, rfl⟩
  · have hne := stripTypeType_ne t
    unfold is_simple_type
    rw [h]
    unfold unwrap at h
    generalize stripTypeType t = s at h hne ⊢
    cases s with
    | typeType a => exact absurd rfl (hne a)
    | rational b i f =>
      cases b <;> cases i <;> cases f <;>
        simp [resolveRational] at h <;> subst h <;> simp [scalarKind, SolType.category]
    | enum n =>
      simp only [resolveRational] at h
      split at h
      · cases h
      · simp only [Except.ok.injEq] at h
        subst h; simp [scalarKind, SolType.category]
    | array b =>
      simp only [resolveRational, Except.ok.injEq] at h
      subst h; cases b <;> simp [scalarKind]
    | _ =>
      simp only [resolveRational, Except.ok.injEq] at h
      subst h; simp [scalarKind, SolType.category]
  · generalize stripTypeType t = s
    cases s with
    | array b => cases b <;> simp [scalarKind]
    | _ => simp [scalarKind]

/-- Witness of the amended C14: an enumeration of three members. -/
theorem C14_simple_types_amended_witness :
    unwrap (.enum 3) = .ok (.integer ⟨8, false⟩)
    ∧ is_simple_type (.enum 3) = .ok (scalarKind (stripTypeType (.enum 3))) :=
  ⟨rfl, (C14_simple_types_amended (.enum 3) (.integer ⟨8, false⟩) rfl).1⟩

/-- C15, as stated, fails: for an enumeration of 300 members `simple_bit_count`
returns no width; the call throws. -/
theorem C15_enum_counterexample :
    simple_bit_count (.enum 300)
      = .error (.runtimeError "Enum has unsupported number of values.") :=
  rfl

/-- C15, amended: for every type on which `unwrap` succeeds, `simple_bit_count`
equals the reference width of the type with its `TypeType` wrappers removed:
8 times the byte count for a fixed-size byte sequence, 256 for a string, the
declared bit count for an integer or fixed-point type and for the concrete
type a rational resolves to, 8 for an enumeration, 160 for an address, 8 for a
boolean, 64 for every other category. When `unwrap` does not succeed, neither
does `simple_bit_count`. -/
theorem C15_bit_count_amended (t : SolType) :
    (∀ u, unwrap t = .ok u → simple_bit_count t = .ok (referenceBitCount (stripTypeType t)))
    ∧ (∀ e, unwrap t = .error e → simple_bit_count t = .error e) := by
  constructor
  · intro u h
    have hne := stripTypeType_ne t
    unfold simple_bit_count
    rw [h]
    unfold unwrap at h
    generalize stripTypeType t = s at h hne ⊢
    cases s with
    | typeType a => exact absurd rfl (hne a)
    | rational b i f =>
      cases b <;> cases i <;> cases f <;>
        simp [resolveRational] at h <;> subst h <;>
        simp [referenceBitCount, SolType.category]
    | enum n =>
      simp only [resolveRational] at h
      split at h
      · cases h
      · simp only [Except.ok.injEq] at h
        subst h; simp [referenceBitCount, SolType.category, G_ENUM_TYPE]
    | array b =>
      simp only [resolveRational, Except.ok.injEq] at h
      subst h; cases b <;> simp [referenceBitCount, SolType.category]
    | fixedBytes n =>
      simp only [resolveRational, Except.ok.injEq] at h
      subst h; simp [referenceBitCount, Nat.mul_comm]
    | _ =>
      simp only [resolveRational, Except.ok.injEq] at h
      subst h; simp [referenceBitCount, SolType.category]
  · intro e h
    unfold simple_bit_count
    rw [h]

/-! ## Theorems: return statements, currency printing and modifier chains -/

/-- C16: a return statement with a return expression `e` is lowered to exactly
one statement, fixed by the block kind: Action gives a return without value;
Operation a return of `e` wrapped to the type of the return value; AddressRef a
return of a reference to that wrapped expression; Initializer an expression
statement holding the lowered `e`, without return and without wrapping. -/
theorem C16_return_lowering (cv : FunctionBlockConverter) (e : Expression) :
    (cv.block_type = .Action → cv.visit_return (some e) = .ok (.ret none))
    ∧ (cv.block_type = .Operation → ∀ rv, cv.m_rv = some rv →
        cv.visit_return (some e) = .ok (.ret (some (cv.wrap rv.type (cv.expand e)))))
    ∧ (cv.block_type = .AddressRef → ∀ rv, cv.m_rv = some rv →
        cv.visit_return (some e)
          = .ok (.ret (some (.ref (cv.wrap rv.type (cv.expand e))))))
    ∧ (cv.block_type = .Initializer → cv.visit_return (some e) = .ok (.expr (cv.expand e))) := by
  refine ⟨?_, ?_, ?_, ?_⟩
  · intro h; simp [FunctionBlockConverter.visit_return, h]
  · intro h rv hrv; simp [FunctionBlockConverter.visit_return, h, hrv]
  · intro h rv hrv; simp [FunctionBlockConverter.visit_return, h, hrv]
  · intro h; simp [FunctionBlockConverter.visit_return, h]

namespace EtherMethodGenerator

/-- C19: for every combination of the usage flags, `print` writes `Pay` iff pay
is used, `Send` iff send or transfer is used, and `Transfer` iff transfer is
used, in the order `Pay`, `Send`, `Transfer`; whenever `Transfer` is written,
`Send` is written just before it. -/
theorem C19_print_selection (g : EtherMethodGenerator) (fwd : Bool) :
    g.print fwd
        = (if g.uses_pay then [g.generate_pay fwd] else [])
          ++ (if g.uses_transfer || g.uses_send then [g.generate_send fwd] else [])
          ++ (if g.uses_transfer then [g.generate_transfer fwd] else [])
    ∧ (g.generate_pay fwd).id.name = "Pay" ∧ (g.generate_send fwd).id.name = "Send"
    ∧ (g.generate_transfer fwd).id.name = "Transfer"
    ∧ ("Pay" ∈ (g.print fwd).map (fun d => d.id.name) ↔ g.uses_pay = true)
    ∧ ("Send" ∈ (g.print fwd).map (fun d => d.id.name)
        ↔ g.uses_send = true ∨ g.uses_transfer = true)
    ∧ ("Transfer" ∈ (g.print fwd).map (fun d => d.id.name) ↔ g.uses_transfer = true)
    ∧ ((g.print fwd).map (fun d => d.id.name)).Sublist ["Pay", "Send", "Transfer"]
    ∧ (g.uses_transfer = true → ∃ pre,
        (g.print fwd).map (fun d => d.id.name) = pre ++ ["Send", "Transfer"]) := by
  have hp : (g.generate_pay fwd).id.name = "Pay" := rfl
  have hs : (g.generate_send fwd).id.name = "Send" := rfl
  have ht : (g.generate_transfer fwd).id.name = "Transfer" := rfl
  obtain ⟨vt, st, bundle, pay, send, tr⟩ := g
  cases pay <;> cases send <;> cases tr <;>
    refine ⟨by simp [print], hp, hs, ht, ?_, ?_, ?_, ?_, ?_⟩ <;>
    simp [print, hp, hs, ht] <;>
    first | decide | exact ⟨[], rfl⟩ | exact ⟨["Pay"], rfl⟩

end EtherMethodGenerator

namespace FunctionConverter

end FunctionConverter

/-! ## Theorems: contract initializer bodies -/

namespace FunctionConverter

theorem handle_function_fst (cv : FunctionConverter) (_spec : FunctionSpecialization)
    (t : String) (p : Bool) (st : ConverterState) :
    (cv.handle_function _spec t p st).1 = cv.m_stack.spec_name _spec 0 := by
  unfold handle_function; split <;> rfl

theorem parent_initializer_call_shape (cv : FunctionConverter) (L : Option FunctionDefinition)
    (self_ptr : CExpr) (parent : ContractDefinition) (arguments : Option (List Expression))
    (parent_call : String) (call : CExpr)
    (h : cv.parent_initializer_call L self_ptr parent arguments parent_call = .ok call) :
    ∃ rest, call = .call parent_call (self_ptr :: cv.m_stack.next_state_args ++ rest) := by
  unfold parent_initializer_call at h
  simp only at h
  split at h
  · cases h
  · rename_i margs _
    split at h
    · cases h
    · rename_i sargs _
      simp only [Except.ok.injEq] at h
      exact ⟨margs ++ sargs, by rw [← h]; simp⟩

theorem parent_initializers_called (cv : FunctionConverter) (L : Option FunctionDefinition)
    (self_ptr : CExpr) (f : ContractDefinition) :
    ∀ (bs : List InheritanceSpecifier) (st : ConverterState) (calls : List CExpr)
      (st1 : ConverterState),
      parent_initializers cv L self_ptr f bs st = .ok (calls, st1) →
      calls.map calledName
          = (bs.filter (fun b => !b.referenced.isInterface)).map
              (fun b => some (cv.m_stack.init_call_name b.referenced f))
        ∧ ∀ call ∈ calls, ∃ fn rest,
            call = .call fn (self_ptr :: cv.m_stack.next_state_args ++ rest) := by
  intro bs
  induction bs with
  | nil =>
    intro st calls st1 h
    simp only [parent_initializers, Except.ok.injEq, Prod.mk.injEq] at h
    rw [← h.1]
    simp
  | cons b rest ih =>
    intro st calls st1 h
    obtain ⟨parent, arguments⟩ := b
    simp only [parent_initializers] at h
    split at h
    · rename_i hi
      have := ih st calls st1 h
      simpa [InheritanceSpecifier.referenced, hi] using this
    · rename_i hi
      split at h
      · cases h
      · rename_i parent_call st2 hp
        split at h
        · cases h
        · rename_i call hcall
          split at h
          · cases h
          · rename_i calls2 st3 hr
            simp only [Except.ok.injEq, Prod.mk.injEq] at h
            obtain ⟨ih1, ih2⟩ := ih st2 calls2 st3 hr
            have hn := handle_contract_initializer_name cv parent f st parent_call st2 hp
            obtain ⟨args, hshape⟩ := parent_initializer_call_shape cv L self_ptr parent
              arguments parent_call call hcall
            rw [← h.1]
            constructor
            · simp [InheritanceSpecifier.referenced, hi, ih1, hshape, calledName, hn]
            · intro x hx
              rcases List.mem_cons.mp hx with hx | hx
              · exact ⟨parent_call, args, by rw [hx, hshape]⟩
              · exact ih2 x hx

end FunctionConverter

/-! ## Theorems: the zero literal, scoped swaps and declaration names -/

theorem pairsWithEarlier_snd (used l : List Nat) (p : Nat × Nat)
    (h : p ∈ pairsWithEarlier used l) : p.2 ∈ used ++ l := by
  induction l generalizing used with
  | nil => simp [pairsWithEarlier] at h
  | cons x xs ih =>
    simp only [pairsWithEarlier, List.mem_append, List.mem_map] at h
    rcases h with ⟨o, ho, rfl⟩ | h
    · exact List.mem_append_left _ ho
    · have := ih _ h
      simp only [List.mem_append, List.mem_singleton, List.mem_cons] at this ⊢
      tauto

/-- C29: when the literal 0 occurs among the literals, `MIN_ADDR` is 1, the
zero literal is assigned the constant 0, and every nonzero literal is assigned
`LibVerify::range(MIN_ADDR, MAX_ADDR, NAME)`, every value of which is at least
1 and so differs from 0; the inequality statements of the block relate nonzero
literals only, none of them relates a literal to the zero literal. -/
theorem C29_nonzero_apart_from_zero (d : MapIndexSummary) (name : Nat → String)
    (h0 : 0 ∈ d.literals) :
    (AddressSpace.new d).MIN_ADDR = 1
    ∧ constantAssignment (AddressSpace.new d) name 0
        = .expr (.assign (.ident (name 0) false) Literals.ZERO)
    ∧ (∀ nd user m, evalExpr nd user Literals.ZERO m = (.ok 0, m))
    ∧ (∀ lit, lit ∈ d.literals → lit ≠ 0 →
        constantAssignment (AddressSpace.new d) name lit
            ∈ ((AddressSpace.new d).map_constants name []).filter isAssignment
        ∧ constantAssignment (AddressSpace.new d) name lit
            = .expr (.assign (.ident (name lit) false)
                (LibVerify.range (AddressSpace.new d).MIN_ADDR (AddressSpace.new d).MAX_ADDR
                  (name lit)))
        ∧ ∀ nd user m v,
            (evalExpr nd user
              (LibVerify.range (AddressSpace.new d).MIN_ADDR (AddressSpace.new d).MAX_ADDR
                (name lit)) m).1 = .ok v → 1 ≤ v ∧ v ≠ 0)
    ∧ ((AddressSpace.new d).map_constants name []).filter isInequality
        = (pairsWithEarlier [] (nonzeroLiterals d)).map (inequalityOf name)
    ∧ (∀ p ∈ pairsWithEarlier [] (nonzeroLiterals d), p.1 ≠ 0 ∧ p.2 ≠ 0) := by
  have hmin : (AddressSpace.new d).MIN_ADDR = 1 := by
    simp [AddressSpace.new, h0]
  have hfil : ((AddressSpace.new d).map_constants name []).filter isAssignment
      = d.literals.map (constantAssignment (AddressSpace.new d) name) := by
    unfold AddressSpace.map_constants
    split
    · rw [map_constants_loop_assignments]; simp [LibVerify.log, isAssignment]; rfl
    · rw [map_constants_loop_assignments]; simp; rfl
  refine ⟨hmin, ?_, fun _ _ _ => rfl, ?_, map_constants_inequalities _ name, ?_⟩
  · simp [constantAssignment, Literals.ZERO]
  · intro lit hl hne
    refine ⟨?_, ?_, ?_⟩
    · rw [hfil]; exact List.mem_map_of_mem _ hl
    · simp [constantAssignment, hne, LibVerify.range]
    · intro nd user m v hv
      rw [range_value, hmin] at hv
      split at hv
      · simp only [Except.ok.injEq] at hv
        subst hv
        rename_i hr
        exact ⟨hr.1, by omega⟩
      · cases hv
  · intro p hp
    have h1 := pairsWithEarlier_fst _ _ p hp
    have h2 := pairsWithEarlier_snd _ _ p hp
    simp only [nonzeroLiterals, List.nil_append, List.mem_filter, decide_eq_true_eq] at h1 h2
    exact ⟨h1.2, h2.2⟩

/-- Witness of C29: the literals `{0, 5, 12}` with four representatives. -/
theorem C29_nonzero_apart_from_zero_witness :
    0 ∈ (⟨[0, 5, 12], 4⟩ : MapIndexSummary).literals
    ∧ (AddressSpace.new ⟨[0, 5, 12], 4⟩).MIN_ADDR = 1
    ∧ ((AddressSpace.new ⟨[0, 5, 12], 4⟩).map_constants exampleConstName []).filter isInequality
        = (pairsWithEarlier [] (nonzeroLiterals ⟨[0, 5, 12], 4⟩)).map
            (inequalityOf exampleConstName) :=
  ⟨by decide,
   (C29_nonzero_apart_from_zero ⟨[0, 5, 12], 4⟩ exampleConstName (by decide)).1,
   (C29_nonzero_apart_from_zero ⟨[0, 5, 12], 4⟩ exampleConstName (by decide)).2.2.2.2.1⟩

namespace ScopedSwap

theorem enterAll_append {T : Type} (vs ws : List T) (r : List (ScopedSwap T) × T) :
    enterAll (vs ++ ws) r = enterAll ws (enterAll vs r) := by
  induction vs generalizing r with
  | nil => rfl
  | cons v vs ih =>
    obtain ⟨alive, target⟩ := r
    simp only [List.cons_append, enterAll]
    exact ih _

theorem leave_enterAll {T : Type} (vs : List T) (alive : List (ScopedSwap T)) (v0 : T) :
    leave vs.length (enterAll vs (alive, v0)) = (alive, v0) := by
  induction vs using List.reverseRecOn generalizing alive v0 with
  | nil => rfl
  | append_singleton vs v ih =>
    rw [enterAll_append, List.length_append, List.length_singleton]
    generalize hr : enterAll vs (alive, v0) = r
    obtain ⟨alive1, v1⟩ := r
    simp only [enterAll, make, leave, release]
    rw [← hr]
    exact ih alive v0

theorem enterAll_value {T : Type} (vs : List T) (alive : List (ScopedSwap T)) (v0 : T) :
    (enterAll vs (alive, v0)).2 = (v0 :: vs).getLast (List.cons_ne_nil _ _)
    ∧ (enterAll vs (alive, v0)).1.map old = (v0 :: vs).dropLast.reverse ++ alive.map old := by
  induction vs generalizing alive v0 with
  | nil => simp [enterAll]
  | cons v vs ih =>
    simp only [enterAll, make]
    obtain ⟨h1, h2⟩ := ih (⟨v0⟩ :: alive) v
    refine ⟨?_, ?_⟩
    · rw [h1, List.getLast_cons (List.cons_ne_nil _ _)]
    · rw [h2]
      simp [old, List.dropLast_cons_of_ne_nil]

/-- C22: constructing a swap sets the variable to the new value and keeps the
previous value as `old()`; when its scope ends the variable holds `old()`
again. For every nesting of swaps on one variable, the variable holds the last
value set, the values kept are the earlier contents, innermost first; ending
the innermost scopes restores the contents in reverse order, and after all
scopes have ended the variable holds its original value. -/
theorem C22_scoped_swap {T : Type} (v0 : T) :
    (∀ v, (make v0 v).2 = v ∧ (make v0 v).1.old = v0
        ∧ ∀ current, (make v0 v).1.release current = v0)
    ∧ (∀ vs : List T,
        (enterAll vs ([], v0)).2 = (v0 :: vs).getLast (List.cons_ne_nil _ _)
        ∧ (enterAll vs ([], v0)).1.map old = (v0 :: vs).dropLast.reverse
        ∧ leave vs.length (enterAll vs ([], v0)) = ([], v0))
    ∧ (∀ vs ws : List T,
        leave ws.length (enterAll (vs ++ ws) ([], v0)) = enterAll vs ([], v0)
        ∧ (leave ws.length (enterAll (vs ++ ws) ([], v0))).2
            = (v0 :: vs).getLast (List.cons_ne_nil _ _)) := by
  refine ⟨fun v => ⟨rfl, rfl, fun _ => rfl⟩, ?_, ?_⟩
  · intro vs
    obtain ⟨h1, h2⟩ := enterAll_value vs [] v0
    exact ⟨h1, by simpa using h2, leave_enterAll vs [] v0⟩
  · intro vs ws
    have h : leave ws.length (enterAll (vs ++ ws) ([], v0)) = enterAll vs ([], v0) := by
      rw [enterAll_append]
      generalize enterAll vs ([], v0) = r
      obtain ⟨alive, v⟩ := r
      exact leave_enterAll ws alive v
    exact ⟨h, by rw [h]; exact (enterAll_value vs [] v0).1⟩

end ScopedSwap

theorem escape_decl_name_chars_eq (a : List Char) :
    escape_decl_name_chars a = a.flatMap (fun c => if c = '_' then ['_', '_'] else [c]) := by
  induction a with
  | nil => rfl
  | cons c rest ih =>
    simp only [escape_decl_name_chars, List.flatMap_cons, ih]
    by_cases h : c = '_' <;> simp [h]

theorem collapse_escape_chars (a : List Char) :
    collapse_underscores (escape_decl_name_chars a) = a := by
  induction a with
  | nil => rfl
  | cons c rest ih =>
    by_cases h : c = '_'
    · subst h
      simp [escape_decl_name_chars, collapse_underscores, ih]
    · simp only [escape_decl_name_chars, h, if_false, List.singleton_append]
      rw [collapse_underscores]
      · rw [ih]
      · intro rest2 h1 h2
        exact h h1

/-- C30: `escape_decl_name_string` returns its input with every underscore
doubled and every other character unchanged; collapsing each doubled underscore
recovers the input, so the function is injective: two distinct names never
yield the same escaped name. -/
theorem C30_escape_injective :
    (∀ a : String, (escape_decl_name_string a).data
        = a.data.flatMap (fun c => if c = '_' then ['_', '_'] else [c]))
    ∧ (∀ a : String, String.mk (collapse_underscores (escape_decl_name_string a).data) = a)
    ∧ (∀ a b : String, escape_decl_name_string a = escape_decl_name_string b → a = b)
    ∧ (∀ a b : String, a ≠ b → escape_decl_name_string a ≠ escape_decl_name_string b) := by
  have hc : ∀ a : String,
      String.mk (collapse_underscores (escape_decl_name_string a).data) = a := by
    intro a
    simp [escape_decl_name_string, collapse_escape_chars]
  have hinj : ∀ a b : String,
      escape_decl_name_string a = escape_decl_name_string b → a = b := by
    intro a b h
    rw [← hc a, ← hc b, h]
  exact ⟨fun a => escape_decl_name_chars_eq a.data, hc, hinj, fun a b hne h => hne (hinj a b h)⟩

/-- The test `scope_swap`: swaps to 1, 2 and 3 on a variable holding 0. -/
theorem scope_swap_test :
    (ScopedSwap.enterAll [1] ([], 0)).2 = 1
    ∧ (ScopedSwap.enterAll [1] ([], 0)).1.map ScopedSwap.old = [0]
    ∧ (ScopedSwap.enterAll [1, 2] ([], 0)).2 = 2
    ∧ (ScopedSwap.enterAll [1, 2] ([], 0)).1.map ScopedSwap.old = [1, 0]
    ∧ (ScopedSwap.enterAll [1, 2, 3] ([], 0)).2 = 3
    ∧ (ScopedSwap.enterAll [1, 2, 3] ([], 0)).1.map ScopedSwap.old = [2, 1, 0]
    ∧ (ScopedSwap.leave 1 (ScopedSwap.enterAll [1, 2, 3] ([], 0))).2 = 2
    ∧ (ScopedSwap.leave 2 (ScopedSwap.enterAll [1, 2, 3] ([], 0))).2 = 1 := by
  decide

namespace FunctionConverter

/-- C28, the code at the contract `B` of `contract A {} contract B is A {
constructor() A() public {} }`: lowering the initializer of `B` reads the
parameters of the constructor of `A`, which `A` does not have. Whenever the
local constructor invokes a base without constructor as a modifier with an
argument list, the call of the parent initializer is not built. A base
specifier with an empty argument list is lowered. -/
theorem C28_missing_parent_constructor :
    (exampleConverter .FULL).handle_contract_initializer exampleBaseCall exampleBaseCall
        ⟨[], []⟩ = .error (.nullDeref "parent.constructor()")
    ∧ (exampleConverter .EXT).handle_contract_initializer exampleBaseCall exampleBaseCall
        ⟨[], []⟩ = .error (.nullDeref "parent.constructor()")
    ∧ (∀ (cv : FunctionConverter) (ctor : FunctionDefinition) (self_ptr : CExpr)
        (parent : ContractDefinition) (arguments : Option (List Expression))
        (parent_call : String) (CTOR_MOD : ModifierInvocation) (CARGS : List Expression),
        ctor.modifiers.find? (fun m => m.name == parent.name) = some CTOR_MOD →
        CTOR_MOD.arguments = some CARGS → parent.constructor = none →
          cv.parent_initializer_call (some ctor) self_ptr parent arguments parent_call
            = .error (.nullDeref "parent.constructor()"))
    ∧ (writtenBy ((exampleConverter .FULL).handle_contract_initializer exampleEmptySpecifier
        exampleEmptySpecifier ⟨[], []⟩)).map (fun d => d.id.name) = ["Init_A_for_B", "Init_B"] := by
  refine ⟨rfl, rfl, ?_, by decide⟩
  intro cv ctor self_ptr parent arguments parent_call CTOR_MOD CARGS hfind hargs hctor
  simp [parent_initializer_call, hfind, hargs, hctor]

end FunctionConverter

/-! ## Theorems: the visited set across print passes -/

namespace FunctionConverter

theorem generate_function_cases (cv : FunctionConverter) (_spec : FunctionSpecialization) :
    (∀ st, cv.generate_function _spec st = st)
    ∨ ∃ t p, ∀ st, cv.generate_function _spec st = (cv.handle_function _spec t p st).2 := by
  by_cases h1 : _spec.func.isConstructor = true
  · left; intro st; simp only [generate_function]; rw [if_pos h1]
  by_cases h2 : _spec.func.isFallback = true
  · left; intro st; simp only [generate_function]; rw [if_neg h1, if_pos h2]
  by_cases h3 : (!(decide (_spec.func.visibility = Visibility.Public)
      || decide (_spec.func.visibility = Visibility.External))
      && decide (cv.M_VIEW = View.EXT)) = true
  · left; intro st; simp only [generate_function]; rw [if_neg h1, if_neg h2, if_pos h3]
  by_cases h4 : ((decide (_spec.func.visibility = Visibility.Public)
      || decide (_spec.func.visibility = Visibility.External))
      && decide (cv.M_VIEW = View.INT)) = true
  · left; intro st; simp only [generate_function]
    rw [if_neg h1, if_neg h2, if_neg h3, if_pos h4]
  right
  cases hr : _spec.func.returnParameters with
  | nil =>
    refine ⟨cv.m_stack.get_type_function _spec.func, false, fun st => ?_⟩
    simp only [generate_function]
    rw [if_neg h1, if_neg h2, if_neg h3, if_neg h4, hr]
  | cons rv0 rest =>
    by_cases h5 : rv0.category = TypeCategory.Contract
    · by_cases h6 : cv.m_stack.retval_is_allocated rv0 = true
      · refine ⟨"void", false, fun st => ?_⟩
        simp only [generate_function]
        rw [if_neg h1, if_neg h2, if_neg h3, if_neg h4, hr]
        dsimp only
        rw [if_pos h5, if_pos h6]
      · refine ⟨cv.m_stack.get_type_function _spec.func, true, fun st => ?_⟩
        simp only [generate_function]
        rw [if_neg h1, if_neg h2, if_neg h3, if_neg h4, hr]
        dsimp only
        rw [if_pos h5, if_neg h6]
    · refine ⟨cv.m_stack.get_type_function _spec.func, false, fun st => ?_⟩
      simp only [generate_function]
      rw [if_neg h1, if_neg h2, if_neg h3, if_neg h4, hr]
      dsimp only
      rw [if_neg h5]

end FunctionConverter

/-! ## Theorems: the order of the definitions written by print -/

namespace FunctionConverter

theorem Writes_refl (st : ConverterState) : Writes st st [] := by
  simp [Writes]

theorem Writes_trans {a b c : ConverterState} {n1 n2 : List CFuncDef}
    (h1 : Writes a b n1) (h2 : Writes b c n2) : Writes a c (n1 ++ n2) := by
  simp only [Writes] at *
  rw [h2, h1, List.append_assoc]

theorem foldl_writes {α : Type} (g : α → ConverterState → ConverterState)
    (hg : ∀ x st, ∃ new, Writes st (g x st) new) (xs : List α) :
    ∀ st, ∃ new, Writes st (xs.foldl (fun st x => g x st) st) new := by
  induction xs with
  | nil => intro st; exact ⟨[], Writes_refl st⟩
  | cons x xs ih =>
    intro st
    obtain ⟨n1, h1⟩ := hg x st
    obtain ⟨n2, h2⟩ := ih (g x st)
    exact ⟨n1 ++ n2, Writes_trans h1 h2⟩

theorem forEach_writes {α : Type}
    (body : α → ConverterState → Except GenFault ConverterState)
    (hb : ∀ x st st1, body x st = .ok st1 → ∃ new, Writes st st1 new) (xs : List α) :
    ∀ st st1, forEach body xs st = .ok st1 → ∃ new, Writes st st1 new := by
  induction xs with
  | nil =>
    intro st st1 h
    simp only [forEach, Except.ok.injEq] at h
    subst h
    exact ⟨[], Writes_refl st⟩
  | cons x xs ih =>
    intro st st2 h
    simp only [forEach] at h
    split at h
    · cases h
    · rename_i st1 h1
      obtain ⟨n1, w1⟩ := hb x st st1 h1
      obtain ⟨n2, w2⟩ := ih st1 st2 h
      exact ⟨n1 ++ n2, Writes_trans w1 w2⟩

theorem generate_mapping_fresh (cv : FunctionConverter) (m : Mapping) (st : ConverterState)
    (hv : cv.M_VIEW ≠ View.EXT) (hk : mapping_key m ∉ st.m_visited) :
    cv.generate_mapping m st
      = ⟨mapping_key m :: st.m_visited, st.m_ostream ++ cv.mapping_defs m⟩ := by
  simp [generate_mapping, hv, hk, mapping_defs]

theorem generate_mapping_writes (cv : FunctionConverter) (m : Mapping) (st : ConverterState) :
    ∃ new, Writes st (cv.generate_mapping m st) new := by
  unfold generate_mapping
  split
  · exact ⟨[], Writes_refl st⟩
  · split
    · exact ⟨[], Writes_refl st⟩
    · exact ⟨_, rfl⟩

theorem generate_structure_fresh (cv : FunctionConverter) (s : Structure)
    (sa sb : ConverterState) (h : cv.generate_structure s sa = .ok sb)
    (hv : cv.M_VIEW ≠ View.EXT) (hk : structure_key s ∉ sa.m_visited) :
    ∃ basic Maps, cv.basic_decls s.fields = .ok basic
      ∧ Writes (sa.record (structure_key s))
          (s.mappings.foldl (fun st mapping => cv.generate_mapping mapping st)
            (sa.record (structure_key s))) Maps
      ∧ sb.m_ostream = sa.m_ostream ++ Maps ++ [cv.structure_zero s, cv.structure_init s basic] := by
  simp only [generate_structure, hv, hk, if_false] at h
  split at h
  · cases h
  · rename_i basic hb
    simp only [Except.ok.injEq] at h
    obtain ⟨Maps, hm⟩ := foldl_writes (fun m st => cv.generate_mapping m st)
      (generate_mapping_writes cv) s.mappings (sa.record (structure_key s))
    refine ⟨basic, Maps, hb, hm, ?_⟩
    rw [← h]
    simp only [Writes, ConverterState.record] at hm
    simp only [hm]

theorem generate_structure_writes (cv : FunctionConverter) (s : Structure)
    (sa sb : ConverterState) (h : cv.generate_structure s sa = .ok sb) :
    ∃ new, Writes sa sb new := by
  by_cases hv : cv.M_VIEW = View.EXT
  · simp only [generate_structure, hv, if_true, Except.ok.injEq] at h
    subst h; exact ⟨[], Writes_refl _⟩
  · by_cases hk : structure_key s ∈ sa.m_visited
    · simp only [generate_structure, hv, hk, if_true, if_false, Except.ok.injEq] at h
      subst h; exact ⟨[], Writes_refl _⟩
    · obtain ⟨basic, Maps, -, -, ho⟩ := generate_structure_fresh cv s sa sb h hv hk
      exact ⟨Maps ++ [cv.structure_zero s, cv.structure_init s basic], by
        simp only [Writes]; rw [ho, List.append_assoc]⟩

theorem handle_function_writes (cv : FunctionConverter) (_spec : FunctionSpecialization)
    (t : String) (p : Bool) (st : ConverterState) :
    ∃ new, Writes st (cv.handle_function _spec t p st).2 new :=
  (handle_function_grows cv _spec t p st).2.1

theorem generate_function_writes (cv : FunctionConverter) (_spec : FunctionSpecialization)
    (st : ConverterState) : ∃ new, Writes st (cv.generate_function _spec st) new := by
  rcases generate_function_cases cv _spec with h | ⟨t, p, h⟩
  · rw [h]; exact ⟨[], Writes_refl st⟩
  · rw [h]; exact handle_function_writes cv _spec t p st

theorem generate_method_writes (cv : FunctionConverter) (c : FlatModel.FlatContract)
    (f : FunctionDefinition) (st : ConverterState) :
    ∃ new, Writes st (cv.generate_method c f st) new :=
  foldl_writes (fun func st => cv.generate_function ⟨func, c.raw⟩ st)
    (fun func st => generate_function_writes cv ⟨func, c.raw⟩ st) _ st

theorem print_methods_writes (cv : FunctionConverter) (c : FlatModel.FlatContract)
    (st : ConverterState) : ∃ new, Writes st (cv.print_methods c st) new := by
  obtain ⟨n1, h1⟩ := foldl_writes (fun f st => cv.generate_method c f st)
    (generate_method_writes cv c) c.interface st
  obtain ⟨n2, h2⟩ := foldl_writes (fun f st => cv.generate_method c f st)
    (generate_method_writes cv c) (cv.m_stack.internals c)
    (c.interface.foldl (fun st f => cv.generate_method c f st) st)
  exact ⟨n1 ++ n2, Writes_trans h1 h2⟩

theorem print_fallback_writes (cv : FunctionConverter) (c : FlatModel.FlatContract)
    (st : ConverterState) : ∃ new, Writes st (cv.print_fallback c st) new := by
  unfold print_fallback
  cases c.fallback with
  | none => exact ⟨[], Writes_refl st⟩
  | some fb => exact handle_function_writes cv _ _ _ st

theorem print_mappings_writes (cv : FunctionConverter) (c : FlatModel.FlatContract)
    (st : ConverterState) : ∃ new, Writes st (cv.print_mappings c st) new :=
  foldl_writes (fun m st => cv.generate_mapping m st) (generate_mapping_writes cv) _ st

theorem print_contract_parts (cv : FunctionConverter) (contract : FlatModel.FlatContract)
    (sa sb : ConverterState) (h : cv.print_contract contract sa = .ok sb) :
    ∃ (s1 : ConverterState) (n : String) (s3 : ConverterState) (S M I F P : List CFuncDef),
      forEach cv.generate_structure contract.structures sa = .ok s1 ∧ Writes sa s1 S
      ∧ Writes s1 (cv.print_mappings contract s1) M
      ∧ cv.handle_contract_initializer contract.raw contract.raw
          (cv.print_mappings contract s1) = .ok (n, s3)
      ∧ Writes (cv.print_mappings contract s1) s3 I
      ∧ Writes s3 (cv.print_fallback contract s3) F
      ∧ sb = cv.print_methods contract (cv.print_fallback contract s3)
      ∧ Writes (cv.print_fallback contract s3) sb P
      ∧ sb.m_ostream = sa.m_ostream ++ S ++ M ++ I ++ F ++ P := by
  simp only [print_contract] at h
  split at h
  · cases h
  · rename_i s1 h1
    split at h
    · cases h
    · rename_i n s3 h3
      simp only [Except.ok.injEq] at h
      obtain ⟨S, wS⟩ := forEach_writes cv.generate_structure
        (generate_structure_writes cv) _ sa s1 h1
      obtain ⟨M, wM⟩ := print_mappings_writes cv contract s1
      obtain ⟨I, wI⟩ := (handle_contract_initializer_grows cv _ _ _ n s3 h3).2.1
      obtain ⟨F, wF⟩ := print_fallback_writes cv contract s3
      obtain ⟨P, wP⟩ := print_methods_writes cv contract (cv.print_fallback contract s3)
      refine ⟨s1, n, s3, S, M, I, F, P, h1, wS, wM, h3, wI, wF, h.symm, ?_, ?_⟩
      · rw [← h]; exact wP
      · have := Writes_trans (Writes_trans (Writes_trans (Writes_trans wS wM) wI) wF) wP
        simp only [Writes] at this
        rw [← h, this]
        simp only [List.append_assoc]

theorem print_contract_writes (cv : FunctionConverter) (contract : FlatModel.FlatContract)
    (sa sb : ConverterState) (h : cv.print_contract contract sa = .ok sb) :
    ∃ new, Writes sa sb new := by
  obtain ⟨s1, n, s3, S, M, I, F, P, -, -, -, -, -, -, -, -, ho⟩ :=
    print_contract_parts cv contract sa sb h
  exact ⟨S ++ M ++ I ++ F ++ P, by simp only [Writes]; rw [ho]; simp only [List.append_assoc]⟩

theorem print_library_writes (cv : FunctionConverter) (l : Library)
    (sa sb : ConverterState) (h : cv.print_library l sa = .ok sb) :
    ∃ new, Writes sa sb new := by
  simp only [print_library] at h
  split at h
  · cases h
  · rename_i s1 h1
    simp only [Except.ok.injEq] at h
    obtain ⟨S, wS⟩ := forEach_writes cv.generate_structure
      (generate_structure_writes cv) _ sa s1 h1
    obtain ⟨P, wP⟩ := foldl_writes (fun func st => cv.generate_function ⟨func, l.raw⟩ st)
      (fun func st => generate_function_writes cv ⟨func, l.raw⟩ st) l.functions s1
    rw [← h]
    exact ⟨S ++ P, Writes_trans wS wP⟩

theorem initializer_fresh_order (cv : FunctionConverter) (c f : ContractDefinition)
    (sa : ConverterState) (n : String) (sb : ConverterState)
    (hv : cv.M_VIEW ≠ View.INT) (hk : initializer_key c f ∉ sa.m_visited)
    (h : cv.handle_contract_initializer c f sa = .ok (n, sb)) :
    ∃ mid d, sb.m_ostream
        = (cv.constructor_step c.constructor f (sa.record (initializer_key c f))).2.2.m_ostream
          ++ mid ++ [d]
      ∧ d.id.name = cv.m_stack.init_call_name c f := by
  rw [handle_contract_initializer_eq] at h
  simp only [hv, hk, if_false] at h
  split at h
  · cases h
  · rename_i p0 hp0
    split at h
    · cases h
    · rename_i calls st2 hpar
      simp only [Except.ok.injEq, Prod.mk.injEq] at h
      obtain ⟨mid, hmid⟩ := (parent_initializers_grows cv _ _ _ f _ calls st2 hpar).2.1
      rw [← h.2]
      refine ⟨mid,
        cv.initializer_def c f
          (cv.generate_params
            (cv.constructor_step c.constructor f
              ⟨initializer_key c f :: sa.m_visited, sa.m_ostream⟩).1
            (some f) none VarContext.STRUCT false)
          p0.id
          (cv.constructor_step c.constructor f
            ⟨initializer_key c f :: sa.m_visited, sa.m_ostream⟩).2.1
          calls, ?_, rfl⟩
      simp only [ConverterState.record]
      rw [hmid]

/-- C24, as stated, fails: on the example model the accessors of the mapping
of structure `S` are written before the constructors of `S`, and the
constructor of contract `W` before the initializer of `W`. -/
theorem C24_order_counterexample :
    printedNames ((examplePrinter .FULL).print_to_stream [])
        = ["Method_L_h", "ZeroInit_Map_1", "Read_Map_1", "Write_Map_1", "Set_Map_1",
           "ZeroInit_W_Struct_S", "Init_W_Struct_S", "ZeroInit_Map_2", "Read_Map_2",
           "Write_Map_2", "Set_Map_2", "Ctor_W", "Init_W", "Method_W_", "Method_W_f_mod2",
           "Method_W_f_mod1", "Method_W_f", "Method_W_g"]
    ∧ exampleFirstPass.1.get? 2
        = some ((examplePrintStack.map_generator ⟨2, "Map_1"⟩ false 0).declare_read false)
    ∧ exampleFirstPass.1.get? 5
        = some ((examplePrinter .FULL).structure_zero
            ⟨1, "W_Struct_S", [⟨"x", "sol_uint256_t", .Other, none⟩], [⟨2, "Map_1"⟩]⟩)
    ∧ exampleFirstPass.1.get? 11
        = some ((examplePrinter .FULL).base_def ⟨exampleCtor, exampleWallet⟩ "void" false)
    ∧ (exampleFirstPass.1.get? 12).map (fun d => d.id.name)
        = some (examplePrintStack.init_call_name exampleWallet exampleWallet) :=
  ⟨by decide, rfl, rfl, rfl, rfl⟩

/-- C24, amended: in the output of `print`, every definition written for a
library precedes every definition written for a contract. The definitions
written for one contract are, in this order: those of its structures, those of
its mappings, those of its initializer, those of its fallback function, those
of its methods. A structure gives the accessors of its own mappings first and
its two constructor definitions after them; the initializer gives the
definitions of the local constructor first and its own definition last, with
those of the parent initializers in between. -/
theorem C24_print_order_amended (cv : FunctionConverter) (st st1 : ConverterState)
    (h : cv.print st = .ok st1) :
    (∃ (stL : ConverterState) (L C : List CFuncDef),
        forEach cv.print_library cv.m_stack.libraries st = .ok stL
        ∧ forEach cv.print_contract cv.m_stack.model stL = .ok st1
        ∧ stL.m_ostream = st.m_ostream ++ L
        ∧ st1.m_ostream = st.m_ostream ++ L ++ C)
    ∧ (∀ contract sa sb, cv.print_contract contract sa = .ok sb →
        ∃ (s1 : ConverterState) (n : String) (s3 : ConverterState)
          (S M I F P : List CFuncDef),
          forEach cv.generate_structure contract.structures sa = .ok s1 ∧ Writes sa s1 S
          ∧ Writes s1 (cv.print_mappings contract s1) M
          ∧ cv.handle_contract_initializer contract.raw contract.raw
              (cv.print_mappings contract s1) = .ok (n, s3)
          ∧ Writes (cv.print_mappings contract s1) s3 I
          ∧ Writes s3 (cv.print_fallback contract s3) F
          ∧ sb = cv.print_methods contract (cv.print_fallback contract s3)
          ∧ Writes (cv.print_fallback contract s3) sb P
          ∧ sb.m_ostream = sa.m_ostream ++ S ++ M ++ I ++ F ++ P)
    ∧ (∀ s sa sb, cv.generate_structure s sa = .ok sb → cv.M_VIEW ≠ View.EXT →
        structure_key s ∉ sa.m_visited →
        ∃ basic Maps, cv.basic_decls s.fields = .ok basic
          ∧ Writes (sa.record (structure_key s))
              (s.mappings.foldl (fun st mapping => cv.generate_mapping mapping st)
                (sa.record (structure_key s))) Maps
          ∧ sb.m_ostream
              = sa.m_ostream ++ Maps ++ [cv.structure_zero s, cv.structure_init s basic])
    ∧ (∀ m sa, cv.M_VIEW ≠ View.EXT → mapping_key m ∉ sa.m_visited →
        cv.generate_mapping m sa
          = ⟨mapping_key m :: sa.m_visited, sa.m_ostream ++ cv.mapping_defs m⟩)
    ∧ (∀ c f sa n sb, cv.handle_contract_initializer c f sa = .ok (n, sb) →
        cv.M_VIEW ≠ View.INT → initializer_key c f ∉ sa.m_visited →
        ∃ mid d, sb.m_ostream
            = (cv.constructor_step c.constructor f
                (sa.record (initializer_key c f))).2.2.m_ostream ++ mid ++ [d]
          ∧ d.id.name = cv.m_stack.init_call_name c f)
    ∧ (∀ ctor f sa, function_key ⟨ctor, f⟩ ∉ sa.m_visited →
        (cv.constructor_step (some ctor) f sa).2.2.m_ostream
          = sa.m_ostream ++ cv.base_def ⟨ctor, f⟩ "void" false
              :: cv.modifier_defs ⟨ctor, f⟩ "void" false) := by
  refine ⟨?_, print_contract_parts cv, ?_, ?_, ?_, ?_⟩
  · simp only [print] at h
    split at h
    · cases h
    · rename_i stL hL
      obtain ⟨L, wL⟩ := forEach_writes cv.print_library (print_library_writes cv) _ st stL hL
      obtain ⟨C, wC⟩ := forEach_writes cv.print_contract (print_contract_writes cv) _ stL st1 h
      refine ⟨stL, L, C, hL, h, wL, ?_⟩
      simp only [Writes] at wL wC
      rw [wC, wL]
  · intro s sa sb hs hv hk
    exact generate_structure_fresh cv s sa sb hs hv hk
  · intro m sa hv hk
    exact generate_mapping_fresh cv m sa hv hk
  · intro c f sa n sb hi hv hk
    exact initializer_fresh_order cv c f sa n sb hv hk hi
  · intro ctor f sa hk
    simp only [constructor_step]
    rw [handle_function_fresh cv ⟨ctor, f⟩ "void" false sa hk]

/-- Witness of the amended C24: the example converter under the full view. -/
theorem C24_print_order_amended_witness :
    (examplePrinter .FULL).print ⟨[], []⟩ = .ok ⟨exampleFirstPass.2, exampleFirstPass.1⟩
    ∧ ∃ (stL : ConverterState) (L C : List CFuncDef),
        forEach (examplePrinter .FULL).print_library (examplePrinter .FULL).m_stack.libraries
            ⟨[], []⟩ = .ok stL
        ∧ forEach (examplePrinter .FULL).print_contract (examplePrinter .FULL).m_stack.model stL
            = .ok ⟨exampleFirstPass.2, exampleFirstPass.1⟩
        ∧ stL.m_ostream = [] ++ L
        ∧ exampleFirstPass.1 = [] ++ L ++ C :=
  ⟨rfl, (C24_print_order_amended (examplePrinter .FULL) ⟨[], []⟩
      ⟨exampleFirstPass.2, exampleFirstPass.1⟩ rfl).1⟩

/-- C23, the code at a contract with a fallback function: the pass under the
internal view and the pass under the external view both write the definition
of the fallback function of contract `W`, which the pass under the full view
writes once. The call of `print` for the fallback function writes its
definitions whatever the view is. -/
theorem C23_fallback_in_both_views :
    printedNames ((examplePrinter .INT).print_to_stream [])
        = ["Method_L_h", "ZeroInit_Map_1", "Read_Map_1", "Write_Map_1", "Set_Map_1",
           "ZeroInit_W_Struct_S", "Init_W_Struct_S", "ZeroInit_Map_2", "Read_Map_2",
           "Write_Map_2", "Set_Map_2", "Method_W_", "Method_W_g"]
    ∧ printedNames ((examplePrinter .EXT).print_to_stream [])
        = ["Ctor_W", "Init_W", "Method_W_", "Method_W_f_mod2", "Method_W_f_mod1", "Method_W_f"]
    ∧ (printedNames ((examplePrinter .FULL).print_to_stream [])).count "Method_W_" = 1
    ∧ (printedNames ((examplePrinter .INT).print_to_stream [])).count "Method_W_" = 1
    ∧ (printedNames ((examplePrinter .EXT).print_to_stream [])).count "Method_W_" = 1
    ∧ (examplePrinter .INT).base_def ⟨exampleFallback, exampleWallet⟩ "void" false
        = (examplePrinter .EXT).base_def ⟨exampleFallback, exampleWallet⟩ "void" false
    ∧ ((examplePrinter .INT).base_def ⟨exampleFallback, exampleWallet⟩ "void" false).id.name
        = "Method_W_"
    ∧ (∀ (cv : FunctionConverter) (contract : FlatModel.FlatContract)
        (fallback : FunctionDefinition) (st : ConverterState),
        contract.fallback = some fallback →
        function_key ⟨fallback, cv.m_stack.function_scope fallback⟩ ∉ st.m_visited →
          (cv.print_fallback contract st).m_ostream
            = st.m_ostream
              ++ cv.base_def ⟨fallback, cv.m_stack.function_scope fallback⟩ "void" false
                :: cv.modifier_defs ⟨fallback, cv.m_stack.function_scope fallback⟩
                    "void" false)
    ∧ (∀ (cv : FunctionConverter) (m : Mapping) (st : ConverterState),
        cv.M_VIEW = View.EXT → cv.generate_mapping m st = st)
    ∧ (∀ (cv : FunctionConverter) (s : Structure) (st : ConverterState),
        cv.M_VIEW = View.EXT → cv.generate_structure s st = .ok st)
    ∧ (∀ (cv : FunctionConverter) (c f : ContractDefinition) (st : ConverterState),
        cv.M_VIEW = View.INT →
          cv.handle_contract_initializer c f st = .ok (cv.m_stack.init_call_name c f, st))
    ∧ (∀ (cv : FunctionConverter) (_spec : FunctionSpecialization) (st : ConverterState),
        cv.M_VIEW = View.INT →
        _spec.func.visibility = Visibility.Public ∨ _spec.func.visibility = Visibility.External →
          cv.generate_function _spec st = st)
    ∧ (∀ (cv : FunctionConverter) (_spec : FunctionSpecialization) (st : ConverterState),
        cv.M_VIEW = View.EXT →
        ¬(_spec.func.visibility = Visibility.Public
            ∨ _spec.func.visibility = Visibility.External) →
          cv.generate_function _spec st = st) := by
  refine ⟨by decide, by decide, by decide, by decide, by decide, rfl, rfl, ?_, ?_, ?_, ?_, ?_, ?_⟩
  · intro cv contract fallback st hf hk
    simp only [print_fallback, hf]
    rw [handle_function_fresh cv _ "void" false st hk]
  · intro cv m st hv
    simp [generate_mapping, hv]
  · intro cv s st hv
    simp [generate_structure, hv]
  · intro cv c f st hv
    rw [handle_contract_initializer_eq]
    simp [hv]
  · intro cv _spec st hv hvis
    simp only [generate_function]
    rcases hvis with h | h <;> simp [hv, h]
  · intro cv _spec st hv hvis
    simp only [generate_function]
    simp only [not_or] at hvis
    simp [hv, hvis.1, hvis.2]

end FunctionConverter

/-! ## Theorems: forward declaration of functions and constructors -/

namespace FunctionForwardDeclVisitor

theorem Appends_trans {a b c : ForwardDeclState} {n1 n2 : List ForwardLine}
    (h1 : Appends a b n1) (h2 : Appends b c n2) : Appends a c (n1 ++ n2) :=
  ⟨h2.1.trans h1.1, by rw [h2.2, h1.2, List.append_assoc]⟩

theorem ctorLineCount_append (a b : List ForwardLine) :
    ctorLineCount (a ++ b) = ctorLineCount a + ctorLineCount b := by
  simp [ctorLineCount, List.filter_append]

theorem accept_type_name_appends (tr : TypeTranslator) (t : TypeName) :
    ∀ st, ∃ new, Appends st (accept_type_name tr t st) new ∧ ctorLineCount new = 0 := by
  induction t with
  | elementary n => intro st; exact ⟨[], ⟨rfl, by simp [accept_type_name]⟩, rfl⟩
  | userDefined n => intro st; exact ⟨[], ⟨rfl, by simp [accept_type_name]⟩, rfl⟩
  | array b ih => intro st; simpa [accept_type_name] using ih st
  | mapping k v ihk ihv =>
    intro st
    simp only [accept_type_name]
    obtain ⟨n1, h1, c1⟩ := ihk
      { st with m_ostream := st.m_ostream ++ mapping_prototypes tr st.scopes k v }
    obtain ⟨n2, h2, c2⟩ := ihv (accept_type_name tr k
      { st with m_ostream := st.m_ostream ++ mapping_prototypes tr st.scopes k v })
    have h0 : Appends st
        { st with m_ostream := st.m_ostream ++ mapping_prototypes tr st.scopes k v }
        (mapping_prototypes tr st.scopes k v) := ⟨rfl, rfl⟩
    refine ⟨_, Appends_trans h0 (Appends_trans h1 h2), ?_⟩
    rw [ctorLineCount_append, ctorLineCount_append, c1, c2]
    rfl

theorem accept_variable_appends (tr : TypeTranslator) (st : ForwardDeclState)
    (v : DeclarationNode) :
    ∃ new, Appends st (accept_variable tr st v) new ∧ ctorLineCount new = 0 := by
  obtain ⟨new, ⟨hs, ho⟩, hc⟩ := accept_type_name_appends tr v.typeName
    (enter_scope st (tr.translate_variable st.scopes v))
  refine ⟨new, ⟨?_, ?_⟩, hc⟩
  · simp only [accept_variable, exit_scope]
    rw [hs]; rfl
  · simp only [accept_variable, exit_scope]
    rw [ho]; rfl

theorem members_appends (tr : TypeTranslator) (ms : List DeclarationNode) :
    ∀ st, ∃ new, Appends st (ms.foldl (accept_variable tr) st) new ∧ ctorLineCount new = 0 := by
  induction ms with
  | nil => intro st; exact ⟨[], ⟨rfl, by simp⟩, rfl⟩
  | cons m ms ih =>
    intro st
    obtain ⟨n1, h1, c1⟩ := accept_variable_appends tr st m
    obtain ⟨n2, h2, c2⟩ := ih (accept_variable tr st m)
    exact ⟨n1 ++ n2, Appends_trans h1 h2, by rw [ctorLineCount_append, c1, c2]⟩

/-- The visit of a constructor writes its line, whatever its visibility. -/
theorem visit_function_constructor (st : ForwardDeclState) (f : FunctionDefinition)
    (hc : f.isConstructor = true) :
    visit_function st f
      = .ok ⟨st.scopes, st.m_ostream
          ++ [.function (scope st).type true (scope st).name f.name]⟩ := by
  simp [visit_function, hc]

/-- The visit of a function that is not a constructor writes its line when the
function is public or external. -/
theorem visit_function_external (st : ForwardDeclState) (f : FunctionDefinition)
    (hc : f.isConstructor = false)
    (hv : f.visibility = Visibility.Public ∨ f.visibility = Visibility.External) :
    visit_function st f
      = .ok ⟨st.scopes, st.m_ostream
          ++ [.function (if f.returnParameters = [] then "void" else "") false
                (scope st).name f.name]⟩ := by
  rcases hv with hv | hv <;>
    cases hr : f.returnParameters <;>
    simp [visit_function, hc, FunctionDefinition.functionType, hv, hr]

/-- The visit of a function that is not a constructor stops the pass when the
function is private or internal. -/
theorem visit_function_internal (st : ForwardDeclState) (f : FunctionDefinition)
    (hc : f.isConstructor = false)
    (hv : f.visibility = Visibility.Private ∨ f.visibility = Visibility.Internal) :
    visit_function st f = .error (.nullDeref "_node.functionType(false)") := by
  rcases hv with hv | hv <;>
    simp [visit_function, hc, FunctionDefinition.functionType, hv]

theorem visit_function_ok (st : ForwardDeclState) (f : FunctionDefinition)
    (h : f.hasForwardLine = true) :
    ∃ type, visit_function st f
      = .ok ⟨st.scopes, st.m_ostream
          ++ [.function type f.isConstructor (scope st).name f.name]⟩
      ∧ (f.isConstructor = true → type = (scope st).type) := by
  cases hc : f.isConstructor
  · have hv : f.visibility = Visibility.Public ∨ f.visibility = Visibility.External := by
      simpa [FunctionDefinition.hasForwardLine, hc] using h
    exact ⟨_, visit_function_external st f hc hv, fun h => by cases h⟩
  · exact ⟨(scope st).type, visit_function_constructor st f hc, fun _ => rfl⟩

theorem visit_function_stops (st : ForwardDeclState) (f : FunctionDefinition)
    (h : f.hasForwardLine = false) : ∃ e, visit_function st f = .error e := by
  have hc : f.isConstructor = false := by
    cases hc : f.isConstructor
    · rfl
    · simp [FunctionDefinition.hasForwardLine, hc] at h
  simp only [FunctionDefinition.hasForwardLine, hc, Bool.false_or, Bool.or_eq_false_iff,
    decide_eq_false_iff_not] at h
  cases hv : f.visibility with
  | Default =>
    refine ⟨.assertion "visibility() should not return Default", ?_⟩
    simp [visit_function, hc, FunctionDefinition.functionType, hv]
  | Private => exact ⟨_, visit_function_internal st f hc (Or.inl hv)⟩
  | Internal => exact ⟨_, visit_function_internal st f hc (Or.inr hv)⟩
  | Public => exact absurd hv h.1
  | External => exact absurd hv h.2

theorem accept_struct_appends (tr : TypeTranslator) (st : ForwardDeclState)
    (s : StructDefinition) :
    ∃ st1 rest, accept_struct tr st s = .ok st1
      ∧ Appends st st1
        (.function (tr.translate_struct st.scopes s).type true
          (tr.translate_struct st.scopes s).name "" :: rest)
      ∧ ctorLineCount rest = 0 := by
  obtain ⟨new, ⟨hs, ho⟩, hc⟩ := members_appends tr s.members
    ⟨tr.translate_struct st.scopes s :: st.scopes,
      st.m_ostream ++ [.function (tr.translate_struct st.scopes s).type true
        (tr.translate_struct st.scopes s).name ""]⟩
  refine ⟨exit_scope (s.members.foldl (accept_variable tr)
    ⟨tr.translate_struct st.scopes s :: st.scopes,
      st.m_ostream ++ [.function (tr.translate_struct st.scopes s).type true
        (tr.translate_struct st.scopes s).name ""]⟩), new, ?_, ⟨?_, ?_⟩, hc⟩
  · simp only [accept_struct]
    rw [visit_function_constructor _ _ rfl]
    rfl
  · simp only [exit_scope]
    rw [hs]; rfl
  · simp only [exit_scope]
    rw [ho]
    simp

/-- The lines the visit of one sub-node writes in a state whose innermost scope
is `T`: a function writes its line under `T`. -/
theorem accept_sub_node_appends (tr : TypeTranslator) (st : ForwardDeclState)
    (n : ContractSubNode) (hn : n.stopsPass = false) :
    ∃ st1 new, accept_sub_node tr st n = .ok st1 ∧ Appends st st1 new
      ∧ ctorLineCount new
          = (if n.isConstructor then 1 else 0) + (if n.isStruct then 1 else 0)
      ∧ ∀ f, n = .function f → f.isConstructor = true →
          ForwardLine.function (scope st).type true (scope st).name f.name ∈ new := by
  cases n with
  | function f =>
    have hf : f.hasForwardLine = true := by
      simpa [ContractSubNode.stopsPass] using hn
    obtain ⟨type, hok, htype⟩ := visit_function_ok st f hf
    refine ⟨(⟨st.scopes, st.m_ostream
        ++ [ForwardLine.function type f.isConstructor (scope st).name f.name]⟩ :
          ForwardDeclState),
      [ForwardLine.function type f.isConstructor (scope st).name f.name], ?_, ⟨rfl, rfl⟩,
      ?_, ?_⟩
    · exact hok
    · cases hc : f.isConstructor <;>
        simp [ctorLineCount, ForwardLine.isCtor, ContractSubNode.isConstructor,
          ContractSubNode.isStruct, hc]
    · intro g hg hc
      cases hg
      simp [hc, htype hc]
  | struct s =>
    obtain ⟨st1, rest, hok, h, hc⟩ := accept_struct_appends tr st s
    refine ⟨st1, _, hok, h, ?_, ?_⟩
    · have : ctorLineCount (ForwardLine.function (tr.translate_struct st.scopes s).type true
          (tr.translate_struct st.scopes s).name "" :: rest) = 1 + ctorLineCount rest := by
        simp [ctorLineCount, ForwardLine.isCtor, Nat.add_comm]
      rw [this, hc]
      simp [ContractSubNode.isConstructor, ContractSubNode.isStruct]
    · intro f hf; cases hf
  | declaration v =>
    obtain ⟨new, h, hc⟩ := accept_variable_appends tr st v
    exact ⟨accept_variable tr st v, new, rfl, h, by simp [hc, ContractSubNode.isConstructor, ContractSubNode.isStruct],
      fun f hf => by cases hf⟩
  | modifier name =>
    exact ⟨(⟨st.scopes, st.m_ostream ++ [ForwardLine.modifier name]⟩ : ForwardDeclState),
      [ForwardLine.modifier name], rfl, ⟨rfl, rfl⟩,
      by simp [ctorLineCount, ForwardLine.isCtor, ContractSubNode.isConstructor,
        ContractSubNode.isStruct], fun f hf => by cases hf⟩
  | other =>
    exact ⟨st, [], rfl, ⟨rfl, by simp⟩,
      by simp [ctorLineCount, ContractSubNode.isConstructor, ContractSubNode.isStruct],
      fun f hf => by cases hf⟩

theorem accept_sub_node_stops (tr : TypeTranslator) (st : ForwardDeclState)
    (n : ContractSubNode) (hn : n.stopsPass = true) :
    ∃ e, accept_sub_node tr st n = .error e := by
  cases n with
  | function f =>
    have hf : f.hasForwardLine = false := by
      simpa [ContractSubNode.stopsPass] using hn
    exact visit_function_stops st f hf
  | _ => simp [ContractSubNode.stopsPass] at hn

theorem sub_nodes_appends (tr : TypeTranslator) (ns : List ContractSubNode) :
    ∀ st, (∀ n ∈ ns, n.stopsPass = false) →
      ∃ st1 new, accept_sub_nodes tr ns st = .ok st1 ∧ Appends st st1 new
      ∧ ctorLineCount new
          = (ns.filter ContractSubNode.isConstructor).length
            + (ns.filter ContractSubNode.isStruct).length
      ∧ ∀ f, .function f ∈ ns → f.isConstructor = true →
          ForwardLine.function (scope st).type true (scope st).name f.name ∈ new := by
  induction ns with
  | nil =>
    intro st _
    exact ⟨st, [], rfl, ⟨rfl, by simp⟩, rfl, fun f hf => by simp at hf⟩
  | cons n ns ih =>
    intro st hall
    obtain ⟨sa, n1, hok1, h1, c1, m1⟩ :=
      accept_sub_node_appends tr st n (hall n (List.mem_cons_self _ _))
    obtain ⟨sb, n2, hok2, h2, c2, m2⟩ :=
      ih sa (fun x hx => hall x (List.mem_cons_of_mem _ hx))
    have hscope : scope sa = scope st := by
      unfold scope; rw [h1.1]
    refine ⟨sb, n1 ++ n2, ?_, Appends_trans h1 h2, ?_, ?_⟩
    · simp only [accept_sub_nodes, hok1]
      exact hok2
    · rw [ctorLineCount_append, c1, c2, List.filter_cons, List.filter_cons]
      cases n.isConstructor <;> cases n.isStruct <;> simp <;> omega
    · intro f hf hc
      rcases List.mem_cons.mp hf with hf | hf
      · exact List.mem_append_left _ (m1 f hf.symm hc)
      · have := m2 f hf hc
        rw [hscope] at this
        exact List.mem_append_right _ this

theorem sub_nodes_stop (tr : TypeTranslator) (ns : List ContractSubNode) :
    ∀ st, (∃ n ∈ ns, n.stopsPass = true) → ∃ e, accept_sub_nodes tr ns st = .error e := by
  induction ns with
  | nil => intro st h; obtain ⟨n, hn, -⟩ := h; simp at hn
  | cons n ns ih =>
    intro st h
    cases hs : n.stopsPass
    · obtain ⟨sa, n1, hok1, -, -, -⟩ := accept_sub_node_appends tr st n hs
      obtain ⟨x, hx, hxs⟩ := h
      have hx2 : x ∈ ns := by
        rcases List.mem_cons.mp hx with hx | hx
        · rw [hx, hs] at hxs; cases hxs
        · exact hx
      obtain ⟨e, he⟩ := ih sa ⟨x, hx2, hxs⟩
      exact ⟨e, by simp only [accept_sub_nodes, hok1]; exact he⟩
    · obtain ⟨e, he⟩ := accept_sub_node_stops tr st n hs
      exact ⟨e, by simp only [accept_sub_nodes, he]⟩

theorem constructor_none_iff (c : ContractNode) :
    c.constructor = none ↔ c.subNodes.filter ContractSubNode.isConstructor = [] := by
  unfold ContractNode.constructor
  rw [List.findSome?_eq_none_iff, List.filter_eq_nil_iff]
  constructor
  · intro h n hn
    have := h n hn
    cases n with
    | function f =>
      cases hf : f.isConstructor <;> simp [hf, ContractSubNode.isConstructor] at this ⊢
    | _ => simp [ContractSubNode.isConstructor]
  · intro h n hn
    have := h n hn
    cases n with
    | function f =>
      cases hf : f.isConstructor <;> simp [hf, ContractSubNode.isConstructor] at this ⊢
    | _ => rfl

theorem constructor_some_mem (c : ContractNode) (f : FunctionDefinition)
    (h : c.constructor = some f) : .function f ∈ c.subNodes ∧ f.isConstructor = true := by
  unfold ContractNode.constructor at h
  obtain ⟨n, hn, hf⟩ := List.exists_of_findSome?_eq_some h
  cases n with
  | function g =>
    cases hg : g.isConstructor
    · simp [hg] at hf
    · simp only [hg, if_true, Option.some.injEq] at hf
      subst hf
      exact ⟨hn, hg⟩
  | _ => simp at hf

theorem accept_contract_appends (tr : TypeTranslator) (st : ForwardDeclState)
    (c : ContractNode) (hall : ∀ n ∈ c.subNodes, n.stopsPass = false) :
    ∃ st1 new, accept_contract tr st c = .ok st1
      ∧ Appends st st1
        ((if c.constructor = none then
            [ForwardLine.function (tr.translate_contract c).type true
              (tr.translate_contract c).name ""]
          else []) ++ new)
      ∧ ctorLineCount new
          = (c.subNodes.filter ContractSubNode.isConstructor).length
            + (c.subNodes.filter ContractSubNode.isStruct).length
      ∧ ∀ f, .function f ∈ c.subNodes → f.isConstructor = true →
          ForwardLine.function (tr.translate_contract c).type true
            (tr.translate_contract c).name f.name ∈ new := by
  by_cases hc : c.constructor = none
  · obtain ⟨sb, new, hok, ⟨hs, ho⟩, hcount, hmem⟩ := sub_nodes_appends tr c.subNodes
      ⟨tr.translate_contract c :: st.scopes,
        st.m_ostream ++ [.function (tr.translate_contract c).type true
          (tr.translate_contract c).name ""]⟩ hall
    refine ⟨exit_scope sb, new, ?_, ⟨?_, ?_⟩, hcount, hmem⟩
    · simp only [accept_contract, hc, if_true]
      rw [visit_function_constructor _ _ rfl]
      have : (⟨(enter_scope st (tr.translate_contract c)).scopes,
          (enter_scope st (tr.translate_contract c)).m_ostream
            ++ [.function (scope (enter_scope st (tr.translate_contract c))).type true
              (scope (enter_scope st (tr.translate_contract c))).name
              (default_ctor_def StateMutability.NonPayable).name]⟩ : ForwardDeclState)
          = ⟨tr.translate_contract c :: st.scopes,
              st.m_ostream ++ [.function (tr.translate_contract c).type true
                (tr.translate_contract c).name ""]⟩ := rfl
      simp only [this, hok]
    · simp only [exit_scope]
      rw [hs]; rfl
    · simp only [exit_scope]
      rw [ho]
      simp [hc]
  · obtain ⟨sb, new, hok, ⟨hs, ho⟩, hcount, hmem⟩ := sub_nodes_appends tr c.subNodes
      (enter_scope st (tr.translate_contract c)) hall
    refine ⟨exit_scope sb, new, ?_, ⟨?_, ?_⟩, hcount, hmem⟩
    · simp only [accept_contract, hc, if_false, hok]
    · simp only [exit_scope]
      rw [hs]; rfl
    · simp only [exit_scope]
      rw [ho]
      simp [enter_scope, hc]

theorem accept_contract_stops (tr : TypeTranslator) (st : ForwardDeclState)
    (c : ContractNode) (h : ∃ n ∈ c.subNodes, n.stopsPass = true) :
    ∃ e, accept_contract tr st c = .error e := by
  by_cases hc : c.constructor = none
  · obtain ⟨e, he⟩ := sub_nodes_stop tr c.subNodes
      ⟨tr.translate_contract c :: st.scopes,
        st.m_ostream ++ [.function (tr.translate_contract c).type true
          (tr.translate_contract c).name ""]⟩ h
    refine ⟨e, ?_⟩
    simp only [accept_contract, hc, if_true]
    rw [visit_function_constructor _ _ rfl]
    have : (⟨(enter_scope st (tr.translate_contract c)).scopes,
        (enter_scope st (tr.translate_contract c)).m_ostream
          ++ [.function (scope (enter_scope st (tr.translate_contract c))).type true
            (scope (enter_scope st (tr.translate_contract c))).name
            (default_ctor_def StateMutability.NonPayable).name]⟩ : ForwardDeclState)
        = ⟨tr.translate_contract c :: st.scopes,
            st.m_ostream ++ [.function (tr.translate_contract c).type true
              (tr.translate_contract c).name ""]⟩ := rfl
    simp only [this, he]
  · obtain ⟨e, he⟩ := sub_nodes_stop tr c.subNodes (enter_scope st (tr.translate_contract c)) h
    exact ⟨e, by simp only [accept_contract, hc, if_false, he]⟩

/-- C20, the code at `contract A { function g() internal {} constructor()
public {} }`: the visit of `g` reads the return types through the null pointer
`functionType(false)` gives for an internal function, before the constructor
is reached, so the pass stops without any constructor line for `A`; it stops
on every contract that holds a private or internal function. On a contract
whose functions are public or external the pass runs as claimed: the
constructor it builds is public, non-payable (pure for a structure), without
parameters, modifiers or body; it is built exactly when the contract declares
none and its line `<type> Ctor_<name>` is written first; every structure gives
exactly one such line; with at most one declared constructor the contract
gives exactly one constructor line of its own plus one per structure. -/
theorem C20_constructor_lines :
    accept_contract exampleTranslator ⟨[], []⟩ exampleInternalFirst
        = .error (.nullDeref "_node.functionType(false)")
    ∧ ctorLineCount (linesOf (accept_contract exampleTranslator ⟨[], []⟩ exampleInternalFirst))
        = 0
    ∧ (∀ (tr : TypeTranslator) (st : ForwardDeclState) (c : ContractNode),
        (∃ n ∈ c.subNodes, n.stopsPass = true) → ∃ e, accept_contract tr st c = .error e)
    ∧ (∀ (tr : TypeTranslator) (st : ForwardDeclState) (c : ContractNode),
        (∀ n ∈ c.subNodes, n.stopsPass = false) →
        (c.subNodes.filter ContractSubNode.isConstructor).length ≤ 1 →
        ∃ st1, accept_contract tr st c = .ok st1
          ∧ st1.scopes = st.scopes
          ∧ ctorLineCount st1.m_ostream
              = ctorLineCount st.m_ostream + 1
                + (c.subNodes.filter ContractSubNode.isStruct).length
          ∧ (c.constructor = none →
              ∃ rest, st1.m_ostream
                  = st.m_ostream ++ ForwardLine.function (tr.translate_contract c).type true
                      (tr.translate_contract c).name "" :: rest
                ∧ ctorLineCount rest = (c.subNodes.filter ContractSubNode.isStruct).length)
          ∧ (∀ f, c.constructor = some f →
              ∃ new, st1.m_ostream = st.m_ostream ++ new
                ∧ ForwardLine.function (tr.translate_contract c).type true
                    (tr.translate_contract c).name f.name ∈ new
                ∧ ctorLineCount new
                    = 1 + (c.subNodes.filter ContractSubNode.isStruct).length))
    ∧ (∀ (tr : TypeTranslator) (st : ForwardDeclState) (s : StructDefinition),
        ∃ st1 rest, accept_struct tr st s = .ok st1
          ∧ st1.m_ostream
              = st.m_ostream ++ ForwardLine.function (tr.translate_struct st.scopes s).type true
                  (tr.translate_struct st.scopes s).name "" :: rest
          ∧ ctorLineCount rest = 0)
    ∧ (∀ m, (default_ctor_def m).isConstructor = true
        ∧ (default_ctor_def m).visibility = Visibility.Public
        ∧ (default_ctor_def m).stateMutability = m
        ∧ (default_ctor_def m).isPayable = false
        ∧ (default_ctor_def m).parameters = []
        ∧ (default_ctor_def m).returnParameters = []
        ∧ (default_ctor_def m).modifiers = []
        ∧ (default_ctor_def m).body = [])
    ∧ (∀ type name, (ForwardLine.function type true name "").render
        = type ++ " " ++ "Ctor" ++ "_" ++ name ++ "\n") := by
  refine ⟨rfl, by decide, ?_, ?_, ?_, fun m => ⟨rfl, rfl, rfl, rfl, rfl, rfl, rfl, rfl⟩, ?_⟩
  · intro tr st c h
    exact accept_contract_stops tr st c h
  · intro tr st c hall hone
    obtain ⟨st1, new, hok, ⟨hs, ho⟩, hcount, hmem⟩ := accept_contract_appends tr st c hall
    refine ⟨st1, hok, hs, ?_, ?_, ?_⟩
    · rw [ho, ctorLineCount_append, ctorLineCount_append, hcount]
      by_cases hc : c.constructor = none
      · have hnil := (constructor_none_iff c).mp hc
        simp [hc, hnil, ctorLineCount, ForwardLine.isCtor]
        omega
      · have hlen : (c.subNodes.filter ContractSubNode.isConstructor).length = 1 := by
          have hpos : c.subNodes.filter ContractSubNode.isConstructor ≠ [] :=
            fun h => hc ((constructor_none_iff c).mpr h)
          have := List.length_pos.mpr hpos
          omega
        simp [hc, hlen, ctorLineCount]
        omega
    · intro hc
      have hnil := (constructor_none_iff c).mp hc
      refine ⟨new, ?_, ?_⟩
      · rw [ho]; simp [hc]
      · rw [hcount, hnil]; simp
    · intro f hf
      have hne : c.constructor ≠ none := by rw [hf]; simp
      obtain ⟨hin, hctor⟩ := constructor_some_mem c f hf
      have hlen : (c.subNodes.filter ContractSubNode.isConstructor).length = 1 := by
        have hmemf : ContractSubNode.function f
            ∈ c.subNodes.filter ContractSubNode.isConstructor :=
          List.mem_filter.mpr ⟨hin, by simpa [ContractSubNode.isConstructor] using hctor⟩
        have := List.length_pos_of_mem hmemf
        omega
      refine ⟨new, ?_, hmem f hin hctor, ?_⟩
      · rw [ho]; simp [hne]
      · rw [hcount, hlen]
  · intro tr st s
    obtain ⟨st1, rest, hok, ⟨-, ho⟩, hc⟩ := accept_struct_appends tr st s
    exact ⟨st1, rest, hok, ho, hc⟩
  · intro type name
    simp [ForwardLine.render]

/-- The example contract `A`, with a structure, a mapping and a public
function and without declared constructor, gives two constructor lines. -/
theorem forward_lines_example :
    (linesOf (accept_contract exampleTranslator ⟨[], []⟩ exampleForwardContract)).map
        ForwardLine.render
      = ["struct A Ctor_A\n", "struct A_StructS Ctor_A_StructS\n",
         "v Read_Map(struct Map *a, address idx);\n",
         "void Write_Map(struct Map *a, address idx, v d);\n",
         "v *Ref_Map(struct Map *a, address idx);\n", "void Method_A_f\n"]
    ∧ ctorLineCount (linesOf (accept_contract exampleTranslator ⟨[], []⟩
        exampleForwardContract)) = 2 := by
  decide

/-- C25, the code at a function that declares return values: for a public or
external function with return values the return-type part of the line is
empty, the line starts with the space. A constructor gives the line
`<type> Ctor_<Contract>` and a public or external function without return
values the line `void Method_<Contract>_<name>`; at a private or internal
function the visit reads the return types through a null pointer and writes no
line. -/
theorem C25_return_type_missing :
    (linesOf (visit_function ⟨[⟨"struct A", "A"⟩], []⟩ exampleNamedReturn)).map
        ForwardLine.render = [" Method_A_f\n"]
    ∧ (∀ st f, f.isConstructor = false →
        f.visibility = Visibility.Public ∨ f.visibility = Visibility.External →
        f.returnParameters ≠ [] →
        visit_function st f
            = .ok ⟨st.scopes, st.m_ostream ++ [.function "" false (scope st).name f.name]⟩
        ∧ (ForwardLine.function "" false (scope st).name f.name).render
            = "" ++ " " ++ "Method" ++ "_" ++ (scope st).name ++ "_" ++ f.name ++ "\n")
    ∧ (∀ st f, f.isConstructor = false →
        f.visibility = Visibility.Public ∨ f.visibility = Visibility.External →
        f.returnParameters = [] →
        visit_function st f
            = .ok ⟨st.scopes, st.m_ostream ++ [.function "void" false (scope st).name f.name]⟩
        ∧ (ForwardLine.function "void" false (scope st).name f.name).render
            = "void" ++ " " ++ "Method" ++ "_" ++ (scope st).name ++ "_" ++ f.name ++ "\n")
    ∧ (∀ st f, f.isConstructor = true →
        visit_function st f
            = .ok ⟨st.scopes,
                st.m_ostream ++ [.function (scope st).type true (scope st).name f.name]⟩
        ∧ (ForwardLine.function (scope st).type true (scope st).name f.name).render
            = (scope st).type ++ " " ++ "Ctor" ++ "_" ++ (scope st).name ++ "\n")
    ∧ (∀ st f, f.isConstructor = false →
        f.visibility = Visibility.Private ∨ f.visibility = Visibility.Internal →
        visit_function st f = .error (.nullDeref "_node.functionType(false)")) := by
  refine ⟨by decide, ?_, ?_, ?_, ?_⟩
  · intro st f hc hv hr
    refine ⟨?_, by simp [ForwardLine.render, String.append_assoc]⟩
    rw [visit_function_external st f hc hv]
    simp [hr]
  · intro st f hc hv hr
    refine ⟨?_, by simp [ForwardLine.render, String.append_assoc]⟩
    rw [visit_function_external st f hc hv]
    simp [hr]
  · intro st f hc
    exact ⟨visit_function_constructor st f hc, by simp [ForwardLine.render]⟩
  · intro st f hc hv
    exact visit_function_internal st f hc hv

end FunctionForwardDeclVisitor

/-! ## Theorems: contract initializer bodies, totality and contents -/

namespace FunctionConverter

theorem push_modifier_args_ok (cv : FunctionConverter) (CARGS : List Expression) :
    ∀ (PARGS : List VariableDeclaration) (i : Nat), i + PARGS.length ≤ CARGS.length →
      ∃ l, cv.push_modifier_args CARGS i PARGS = .ok l := by
  intro PARGS
  induction PARGS with
  | nil => intro i _; exact ⟨[], rfl⟩
  | cons P rest ih =>
    intro i h
    simp only [List.length_cons] at h
    obtain ⟨l, hl⟩ := ih (i + 1) (by omega)
    have hi : i < CARGS.length := by omega
    refine ⟨cv.m_stack.push_argument (CARGS.get ⟨i, hi⟩) true P :: l, ?_⟩
    simp only [push_modifier_args, List.get?_eq_get hi, hl]

theorem push_specifier_args_ok (cv : FunctionConverter) (parent : ContractDefinition)
    (pc : FunctionDefinition) (hpc : parent.constructor = some pc) :
    ∀ (args : List Expression) (i : Nat), i + args.length ≤ pc.parameters.length →
      ∃ l, cv.push_specifier_args parent i args = .ok l := by
  intro args
  induction args with
  | nil => intro i _; exact ⟨[], rfl⟩
  | cons arg rest ih =>
    intro i h
    simp only [List.length_cons] at h
    obtain ⟨l, hl⟩ := ih (i + 1) (by omega)
    have hi : i < pc.parameters.length := by omega
    refine ⟨cv.m_stack.push_argument arg false (pc.parameters.get ⟨i, hi⟩) :: l, ?_⟩
    simp only [push_specifier_args, hpc, List.get?_eq_get hi, hl]

theorem parent_initializer_call_ok (cv : FunctionConverter) (L : Option FunctionDefinition)
    (self_ptr : CExpr) (parent : ContractDefinition) (arguments : Option (List Expression))
    (parent_call : String) (h : parent_call_fits L parent arguments = true) :
    ∃ call, cv.parent_initializer_call L self_ptr parent arguments parent_call = .ok call := by
  simp only [parent_call_fits, Bool.and_eq_true] at h
  obtain ⟨hm, hs⟩ := h
  have hmod : ∃ margs, (match L with
      | some ctor =>
        match ctor.modifiers.find? (fun CTOR_MOD => CTOR_MOD.name == parent.name) with
        | some CTOR_MOD =>
          match CTOR_MOD.arguments with
          | some CARGS =>
            match parent.constructor with
            | none => Except.error (GenFault.nullDeref "parent.constructor()")
            | some pc => cv.push_modifier_args CARGS 0 pc.parameters
          | none => .ok []
        | none => .ok []
      | none => .ok []) = Except.ok margs := by
    cases L with
    | none => exact ⟨[], rfl⟩
    | some ctor =>
      simp only at hm ⊢
      cases hf : ctor.modifiers.find? (fun CTOR_MOD => CTOR_MOD.name == parent.name) with
      | none => exact ⟨[], rfl⟩
      | some M =>
        simp only [hf] at hm ⊢
        cases ha : M.arguments with
        | none => exact ⟨[], rfl⟩
        | some CARGS =>
          simp only [ha] at hm ⊢
          cases hp : parent.constructor with
          | none => simp [hp] at hm
          | some pc =>
            simp only [hp, decide_eq_true_eq] at hm ⊢
            exact push_modifier_args_ok cv CARGS pc.parameters 0 (by omega)
  have hspec : ∃ sargs, (match arguments with
      | some args => cv.push_specifier_args parent 0 args
      | none => .ok []) = Except.ok sargs := by
    cases arguments with
    | none => exact ⟨[], rfl⟩
    | some args =>
      simp only at hs ⊢
      cases args with
      | nil => exact ⟨[], rfl⟩
      | cons a rest =>
        simp only [List.isEmpty_cons, Bool.false_or] at hs
        cases hp : parent.constructor with
        | none => simp [hp] at hs
        | some pc =>
          simp only [hp, decide_eq_true_eq] at hs
          exact push_specifier_args_ok cv parent pc hp (a :: rest) 0 (by omega)
  obtain ⟨margs, hmargs⟩ := hmod
  obtain ⟨sargs, hsargs⟩ := hspec
  refine ⟨.call parent_call ([self_ptr] ++ cv.m_stack.next_state_args ++ margs ++ sargs), ?_⟩
  simp only [parent_initializer_call, hmargs, hsargs]

theorem generate_params_head (cv : FunctionConverter) (decls : List VariableDeclaration)
    (f : ContractDefinition) (hlib : f.isLibrary = false) (ctx : VarContext) (ins : Bool) :
    (cv.generate_params decls (some f) none ctx ins).head?
      = some ⟨cv.m_stack.get_type_contract f, "self", true⟩ := by
  simp [generate_params, hlib]

mutual
theorem handle_contract_initializer_ok (cv : FunctionConverter) :
    ∀ (c f : ContractDefinition) (st : ConverterState), f.isLibrary = false →
      chain_fits c = true →
      ∃ st1, cv.handle_contract_initializer c f st = .ok (cv.m_stack.init_call_name c f, st1)
  | .mk id name isInterface isLibrary LOCAL_CTOR baseContracts stateVariables, f, st, hlib,
    hfit => by
    rw [handle_contract_initializer_eq]
    by_cases hv : cv.M_VIEW = View.INT
    · exact ⟨st, by simp [hv]⟩
    · simp only [hv, if_false]
      split
      · exact ⟨st, rfl⟩
      · rw [generate_params_head cv _ f hlib]
        simp only [chain_fits] at hfit
        obtain ⟨calls, st2, hp⟩ := parent_initializers_ok cv LOCAL_CTOR
          (CVarDecl.id ⟨cv.m_stack.get_type_contract f, "self", true⟩) baseContracts f
          (cv.constructor_step LOCAL_CTOR f
            { st with m_visited := initializer_key (ContractDefinition.mk id name isInterface
              isLibrary LOCAL_CTOR baseContracts stateVariables) f :: st.m_visited }).2.2
          hlib hfit
        simp only [ContractDefinition.constructor, ContractDefinition.baseContracts]
        rw [hp]
        exact ⟨_, rfl⟩
theorem parent_initializers_ok (cv : FunctionConverter) (L : Option FunctionDefinition)
    (self_ptr : CExpr) :
    ∀ (bs : List InheritanceSpecifier) (f : ContractDefinition) (st : ConverterState),
      f.isLibrary = false → bases_fit L bs = true →
      ∃ calls st1, parent_initializers cv L self_ptr f bs st = .ok (calls, st1)
  | [], f, st, _, _ => ⟨[], st, rfl⟩
  | .mk parent arguments :: rest, f, st, hlib, hfit => by
    simp only [bases_fit, Bool.and_eq_true, Bool.or_eq_true] at hfit
    obtain ⟨hhead, hrest⟩ := hfit
    simp only [parent_initializers]
    by_cases hi : parent.isInterface = true
    · simp only [hi, if_true]
      exact parent_initializers_ok cv L self_ptr rest f st hlib hrest
    · simp only [hi, if_false]
      rcases hhead with hhead | ⟨hchain, hcall⟩
      · exact absurd hhead hi
      · obtain ⟨st2, h2⟩ := handle_contract_initializer_ok cv parent f st hlib hchain
        obtain ⟨call, hc⟩ := parent_initializer_call_ok cv L self_ptr parent arguments
          (cv.m_stack.init_call_name parent f) hcall
        obtain ⟨calls, st3, h3⟩ := parent_initializers_ok cv L self_ptr rest f st2 hlib hrest
        exact ⟨call :: calls, st3, by simp [h2, hc, h3]⟩
end

/-- The body of the initializer written by a call that completes on a key not
yet visited. -/
theorem initializer_body_of_ok (cv : FunctionConverter) (c f : ContractDefinition)
    (st : ConverterState) (n : String) (st1 : ConverterState)
    (hv : cv.M_VIEW ≠ View.INT) (hfwd : cv.M_FWD_DCL = false)
    (hk : initializer_key c f ∉ st.m_visited)
    (h : cv.handle_contract_initializer c f st = .ok (n, st1)) :
    ∃ (pre : List CFuncDef) (d : CFuncDef) (self_ptr : CExpr) (calls : List CExpr),
      st1.m_ostream = st.m_ostream ++ pre ++ [d]
      ∧ d.id.name = cv.m_stack.init_call_name c f
      ∧ d.body = some (
          (if c.id = f.id then
            [CStmt.expr (.assign (.member self_ptr cv.m_stack.balance_member)
              cv.m_stack.balance_init)]
           else [])
          ++ calls.map (fun call => CStmt.expr call)
          ++ c.stateVariables.filterMap (fun decl =>
              if decl.category = TypeCategory.Contract then none
              else some (CStmt.expr (.assign
                (.member self_ptr (cv.m_stack.rewrite decl.name false VarContext.STRUCT))
                (match decl.value with
                 | some value => cv.m_stack.wrap decl.type (cv.m_stack.convert_expression value)
                 | none => cv.m_stack.get_init_val decl))))
          ++ (match c.constructor with
              | some ctor =>
                [CStmt.expr (.call (cv.m_stack.spec_name ⟨ctor, f⟩ 0)
                  (self_ptr :: cv.m_stack.next_state_args ++ ctor.parameters.map (fun decl =>
                    CExpr.ident (cv.m_stack.rewrite decl.name false VarContext.STRUCT) false)))]
              | none => []))
      ∧ calls.map calledName
          = (c.baseContracts.filter (fun b => !b.referenced.isInterface)).map
              (fun b => some (cv.m_stack.init_call_name b.referenced f))
      ∧ ∀ call ∈ calls, ∃ fn rest,
          call = .call fn (self_ptr :: cv.m_stack.next_state_args ++ rest) := by
  rw [handle_contract_initializer_eq] at h
  simp only [hv, hk, if_false] at h
  split at h
  · cases h
  · rename_i p0 hp0
    split at h
    · cases h
    · rename_i calls st2 hpar
      simp only [Except.ok.injEq, Prod.mk.injEq] at h
      have hg := parent_initializers_grows cv _ _ _ f _ calls st2 hpar
      have hc := constructor_step_grows cv c.constructor f
        ⟨initializer_key c f :: st.m_visited, st.m_ostream⟩
      obtain ⟨-, ⟨new, hnew⟩, -⟩ := Grows_trans hc hg
      obtain ⟨hcalled, hshape⟩ := parent_initializers_called cv _ _ f _ _ calls st2 hpar
      rw [← h.2]
      refine ⟨new,
        cv.initializer_def c f
          (cv.generate_params
            (cv.constructor_step c.constructor f
              ⟨initializer_key c f :: st.m_visited, st.m_ostream⟩).1
            (some f) none VarContext.STRUCT false)
          p0.id
          (cv.constructor_step c.constructor f
            ⟨initializer_key c f :: st.m_visited, st.m_ostream⟩).2.1
          calls, p0.id, calls, ?_, rfl, ?_, hcalled, hshape⟩
      · simp only [hnew]
      · simp only [initializer_def, hfwd, Bool.not_false, if_true, initializer_body,
          List.nil_append, Option.some.injEq]
        have hsv : cv.state_variable_init p0.id = fun decl =>
            if decl.category = TypeCategory.Contract then none
            else some (CStmt.expr (.assign
              (.member p0.id (cv.m_stack.rewrite decl.name false VarContext.STRUCT))
              (match decl.value with
               | some value => cv.m_stack.wrap decl.type (cv.m_stack.convert_expression value)
               | none => cv.m_stack.get_init_val decl))) := by
          funext decl; rfl
        rw [hsv]
        cases hctor : c.constructor with
        | none => simp
        | some ctor => simp [constructor_step, handle_function_fst]

/-- C17: for every pair (initialized, context) lowered with bodies, on a key
not yet visited, for a context that is not a library and a chain whose
argument lists fit, `handle_contract_initializer` completes, returns the name
of the initializer and writes its definition last. The body of that definition
is, in this order: the assignment of the balance member, present iff
initialized and context are the same contract; one call per direct base
contract that is not an interface, in the order of the base list, each to the
initializer of that base for the context, with the self pointer and the
environment first; one assignment per own state variable that is not
contract-typed, in declaration order, of the wrapped declared value if there
is one and of the initial value of the type otherwise; and last the call of
the local constructor, present iff the contract declares one. -/
theorem C17_initializer_body (cv : FunctionConverter) (c f : ContractDefinition)
    (st : ConverterState)
    (hv : cv.M_VIEW ≠ View.INT) (hfwd : cv.M_FWD_DCL = false)
    (hk : initializer_key c f ∉ st.m_visited)
    (hlib : f.isLibrary = false) (hfit : chain_fits c = true) :
    ∃ (st1 : ConverterState) (pre : List CFuncDef) (d : CFuncDef) (self_ptr : CExpr)
      (calls : List CExpr),
      cv.handle_contract_initializer c f st = .ok (cv.m_stack.init_call_name c f, st1)
      ∧ st1.m_ostream = st.m_ostream ++ pre ++ [d]
      ∧ d.id.name = cv.m_stack.init_call_name c f
      ∧ d.body = some (
          (if c.id = f.id then
            [CStmt.expr (.assign (.member self_ptr cv.m_stack.balance_member)
              cv.m_stack.balance_init)]
           else [])
          ++ calls.map (fun call => CStmt.expr call)
          ++ c.stateVariables.filterMap (fun decl =>
              if decl.category = TypeCategory.Contract then none
              else some (CStmt.expr (.assign
                (.member self_ptr (cv.m_stack.rewrite decl.name false VarContext.STRUCT))
                (match decl.value with
                 | some value => cv.m_stack.wrap decl.type (cv.m_stack.convert_expression value)
                 | none => cv.m_stack.get_init_val decl))))
          ++ (match c.constructor with
              | some ctor =>
                [CStmt.expr (.call (cv.m_stack.spec_name ⟨ctor, f⟩ 0)
                  (self_ptr :: cv.m_stack.next_state_args ++ ctor.parameters.map (fun decl =>
                    CExpr.ident (cv.m_stack.rewrite decl.name false VarContext.STRUCT) false)))]
              | none => []))
      ∧ calls.length = (c.baseContracts.filter (fun b => !b.referenced.isInterface)).length
      ∧ calls.map calledName
          = (c.baseContracts.filter (fun b => !b.referenced.isInterface)).map
              (fun b => some (cv.m_stack.init_call_name b.referenced f))
      ∧ ∀ call ∈ calls, ∃ fn rest,
          call = .call fn (self_ptr :: cv.m_stack.next_state_args ++ rest) := by
  obtain ⟨st1, hok⟩ := handle_contract_initializer_ok cv c f st hlib hfit
  obtain ⟨pre, d, self_ptr, calls, h1, h2, h3, h4, h5⟩ :=
    initializer_body_of_ok cv c f st _ st1 hv hfwd hk hok
  refine ⟨st1, pre, d, self_ptr, calls, hok, h1, h2, h3, ?_, h4, h5⟩
  have := congrArg List.length h4
  simpa using this

/-- Witness of C17: the initializer of the example contract `Q is P(1)` for
itself, with a state variable with a value, a contract-typed state variable
and a constructor. -/
theorem C17_initializer_body_witness :
    exampleChainConverter.M_VIEW ≠ View.INT
    ∧ exampleChainConverter.M_FWD_DCL = false
    ∧ initializer_key exampleChild exampleChild ∉ (⟨[], []⟩ : ConverterState).m_visited
    ∧ exampleChild.isLibrary = false
    ∧ chain_fits exampleChild = true
    ∧ ∃ (st1 : ConverterState) (calls : List CExpr),
        exampleChainConverter.handle_contract_initializer exampleChild exampleChild ⟨[], []⟩
          = .ok ("Init_Q", st1)
        ∧ calls.length = 1
        ∧ calls.map calledName = [some "Init_P_for_Q"] :=
  ⟨by decide, rfl, by decide, rfl, by decide,
   (C17_initializer_body exampleChainConverter exampleChild exampleChild ⟨[], []⟩
      (by decide) rfl (by decide) rfl (by decide)).elim
     (fun st1 h1 => h1.elim (fun _ h2 => h2.elim (fun _ h3 => h3.elim (fun _ h4 =>
       h4.elim (fun calls h => ⟨st1, calls, h.1, h.2.2.2.2.1, h.2.2.2.2.2.1⟩)))))⟩

/-- The definitions written for the example contract `Q is P(1)` and the body
of its initializer: the balance, the call of the initializer of `P` with the
argument of the base specifier, the state variable `y` (the contract-typed
`peer` is skipped), the call of the constructor. -/
theorem initializer_chain_example :
    (writtenBy (exampleChainConverter.handle_contract_initializer exampleChild exampleChild
        ⟨[], []⟩)).map (fun d => d.id.name)
      = ["Ctor_Q", "Ctor_P_for_Q", "Init_P_for_Q", "Init_Q"]
    ∧ lastBody (writtenBy (exampleChainConverter.handle_contract_initializer exampleChild
        exampleChild ⟨[], []⟩))
      = [.expr (.assign (.member (.ident "self" true) "model_balance") (.intLit 0)),
         .expr (.call "Init_P_for_Q"
           [.ident "self" true, .ident "sender" false, .ident "value" false,
            .ident "1" false]),
         .expr (.assign (.member (.ident "self" true) "user_y") (.ident "2" false)),
         .expr (.call "Ctor_Q"
           [.ident "self" true, .ident "sender" false, .ident "value" false,
            .ident "user_b" false])] :=
  ⟨by decide, rfl⟩

end FunctionConverter

/-! ## Theorems: hooks and return statements of the function block converter -/

/-- The converter built for a function with at most one return value: its
block kind is the one fixed from the return parameters and `m_rv` is the first
return parameter, if there is one. -/
theorem make_ok (_func : FunctionDefinition) (alloc : VariableDeclaration → Bool)
    (expand : Expression → CExpr) (wrap : String → CExpr → CExpr)
    (get_type : VariableDeclaration → String) (h1 : _func.returnParameters.length ≤ 1) :
    ∃ block_type, determine_block_type alloc _func.returnParameters = .ok block_type
      ∧ (block_type = BlockType.Action ↔ _func.returnParameters = [])
      ∧ FunctionBlockConverter.make _func alloc expand wrap get_type
          = .ok { block_type := block_type, m_rv := _func.returnParameters.head?,
                  expand := expand, wrap := wrap, get_type := get_type } := by
  cases hr : _func.returnParameters with
  | nil =>
    refine ⟨.Action, rfl, by simp, ?_⟩
    simp [FunctionBlockConverter.make, hr, determine_block_type,
      FunctionBlockConverter.has_retval]
  | cons rv rest =>
    cases rest with
    | cons rv2 rest2 => rw [hr] at h1; simp at h1
    | nil =>
      by_cases hc : rv.category = TypeCategory.Contract
      · cases ha : alloc rv
        · refine ⟨.AddressRef, by simp [determine_block_type, hc, ha], by simp, ?_⟩
          simp [FunctionBlockConverter.make, hr, determine_block_type, hc, ha,
            FunctionBlockConverter.has_retval]
        · refine ⟨.Initializer, by simp [determine_block_type, hc, ha], by simp, ?_⟩
          simp [FunctionBlockConverter.make, hr, determine_block_type, hc, ha,
            FunctionBlockConverter.has_retval]
      · refine ⟨.Operation, by simp [determine_block_type, hc], by simp, ?_⟩
        simp [FunctionBlockConverter.make, hr, determine_block_type, hc,
          FunctionBlockConverter.has_retval]

/-- The hooks in terms of the return parameter the converter holds. -/
theorem hooks_on_return_parameter {R : Type} (cv : FunctionBlockConverter)
    (ops : ScopeResolverOps R) (_stmts : List CStmt) (_decls : R) :
    (∀ rv, cv.m_rv = some rv → rv.name ≠ "" →
        cv.enter ops _stmts _decls
          = (_stmts ++ [.decl (cv.get_type rv)
                (ops.resolve_declaration
                  (ops.record_declaration (ops.assign_spec _decls cv.m_spec) rv) rv) false],
             ops.record_declaration (ops.assign_spec _decls cv.m_spec) rv)
        ∧ cv.exit ops _stmts _decls
          = _stmts ++ [.ret (some (.ident (ops.resolve_declaration _decls rv) false))])
    ∧ ((cv.m_rv = none ∨ ∃ rv, cv.m_rv = some rv ∧ rv.name = "") →
        cv.enter ops _stmts _decls = (_stmts, ops.assign_spec _decls cv.m_spec)
        ∧ cv.exit ops _stmts _decls = _stmts) := by
  refine ⟨?_, ?_⟩
  · intro rv hrv hname
    exact ⟨by simp [FunctionBlockConverter.enter, hrv, hname],
      by simp [FunctionBlockConverter.exit, hrv, hname, CVarDecl.id]⟩
  · rintro (h | ⟨rv, h, hname⟩)
    · simp [FunctionBlockConverter.enter, FunctionBlockConverter.exit, h]
    · simp [FunctionBlockConverter.enter, FunctionBlockConverter.exit, h, hname]

/-- C26: for every function the converter can be built for (at most one
return value), the converter built for it and set for a specialization has
these hooks. When the first return parameter of the function has a non-empty
name, `enter` records it in the resolver and adds the declaration of the local
under its resolved name, first in the list the body is added to, and `exit`
adds the return of the local under the name the resolver gives, which on the
resolver `enter` leaves is the declared local. When the function has no return
value or the name is empty, neither hook adds a statement. -/
theorem C26_entry_exit_hooks {R : Type} (_func : FunctionDefinition)
    (alloc : VariableDeclaration → Bool) (expand : Expression → CExpr)
    (wrap : String → CExpr → CExpr) (get_type : VariableDeclaration → String)
    (_for : FunctionSpecialization) (ops : ScopeResolverOps R) (_stmts : List CStmt)
    (_decls : R) (h1 : _func.returnParameters.length ≤ 1) :
    ∃ made, FunctionBlockConverter.make _func alloc expand wrap get_type = .ok made
      ∧ made.m_rv = _func.returnParameters.head?
      ∧ (∀ rv, _func.returnParameters.head? = some rv → rv.name ≠ "" →
          (made.set_for _for).enter ops _stmts _decls
            = (_stmts ++ [.decl (get_type rv)
                  (ops.resolve_declaration
                    (ops.record_declaration (ops.assign_spec _decls (some _for)) rv) rv) false],
               ops.record_declaration (ops.assign_spec _decls (some _for)) rv)
          ∧ (made.set_for _for).exit ops _stmts _decls
            = _stmts ++ [.ret (some (.ident (ops.resolve_declaration _decls rv) false))]
          ∧ ∀ body,
              (made.set_for _for).exit ops
                  (((made.set_for _for).enter ops [] _decls).1 ++ body)
                  ((made.set_for _for).enter ops [] _decls).2
                = [.decl (get_type rv)
                    (ops.resolve_declaration
                      (ops.record_declaration (ops.assign_spec _decls (some _for)) rv) rv)
                    false]
                  ++ body
                  ++ [.ret (some (.ident
                      (ops.resolve_declaration
                        (ops.record_declaration (ops.assign_spec _decls (some _for)) rv) rv)
                      false))])
      ∧ ((_func.returnParameters = []
            ∨ ∃ rv, _func.returnParameters.head? = some rv ∧ rv.name = "") →
          (made.set_for _for).enter ops _stmts _decls
            = (_stmts, ops.assign_spec _decls (some _for))
          ∧ (made.set_for _for).exit ops _stmts _decls = _stmts) := by
  obtain ⟨block_type, -, -, hmake⟩ := make_ok _func alloc expand wrap get_type h1
  refine ⟨_, hmake, rfl, ?_, ?_⟩
  · intro rv hrv hname
    refine ⟨?_, ?_, ?_⟩
    · simp [FunctionBlockConverter.enter, FunctionBlockConverter.set_for, hrv, hname]
    · simp [FunctionBlockConverter.exit, FunctionBlockConverter.set_for, hrv, hname,
        CVarDecl.id]
    · intro body
      simp [FunctionBlockConverter.enter, FunctionBlockConverter.exit,
        FunctionBlockConverter.set_for, hrv, hname, CVarDecl.id]
  · rintro (h | ⟨rv, h, hname⟩)
    · simp [FunctionBlockConverter.enter, FunctionBlockConverter.exit,
        FunctionBlockConverter.set_for, h]
    · simp [FunctionBlockConverter.enter, FunctionBlockConverter.exit,
        FunctionBlockConverter.set_for, h, hname]

/-- Witness of C26: the converter of `function f() returns (uint256 total)`
declares the local `func_user_total` and returns it. -/
theorem C26_entry_exit_hooks_witness :
    exampleNamedReturn.returnParameters.length ≤ 1
    ∧ ∃ made, FunctionBlockConverter.make exampleNamedReturn (fun _ => false)
          (fun e => .ident e.text false) (fun _ e => e) (fun d => d.type) = .ok made
      ∧ made.m_rv = some ⟨"total", "sol_uint256_t", .Other, none⟩
      ∧ ((made.set_for ⟨exampleNamedReturn, exampleTop⟩).enter exampleResolverOps []
            (none, [])).1
          = [.decl "sol_uint256_t" "func_user_total" false]
      ∧ (made.set_for ⟨exampleNamedReturn, exampleTop⟩).exit exampleResolverOps []
            (none, [])
          = [.ret (some (.ident "func_user_total" false))] :=
  ⟨by decide,
   (C26_entry_exit_hooks exampleNamedReturn (fun _ => false) (fun e => .ident e.text false)
      (fun _ e => e) (fun d => d.type) ⟨exampleNamedReturn, exampleTop⟩ exampleResolverOps []
      (none, []) (by decide)).elim
     (fun made h => ⟨made, h.1, h.2.1,
       congrArg Prod.fst (h.2.2.1 ⟨"total", "sol_uint256_t", .Other, none⟩ rfl (by decide)).1,
       (h.2.2.1 ⟨"total", "sol_uint256_t", .Other, none⟩ rfl (by decide)).2.1⟩)⟩

/-- When the visit of a return statement yields a statement: the block kind is
Action, or the statement has an expression and, for Operation and AddressRef,
the converter holds a return parameter. -/
theorem visit_return_ok_iff (cv : FunctionBlockConverter) (expression : Option Expression) :
    (∃ s, cv.visit_return expression = .ok s) ↔
      cv.block_type = .Action
      ∨ (cv.block_type = .Initializer ∧ expression ≠ none)
      ∨ ((cv.block_type = .Operation ∨ cv.block_type = .AddressRef)
          ∧ expression ≠ none ∧ cv.m_rv ≠ none) := by
  cases hb : cv.block_type <;> cases expression <;> cases hr : cv.m_rv <;>
    simp [FunctionBlockConverter.visit_return, hb, hr]

/-- The return statement `return total;` in `function f() returns (uint256
total)`, lowered in an Operation block. -/
theorem return_with_value_example :
    returnTypeChecks exampleNamedReturn (some ⟨"total"⟩) = true
    ∧ returnTypeChecks exampleNamedReturn none = false
    ∧ determine_block_type (fun _ => false) exampleNamedReturn.returnParameters
        = .ok .Operation
    ∧ FunctionBlockConverter.visit_return
        { block_type := .Operation, m_rv := exampleNamedReturn.returnParameters.head?,
          expand := fun e => .ident e.text false, wrap := fun _ e => e } (some ⟨"total"⟩)
      = .ok (.ret (some (.ident "total" false))) :=
  ⟨by decide, by decide, rfl, rfl⟩

end ModelCheck
